import Mathlib

/-!
# UsePointApisCheck

A shallow embedding of `tools/clang-tidy-plugin/UsePointApisCheck.cpp`:
the overload comparison `doFunctionsMatch` and the call-site check `CheckCall`.

The AST nodes are records that hold exactly what the check reads from them.
Pointer identity of declarations is an address (`addr`).  `unsigned int`
arithmetic is arithmetic on `Nat` modulo `2 ^ 32`.  An access that the C++
leaves undefined (a parameter or argument index out of range, a call through a
null pointer) makes the embedded function return `none`.
-/

namespace Cata

/-! ## Unsigned arithmetic -/

/-- The value of `UINT_MAX` for a 32 bit `unsigned int`. -/
def UINT_MAX : Nat := 4294967295

/-- Subtraction of `unsigned int` values: `a - b` modulo `2 ^ 32`. -/
def usub (a b : Nat) : Nat := (a + 4294967296 - b % 4294967296) % 4294967296

/-- Addition of `unsigned int` values: `a + b` modulo `2 ^ 32`. -/
def uadd (a b : Nat) : Nat := (a + b) % 4294967296

/-! ## AST nodes -/

/-- A position in the source text. -/
abbrev SourceLocation := Nat

/-- A `QualType`, by its two renderings the check reads: `getAsString()` and
`getLocalUnqualifiedType().getAsString()`. -/
structure QualType where
  asString : String
  localUnqualified : String
deriving DecidableEq

/-- A `ParmVarDecl`: `getName()` and `getType()`. -/
structure ParmVarDecl where
  name : String
  type : QualType
deriving DecidableEq

/-- The values of `getOverloadedOperator()` the check tells apart. -/
inductive OverloadedOperatorKind where
  | OO_None
  | OO_Call
  | OO_Subscript
  | OO_Equal
  | OO_Other
deriving DecidableEq

/-- A `FunctionTemplateDecl`: its own address and the declaration it
templates (the pattern), given by that declaration's fields. -/
structure FunctionTemplateDecl where
  addr : Nat
  templatedAddr : Nat
  templatedName : String
  templatedLocation : SourceLocation
  templatedParams : List ParmVarDecl
  templatedOperator : OverloadedOperatorKind
deriving DecidableEq

/-- A `FunctionDecl`.  `primaryTemplate` is `getPrimaryTemplate()`: the
template a specialization was instantiated from, `none` for every other
function. -/
structure FunctionDecl where
  addr : Nat
  name : String
  location : SourceLocation
  params : List ParmVarDecl
  overloadedOperator : OverloadedOperatorKind
  primaryTemplate : Option FunctionTemplateDecl
deriving DecidableEq

/-- `FunctionDecl::getNumParams()`. -/
def FunctionDecl.getNumParams (F : FunctionDecl) : Nat := F.params.length

/-- `FunctionDecl::getParamDecl( i )`; `none` when `i` is out of range. -/
def FunctionDecl.getParamDecl (F : FunctionDecl) (i : Nat) : Option ParmVarDecl := F.params[i]?

/-- `FunctionTemplateDecl::getTemplatedDecl()`: the pattern, which is not
itself a specialization of any template. -/
def FunctionTemplateDecl.getTemplatedDecl (T : FunctionTemplateDecl) : FunctionDecl :=
  { addr := T.templatedAddr
    name := T.templatedName
    location := T.templatedLocation
    params := T.templatedParams
    overloadedOperator := T.templatedOperator
    primaryTemplate := none }

/-- A declaration found by name lookup, by the two `dyn_cast`s the check
tries on it. -/
inductive NamedDecl where
  | function (F : FunctionDecl)
  | functionTemplate (T : FunctionTemplateDecl)
  | other
deriving DecidableEq

/-- An argument expression: where it begins and ends, its source text
(`getText`), and whether it is a `CXXDefaultArgExpr`. -/
structure Expr where
  beginLoc : SourceLocation
  endLoc : SourceLocation
  text : String
  isDefaultArg : Bool
deriving DecidableEq

/-- A `CallExpr`: `getBeginLoc()` and the arguments. -/
structure CallExpr where
  beginLoc : SourceLocation
  args : List Expr
deriving DecidableEq

/-- A `CXXConstructExpr`: `getBeginLoc()` and the arguments. -/
structure CXXConstructExpr where
  beginLoc : SourceLocation
  args : List Expr
deriving DecidableEq

/-- The result of `NameConvention::Match`. -/
inductive NameMatch where
  | XName
  | YName
  | ZName
  | None
deriving DecidableEq

/-- The interface of the class `NameConvention` (declared in `Utils.h`): the
conversion to `bool` and `Match`. -/
structure NameConvention where
  valid : Bool
  Match : String → NameMatch

/-- One match handed to the check: the five bound nodes, and the two things the
check asks the AST context about them, the function containing the call
(`getContainingFunction`) and the declarations found by
`Callee->getDeclContext()->lookup( Callee->getDeclName() )`, in lookup order. -/
structure MatchResult where
  XParam : Option ParmVarDecl
  XArg : Option Expr
  Call : Option CallExpr
  ConstructorCall : Option CXXConstructExpr
  Callee : Option FunctionDecl
  ContainingFunction : Option FunctionDecl
  Lookup : List NamedDecl

/-! ## Diagnostics -/

/-- A value streamed into a diagnostic with `<<`. -/
inductive DiagArg where
  | uint (n : Nat)
  | decl (name : String)
deriving DecidableEq

/-- The fix-it made by `FixItHint::CreateReplacement`: the token range from
the begin of `rangeBegin`'s token to the end of `rangeEnd`'s token, and the
text put in its place. -/
structure FixItHint where
  rangeBegin : SourceLocation
  rangeEnd : SourceLocation
  text : String
deriving DecidableEq

/-- One call of `Check.diag`. -/
structure Diagnostic where
  loc : SourceLocation
  message : String
  isNote : Bool
  args : List DiagArg
  fixit : Option FixItHint
deriving DecidableEq

/-! ## doFunctionsMatch -/

/-- The type name expected for the collapsed parameter. -/
def ExpectedTypeName (IsTripoint : Bool) : String :=
  "const struct " ++ (if IsTripoint then "tripoint" else "point") ++ " &"

/-- The `for` loop of `doFunctionsMatch` from the state
`(CalleeParamI, OtherCalleeParamI)`.  Every iteration reads the parameter
`OtherCalleeParamI` of `OtherCallee` and advances that index by one, so the
loop body runs at most `OtherCallee->getNumParams() + 1` times before a read
is out of range; the first argument counts the evaluations of the loop
condition that are left. -/
def doFunctionsMatchLoop (Callee OtherCallee : FunctionDecl)
    (NumCoordParams SkipArgs MinArg : Nat) (IsTripoint : Bool) :
    Nat → Nat → Nat → Option Bool
  | 0, _, _ => none
  | fuel + 1, CalleeParamI, OtherCalleeParamI =>
    if CalleeParamI < Callee.getNumParams then
      match Callee.getParamDecl CalleeParamI, OtherCallee.getParamDecl OtherCalleeParamI with
      | some CalleeParam, some OtherCalleeParam =>
        if CalleeParamI = usub MinArg SkipArgs then
          if OtherCalleeParam.type.asString ≠ ExpectedTypeName IsTripoint then
            some false
          else
            doFunctionsMatchLoop Callee OtherCallee NumCoordParams SkipArgs MinArg IsTripoint fuel
              (uadd (uadd CalleeParamI (usub NumCoordParams 1)) 1) (uadd OtherCalleeParamI 1)
        else
          if CalleeParam.type.localUnqualified ≠ OtherCalleeParam.type.localUnqualified then
            some false
          else
            doFunctionsMatchLoop Callee OtherCallee NumCoordParams SkipArgs MinArg IsTripoint fuel
              (uadd CalleeParamI 1) (uadd OtherCalleeParamI 1)
      | _, _ => none
    else
      some true

/-- The function `doFunctionsMatch`. -/
def doFunctionsMatch (Callee OtherCallee : FunctionDecl)
    (NumCoordParams SkipArgs MinArg : Nat) (IsTripoint : Bool) : Option Bool :=
  let ExpectedNumParams := usub Callee.getNumParams (usub NumCoordParams 1)
  if OtherCallee.getNumParams ≠ ExpectedNumParams then
    some false
  else
    doFunctionsMatchLoop Callee OtherCallee NumCoordParams SkipArgs MinArg IsTripoint
      (OtherCallee.getNumParams + 1) 0 0

/-! ## CheckCall -/

/-- `Call ? Call->getNumArgs() : ConstructorCall->getNumArgs()`. -/
def NumCallArgs (Result : MatchResult) : Nat :=
  match Result.Call, Result.ConstructorCall with
  | some Call, _ => Call.args.length
  | none, some ConstructorCall => ConstructorCall.args.length
  | none, none => 0

/-- `Call ? Call->getBeginLoc() : ConstructorCall->getBeginLoc()`. -/
def CallBeginLoc (Result : MatchResult) : SourceLocation :=
  match Result.Call, Result.ConstructorCall with
  | some Call, _ => Call.beginLoc
  | none, some ConstructorCall => ConstructorCall.beginLoc
  | none, none => 0

/-- The lambda `GetCallArg`; `none` when the index is out of range. -/
def GetCallArg (Result : MatchResult) (Arg : Nat) : Option Expr :=
  match Result.Call, Result.ConstructorCall with
  | some Call, _ => Call.args[Arg]?
  | none, some ConstructorCall => ConstructorCall.args[Arg]?
  | none, none => none

/-- The value given to `SkipArgs`: one for `operator()`, `operator[]` and
`operator=`, zero otherwise. -/
def SkipArgsOf (Callee : FunctionDecl) : Nat :=
  if Callee.overloadedOperator = OverloadedOperatorKind.OO_Call ∨
      Callee.overloadedOperator = OverloadedOperatorKind.OO_Subscript ∨
      Callee.overloadedOperator = OverloadedOperatorKind.OO_Equal then 1 else 0

/-- The variables the scan over the arguments updates. -/
structure ScanState where
  YArg : Option Expr
  ZArg : Option Expr
  MinArg : Nat
  MaxArg : Nat
deriving DecidableEq

/-- The state before the scan: `YArg = ZArg = nullptr`, `MinArg = UINT_MAX`,
`MaxArg = 0`. -/
def ScanState.init : ScanState :=
  { YArg := none, ZArg := none, MinArg := UINT_MAX, MaxArg := 0 }

/-- One iteration of the scan, at argument index `i`. -/
def scanStep (NameMatcher : NameConvention) (Callee : FunctionDecl) (Result : MatchResult)
    (SkipArgs i : Nat) (s : ScanState) : Option ScanState :=
  match Callee.getParamDecl (usub i SkipArgs) with
  | none => none
  | some Param =>
    match NameMatcher.Match Param.name with
    | NameMatch.XName =>
      some { s with MinArg := min s.MinArg i, MaxArg := max s.MaxArg i }
    | NameMatch.YName =>
      match GetCallArg Result i with
      | none => none
      | some Arg => some { s with YArg := some Arg, MinArg := min s.MinArg i, MaxArg := max s.MaxArg i }
    | NameMatch.ZName =>
      match GetCallArg Result i with
      | none => none
      | some Arg => some { s with ZArg := some Arg, MinArg := min s.MinArg i, MaxArg := max s.MaxArg i }
    | NameMatch.None => some s

/-- The loop `for( i = SkipArgs; i < NumCallArgs; ++i )`, from index `i` with
`n` iterations left (the loop runs `NumCallArgs - SkipArgs` times when
`SkipArgs <= NumCallArgs`, and not at all otherwise). -/
def scanLoop (NameMatcher : NameConvention) (Callee : FunctionDecl) (Result : MatchResult)
    (SkipArgs : Nat) : Nat → Nat → ScanState → Option ScanState
  | 0, _, s => some s
  | n + 1, i, s =>
    match scanStep NameMatcher Callee Result SkipArgs i s with
    | none => none
    | some s1 => scanLoop NameMatcher Callee Result SkipArgs n (i + 1) s1

/-- The search over the lookup result for `NewCallee`.  The outer `none` is an
undefined read inside `doFunctionsMatch`; `some none` is a finished search that
found nothing. -/
def findNewCallee (Callee : FunctionDecl) (ContainingFunction : Option FunctionDecl)
    (NumCoordParams SkipArgs MinArg : Nat) (IsTripoint : Bool) :
    List NamedDecl → Option (Option FunctionDecl)
  | [] => some none
  | NamedDecl.function OtherCallee :: rest =>
    if OtherCallee.addr = Callee.addr ∨
        ContainingFunction.map FunctionDecl.addr = some OtherCallee.addr then
      findNewCallee Callee ContainingFunction NumCoordParams SkipArgs MinArg IsTripoint rest
    else
      match doFunctionsMatch Callee OtherCallee NumCoordParams SkipArgs MinArg IsTripoint with
      | none => none
      | some true => some (some OtherCallee)
      | some false =>
        findNewCallee Callee ContainingFunction NumCoordParams SkipArgs MinArg IsTripoint rest
  | NamedDecl.functionTemplate OtherTmpl :: rest =>
    match Callee.primaryTemplate with
    | none =>
      findNewCallee Callee ContainingFunction NumCoordParams SkipArgs MinArg IsTripoint rest
    | some Tmpl =>
      if Tmpl.addr = OtherTmpl.addr then
        findNewCallee Callee ContainingFunction NumCoordParams SkipArgs MinArg IsTripoint rest
      else
        match doFunctionsMatch Tmpl.getTemplatedDecl OtherTmpl.getTemplatedDecl
            NumCoordParams SkipArgs MinArg IsTripoint with
        | none => none
        | some true => some (some OtherTmpl.getTemplatedDecl)
        | some false =>
          findNewCallee Callee ContainingFunction NumCoordParams SkipArgs MinArg IsTripoint rest
  | NamedDecl.other :: rest =>
    findNewCallee Callee ContainingFunction NumCoordParams SkipArgs MinArg IsTripoint rest

/-- The loop `while( isa<CXXDefaultArgExpr>( GetCallArg( MaxArg ) ) )` from the
value `MaxArg`.  `MaxArg` goes down by one per iteration and the loop returns
when it wraps, so the body runs at most `MaxArg + 1` times; the first argument
counts the evaluations of the loop condition that are left.  The outer `none`
is an undefined read, `some none` is the `return` inside the loop, and
`some (some m)` is the loop left with `MaxArg = m`. -/
def trimLoop (Result : MatchResult) : Nat → Nat → Option (Option Nat)
  | 0, _ => none
  | fuel + 1, MaxArg =>
    match GetCallArg Result MaxArg with
    | none => none
    | some Arg =>
      if Arg.isDefaultArg then
        if usub MaxArg 1 = UINT_MAX then
          some none
        else
          trimLoop Result fuel (usub MaxArg 1)
      else
        some (some MaxArg)

/-- The replacement text built from the three argument texts. -/
def ReplacementText (XArg YArg : Expr) (ZArg : Option Expr) : String :=
  let Replacement := "point( " ++ XArg.text ++ ", " ++ YArg.text
  let Replacement :=
    match ZArg with
    | some Z => "tri" ++ Replacement ++ ", " ++ Z.text
    | none => Replacement
  Replacement ++ " )"

/-- The two diagnostics of the internal check error. -/
def internalErrorDiags (Result : MatchResult) (Call : CallExpr) (Callee : FunctionDecl) :
    List Diagnostic :=
  [ { loc := CallBeginLoc Result
      message :=
        "Internal check error: call has more arguments (%0) than function has parameters (%1)"
      isNote := false
      args := [DiagArg.uint Call.args.length, DiagArg.uint Callee.getNumParams]
      fixit := none },
    { loc := Callee.location
      message := "called function %0"
      isNote := true
      args := [DiagArg.decl Callee.name]
      fixit := none } ]

/-- The three diagnostics of a suggestion. -/
def suggestionDiags (Result : MatchResult) (Callee NewCallee : FunctionDecl)
    (ZArg : Option Expr) (rangeBegin rangeEnd : SourceLocation) (Replacement : String) :
    List Diagnostic :=
  [ { loc := CallBeginLoc Result
      message :=
        if ZArg.isSome then
          "Call to %0 could instead call overload using a tripoint parameter."
        else
          "Call to %0 could instead call overload using a point parameter."
      isNote := false
      args := [DiagArg.decl Callee.name]
      fixit := some { rangeBegin := rangeBegin, rangeEnd := rangeEnd, text := Replacement } },
    { loc := Callee.location
      message := "current overload"
      isNote := true
      args := []
      fixit := none },
    { loc := NewCallee.location
      message := "alternate overload"
      isNote := true
      args := []
      fixit := none } ]

/-- The function `CheckCall`: the diagnostics it emits, in order, for one
match.  `conv` is the constructor of `NameConvention`. -/
def CheckCall (conv : String → NameConvention) (Result : MatchResult) :
    Option (List Diagnostic) :=
  match Result.XParam, Result.XArg, Result.Callee with
  | some XParam, some XArg, some Callee =>
    if Result.Call.isNone ∧ Result.ConstructorCall.isNone then
      some []
    else
      let SkipArgs := SkipArgsOf Callee
      if usub (NumCallArgs Result) SkipArgs > Callee.getNumParams then
        match Result.Call with
        | none => none
        | some Call => some (internalErrorDiags Result Call Callee)
      else
        let NameMatcher := conv XParam.name
        if NameMatcher.valid = false then
          some []
        else
          match scanLoop NameMatcher Callee Result SkipArgs
              (NumCallArgs Result - SkipArgs) SkipArgs ScanState.init with
          | none => none
          | some s =>
            match s.YArg with
            | none => some []
            | some YArg =>
              let NumCoordParams := if s.ZArg.isSome then 3 else 2
              if usub s.MaxArg s.MinArg ≠ usub NumCoordParams 1 then
                some []
              else
                match findNewCallee Callee Result.ContainingFunction NumCoordParams SkipArgs
                    s.MinArg s.ZArg.isSome Result.Lookup with
                | none => none
                | some none => some []
                | some (some NewCallee) =>
                  let Replacement := ReplacementText XArg YArg s.ZArg
                  match trimLoop Result (s.MaxArg + 1) s.MaxArg with
                  | none => none
                  | some none => some []
                  | some (some MaxArg) =>
                    match GetCallArg Result s.MinArg, GetCallArg Result MaxArg with
                    | some First, some Last =>
                      some (suggestionDiags Result Callee NewCallee s.ZArg
                        First.beginLoc Last.endLoc Replacement)
                    | _, _ => none
  | _, _, _ => some []

/-- Modelled from the spec: the class `NameConvention` of `Utils.h`, which is
not among the sources.  A name ending in `x` or `X`, or else starting with `x`
or `X`, is a valid X name; the Y and Z names put `y`/`z` (`Y`/`Z`) in the same
place, and every other name is unrelated. -/
def NameConvention.ofXName (xName : String) : NameConvention :=
  let names : Option (List Char × List Char × List Char) :=
    match xName.data.reverse with
    | 'x' :: root => some (('x' :: root).reverse, ('y' :: root).reverse, ('z' :: root).reverse)
    | 'X' :: root => some (('X' :: root).reverse, ('Y' :: root).reverse, ('Z' :: root).reverse)
    | _ =>
      match xName.data with
      | 'x' :: root => some ('x' :: root, 'y' :: root, 'z' :: root)
      | 'X' :: root => some ('X' :: root, 'Y' :: root, 'Z' :: root)
      | _ => none
  match names with
  | none => { valid := false, Match := fun _ => NameMatch.None }
  | some (xn, yn, zn) =>
    { valid := true
      Match := fun name =>
        if name.data = xn then NameMatch.XName
        else if name.data = yn then NameMatch.YName
        else if name.data = zn then NameMatch.ZName
        else NameMatch.None }

/-! ## Vocabulary of the properties -/

/-- The unqualified rendering of parameter `i` of `F`, when there is one. -/
def unqualAt (F : FunctionDecl) (i : Nat) : Option String :=
  (F.getParamDecl i).map (fun P => P.type.localUnqualified)

/-- The rendering of parameter `i` of `F`, when there is one. -/
def renderedAt (F : FunctionDecl) (i : Nat) : Option String :=
  (F.getParamDecl i).map (fun P => P.type.asString)

/-- The four conditions under which `doFunctionsMatch` accepts a candidate:
the parameter count, the collapsed parameter at position `m`, the parameters
before it, and the parameters after the `N` coordinate parameters. -/
def MatchConditions (Callee Other : FunctionDecl) (N m : Nat) (T : Bool) : Prop :=
  Other.getNumParams = Callee.getNumParams - (N - 1) ∧
  renderedAt Other m = some (ExpectedTypeName T) ∧
  (∀ i, i < m → unqualAt Callee i = unqualAt Other i) ∧
  (∀ i, m + N ≤ i → i < Callee.getNumParams → unqualAt Callee i = unqualAt Other (i - (N - 1)))

/-- The classification of the parameter paired with argument index `j`. -/
def roleAt (NameMatcher : NameConvention) (Callee : FunctionDecl) (SkipArgs j : Nat) :
    Option NameMatch :=
  (Callee.getParamDecl (usub j SkipArgs)).map (fun P => NameMatcher.Match P.name)

/-- Argument index `j` is paired with a parameter classified X, Y or Z. -/
def isCoord (NameMatcher : NameConvention) (Callee : FunctionDecl) (SkipArgs j : Nat) : Prop :=
  ∃ m, roleAt NameMatcher Callee SkipArgs j = some m ∧ m ≠ NameMatch.None

/-- Declaration `D` of the lookup result is accepted as the new callee `F`:
a function other than the callee and the containing function that
`doFunctionsMatch` accepts against the callee, or, for a callee instantiated
from a template, another function template whose pattern `doFunctionsMatch`
accepts against the pattern of the callee's template. -/
def MatchedBy (Callee : FunctionDecl) (ContainingFunction : Option FunctionDecl)
    (N SkipArgs MinArg : Nat) (T : Bool) (D : NamedDecl) (F : FunctionDecl) : Prop :=
  (∃ O, D = NamedDecl.function O ∧ O.addr ≠ Callee.addr ∧
    ContainingFunction.map FunctionDecl.addr ≠ some O.addr ∧
    doFunctionsMatch Callee O N SkipArgs MinArg T = some true ∧ F = O) ∨
  (∃ Tmpl OT, D = NamedDecl.functionTemplate OT ∧ Callee.primaryTemplate = some Tmpl ∧
    Tmpl.addr ≠ OT.addr ∧
    doFunctionsMatch Tmpl.getTemplatedDecl OT.getTemplatedDecl N SkipArgs MinArg T = some true ∧
    F = OT.getTemplatedDecl)

/-- Examining declaration `D` runs into no undefined read. -/
def ComparisonDefined (Callee : FunctionDecl) (N SkipArgs MinArg : Nat) (T : Bool)
    (D : NamedDecl) : Prop :=
  (∀ O, D = NamedDecl.function O → doFunctionsMatch Callee O N SkipArgs MinArg T ≠ none) ∧
  (∀ Tmpl OT, D = NamedDecl.functionTemplate OT → Callee.primaryTemplate = some Tmpl →
    doFunctionsMatch Tmpl.getTemplatedDecl OT.getTemplatedDecl N SkipArgs MinArg T ≠ none)

/-- The number of coordinate parameters the scan found: three with a Z
argument, two without. -/
def NumCoordParamsOf (s : ScanState) : Nat := if s.ZArg.isSome then 3 else 2

/-- The call site gets as far as the search for an overload, and the search
finds `NewCallee`: the nodes are bound, the argument count is accepted, the
naming convention is valid, the scan ends in `s` with a Y argument and a
contiguous span. -/
def ReachesOverload (conv : String → NameConvention) (r : MatchResult)
    (XParam : ParmVarDecl) (XArg : Expr) (Callee : FunctionDecl) (s : ScanState)
    (YArg : Expr) (NewCallee : FunctionDecl) : Prop :=
  r.XParam = some XParam ∧ r.XArg = some XArg ∧ r.Callee = some Callee ∧
  ¬ (r.Call.isNone ∧ r.ConstructorCall.isNone) ∧
  ¬ (usub (NumCallArgs r) (SkipArgsOf Callee) > Callee.getNumParams) ∧
  (conv XParam.name).valid = true ∧
  scanLoop (conv XParam.name) Callee r (SkipArgsOf Callee)
    (NumCallArgs r - SkipArgsOf Callee) (SkipArgsOf Callee) ScanState.init = some s ∧
  s.YArg = some YArg ∧
  usub s.MaxArg s.MinArg = usub (NumCoordParamsOf s) 1 ∧
  findNewCallee Callee r.ContainingFunction (NumCoordParamsOf s) (SkipArgsOf Callee)
    s.MinArg s.ZArg.isSome r.Lookup = some (some NewCallee)

/-- The diagnostics hold a fix-it. -/
def HasFixIt (out : List Diagnostic) : Prop := ∃ d, d ∈ out ∧ d.fixit ≠ none

/-- `CheckCall` emits a suggestion: it returns diagnostics that hold a fix-it. -/
def Suggests (conv : String → NameConvention) (r : MatchResult) : Prop :=
  ∃ out, CheckCall conv r = some out ∧ HasFixIt out

/-- The types of the parameters of `F`, in order. -/
def paramTypes (F : FunctionDecl) : List QualType := F.params.map ParmVarDecl.type

/-- The parameter list of `Other` is that of `Callee` with the `N` parameters
from position `p` on replaced by one parameter of type `q`. -/
def CollapsedAt (Callee Other : FunctionDecl) (p N : Nat) (q : QualType) : Prop :=
  paramTypes Other =
    (paramTypes Callee).take p ++ q :: (paramTypes Callee).drop (p + N)

/-- The classification of parameter `i` of the callee. -/
def paramRole (NameMatcher : NameConvention) (Callee : FunctionDecl) (i : Nat) :
    Option NameMatch :=
  (Callee.getParamDecl i).map (fun P => NameMatcher.Match P.name)

/-! ## Example declarations and call sites -/

/-- The type `int`. -/
def intType : QualType := { asString := "int", localUnqualified := "int" }

/-- The type `const point &`, as the check renders it. -/
def constPointRef : QualType :=
  { asString := "const struct point &", localUnqualified := "const struct point &" }

/-- The type `const tripoint &`, as the check renders it. -/
def constTripointRef : QualType :=
  { asString := "const struct tripoint &", localUnqualified := "const struct tripoint &" }

/-- An `int` parameter of the given name. -/
def intParam (name : String) : ParmVarDecl := { name := name, type := intType }

/-- An argument written in the source at `loc` with the given text. -/
def writtenArg (loc : SourceLocation) (text : String) : Expr :=
  { beginLoc := loc, endLoc := loc, text := text, isDefaultArg := false }

/-- A `CXXDefaultArgExpr`: it has no place in the source, so both its
locations are the invalid location `0` and its text is empty. -/
def defaultArg : Expr := { beginLoc := 0, endLoc := 0, text := "", isDefaultArg := true }

/-- The declaration `void move( int x, int y )`. -/
def moveXY : FunctionDecl :=
  { addr := 1, name := "move", location := 10, params := [intParam "x", intParam "y"],
    overloadedOperator := OverloadedOperatorKind.OO_None, primaryTemplate := none }

/-- The declaration `void move( const point &p )`. -/
def movePoint : FunctionDecl :=
  { addr := 2, name := "move", location := 20,
    params := [{ name := "p", type := constPointRef }],
    overloadedOperator := OverloadedOperatorKind.OO_None, primaryTemplate := none }

/-- The call `move( a, b )` at location 100, matched on the parameter `x`, in
a scope that declares both overloads of `move`. -/
def moveCall : MatchResult :=
  { XParam := some (intParam "x")
    XArg := some (writtenArg 105 "a")
    Call := some { beginLoc := 100, args := [writtenArg 105 "a", writtenArg 108 "b"] }
    ConstructorCall := none
    Callee := some moveXY
    ContainingFunction := none
    Lookup := [NamedDecl.function moveXY, NamedDecl.function movePoint] }

/-- The declaration `void lift( int x, int height )`. -/
def liftXH : FunctionDecl :=
  { addr := 3, name := "lift", location := 30, params := [intParam "x", intParam "height"],
    overloadedOperator := OverloadedOperatorKind.OO_None, primaryTemplate := none }

/-- The declaration `void lift( const point &p )`. -/
def liftPoint : FunctionDecl :=
  { addr := 4, name := "lift", location := 40,
    params := [{ name := "p", type := constPointRef }],
    overloadedOperator := OverloadedOperatorKind.OO_None, primaryTemplate := none }

/-- The call `lift( a, b )`, matched on the parameter `x`; no parameter of the
callee is a Y name. -/
def liftCall : MatchResult :=
  { XParam := some (intParam "x")
    XArg := some (writtenArg 205 "a")
    Call := some { beginLoc := 200, args := [writtenArg 205 "a", writtenArg 208 "b"] }
    ConstructorCall := none
    Callee := some liftXH
    ContainingFunction := none
    Lookup := [NamedDecl.function liftXH, NamedDecl.function liftPoint] }

/-- The declaration `void shift( int x, int steps, int y )`. -/
def shiftXSY : FunctionDecl :=
  { addr := 5, name := "shift", location := 50,
    params := [intParam "x", intParam "steps", intParam "y"],
    overloadedOperator := OverloadedOperatorKind.OO_None, primaryTemplate := none }

/-- The declaration `void shift( const point &p, int steps )`. -/
def shiftPoint : FunctionDecl :=
  { addr := 6, name := "shift", location := 60,
    params := [{ name := "p", type := constPointRef }, intParam "steps"],
    overloadedOperator := OverloadedOperatorKind.OO_None, primaryTemplate := none }

/-- The call `shift( a, n, b )`, matched on the parameter `x`: the unrelated
parameter `steps` lies between the X and the Y parameter. -/
def shiftCall : MatchResult :=
  { XParam := some (intParam "x")
    XArg := some (writtenArg 305 "a")
    Call := some
      { beginLoc := 300, args := [writtenArg 305 "a", writtenArg 308 "n", writtenArg 311 "b"] }
    ConstructorCall := none
    Callee := some shiftXSY
    ContainingFunction := none
    Lookup := [NamedDecl.function shiftXSY, NamedDecl.function shiftPoint] }

/-- The declaration `void put( int x, int y = 0 )`. -/
def putXY : FunctionDecl :=
  { addr := 7, name := "put", location := 70, params := [intParam "x", intParam "y"],
    overloadedOperator := OverloadedOperatorKind.OO_None, primaryTemplate := none }

/-- The declaration `void put( const point &p )`. -/
def putPoint : FunctionDecl :=
  { addr := 8, name := "put", location := 80,
    params := [{ name := "p", type := constPointRef }],
    overloadedOperator := OverloadedOperatorKind.OO_None, primaryTemplate := none }

/-- The call `put( a )`, matched on the parameter `x`: the Y argument is the
default argument. -/
def putCall : MatchResult :=
  { XParam := some (intParam "x")
    XArg := some (writtenArg 405 "a")
    Call := some { beginLoc := 400, args := [writtenArg 405 "a", defaultArg] }
    ConstructorCall := none
    Callee := some putXY
    ContainingFunction := none
    Lookup := [NamedDecl.function putXY, NamedDecl.function putPoint] }

/-- The declaration `void place( int y, int z, int x )`. -/
def placeYZX : FunctionDecl :=
  { addr := 9, name := "place", location := 90,
    params := [intParam "y", intParam "z", intParam "x"],
    overloadedOperator := OverloadedOperatorKind.OO_None, primaryTemplate := none }

/-- The declaration `void place( const tripoint &p )`. -/
def placeTripoint : FunctionDecl :=
  { addr := 10, name := "place", location := 95,
    params := [{ name := "p", type := constTripointRef }],
    overloadedOperator := OverloadedOperatorKind.OO_None, primaryTemplate := none }

/-- The call `place( b, c, a )`, matched on the parameter `x`, which is the
last parameter. -/
def placeCall : MatchResult :=
  { XParam := some (intParam "x")
    XArg := some (writtenArg 511 "a")
    Call := some
      { beginLoc := 500, args := [writtenArg 505 "b", writtenArg 508 "c", writtenArg 511 "a"] }
    ConstructorCall := none
    Callee := some placeYZX
    ContainingFunction := none
    Lookup := [NamedDecl.function placeYZX, NamedDecl.function placeTripoint] }

/-- The type of a parameter declared with the template parameter pack `Args`. -/
def packType : QualType := { asString := "Args...", localUnqualified := "Args..." }

/-- The template `template<typename... Args> void mark( int x, int y, Args... rest )`. -/
def markXYTemplate : FunctionTemplateDecl :=
  { addr := 11, templatedAddr := 12, templatedName := "mark", templatedLocation := 110,
    templatedParams := [intParam "x", intParam "y", { name := "rest", type := packType }],
    templatedOperator := OverloadedOperatorKind.OO_None }

/-- The template `template<typename... Args> void mark( const point &p, Args... rest )`. -/
def markPointTemplate : FunctionTemplateDecl :=
  { addr := 13, templatedAddr := 14, templatedName := "mark", templatedLocation := 120,
    templatedParams := [{ name := "p", type := constPointRef }, { name := "rest", type := packType }],
    templatedOperator := OverloadedOperatorKind.OO_None }

/-- The specialization `mark<>( int x, int y )` of the first template: the
pack is empty, so it has two parameters. -/
def markXYInstance : FunctionDecl :=
  { addr := 15, name := "mark", location := 110, params := [intParam "x", intParam "y"],
    overloadedOperator := OverloadedOperatorKind.OO_None, primaryTemplate := some markXYTemplate }

/-- The call `mark( a, b )`, matched on the parameter `x`; the lookup finds the
two templates. -/
def markCall : MatchResult :=
  { XParam := some (intParam "x")
    XArg := some (writtenArg 605 "a")
    Call := some { beginLoc := 600, args := [writtenArg 605 "a", writtenArg 608 "b"] }
    ConstructorCall := none
    Callee := some markXYInstance
    ContainingFunction := none
    Lookup := [NamedDecl.functionTemplate markXYTemplate,
      NamedDecl.functionTemplate markPointTemplate] }

/-- The declaration `void warn( int x, int y, ... )`, a variadic function. -/
def warnXY : FunctionDecl :=
  { addr := 16, name := "warn", location := 130, params := [intParam "x", intParam "y"],
    overloadedOperator := OverloadedOperatorKind.OO_None, primaryTemplate := none }

/-- The call `warn( a, b, c )`, matched on the parameter `x`; the lookup finds
the callee alone. -/
def warnCall : MatchResult :=
  { XParam := some (intParam "x")
    XArg := some (writtenArg 705 "a")
    Call := some
      { beginLoc := 700, args := [writtenArg 705 "a", writtenArg 708 "b", writtenArg 711 "c"] }
    ConstructorCall := none
    Callee := some warnXY
    ContainingFunction := none
    Lookup := [NamedDecl.function warnXY] }

/-- The declaration `void teleport( int x, int y, int z )`. -/
def teleportXYZ : FunctionDecl :=
  { addr := 17, name := "teleport", location := 140,
    params := [intParam "x", intParam "y", intParam "z"],
    overloadedOperator := OverloadedOperatorKind.OO_None, primaryTemplate := none }

/-- The declaration `void teleport( const tripoint &p )`. -/
def teleportTripoint : FunctionDecl :=
  { addr := 18, name := "teleport", location := 150,
    params := [{ name := "p", type := constTripointRef }],
    overloadedOperator := OverloadedOperatorKind.OO_None, primaryTemplate := none }

/-- The call `teleport( a, b, c )`, matched on the parameter `x`. -/
def teleportCall : MatchResult :=
  { XParam := some (intParam "x")
    XArg := some (writtenArg 805 "a")
    Call := some
      { beginLoc := 800, args := [writtenArg 805 "a", writtenArg 808 "b", writtenArg 811 "c"] }
    ConstructorCall := none
    Callee := some teleportXYZ
    ContainingFunction := none
    Lookup := [NamedDecl.function teleportXYZ, NamedDecl.function teleportTripoint] }

/-- The declaration `void fill( int a, int x = 0, int y = 0 )`. -/
def fillAXY : FunctionDecl :=
  { addr := 24, name := "fill", location := 180,
    params := [intParam "a", intParam "x", intParam "y"],
    overloadedOperator := OverloadedOperatorKind.OO_None, primaryTemplate := none }

/-- The declaration `void fill( int a, const point &p )`. -/
def fillAPoint : FunctionDecl :=
  { addr := 25, name := "fill", location := 190,
    params := [intParam "a", { name := "p", type := constPointRef }],
    overloadedOperator := OverloadedOperatorKind.OO_None, primaryTemplate := none }

/-- The call `fill( 1 )`, matched on the parameter `x`, whose argument is the
default argument, as is the argument of `y`. -/
def fillCall : MatchResult :=
  { XParam := some (intParam "x")
    XArg := some defaultArg
    Call := some { beginLoc := 900, args := [writtenArg 905 "1", defaultArg, defaultArg] }
    ConstructorCall := none
    Callee := some fillAXY
    ContainingFunction := none
    Lookup := [NamedDecl.function fillAXY, NamedDecl.function fillAPoint] }

/-- The type of a parameter declared with the template parameter `T`. -/
def templateParamType : QualType := { asString := "T", localUnqualified := "T" }

/-- The template `template<typename T> void draw( int x, int y, T t )`. -/
def drawXYTemplate : FunctionTemplateDecl :=
  { addr := 19, templatedAddr := 20, templatedName := "draw", templatedLocation := 160,
    templatedParams :=
      [intParam "x", intParam "y", { name := "t", type := templateParamType }],
    templatedOperator := OverloadedOperatorKind.OO_None }

/-- The template `template<typename T> void draw( const point &p, T t )`, whose
body holds the call `draw<int>( 1, 2, 3 )`. -/
def drawPointTemplate : FunctionTemplateDecl :=
  { addr := 21, templatedAddr := 22, templatedName := "draw", templatedLocation := 170,
    templatedParams :=
      [{ name := "p", type := constPointRef }, { name := "t", type := templateParamType }],
    templatedOperator := OverloadedOperatorKind.OO_None }

/-- The specialization `draw<int>( int x, int y, int t )` of the first template. -/
def drawXYInstance : FunctionDecl :=
  { addr := 23, name := "draw", location := 160,
    params := [intParam "x", intParam "y", intParam "t"],
    overloadedOperator := OverloadedOperatorKind.OO_None, primaryTemplate := some drawXYTemplate }

/-- The call `draw<int>( 1, 2, 3 )` in the body of the second template, matched
on the parameter `x`: the function that contains the call is the pattern of
the second template. -/
def drawCall : MatchResult :=
  { XParam := some (intParam "x")
    XArg := some (writtenArg 1005 "1")
    Call := some
      { beginLoc := 1000,
        args := [writtenArg 1005 "1", writtenArg 1008 "2", writtenArg 1011 "3"] }
    ConstructorCall := none
    Callee := some drawXYInstance
    ContainingFunction := some drawPointTemplate.getTemplatedDecl
    Lookup := [NamedDecl.functionTemplate drawXYTemplate,
      NamedDecl.functionTemplate drawPointTemplate] }

/-- The constructor `Grid::Grid( int x, int y, ... )`, a variadic constructor. -/
def gridCtor : FunctionDecl :=
  { addr := 26, name := "Grid", location := 200, params := [intParam "x", intParam "y"],
    overloadedOperator := OverloadedOperatorKind.OO_None, primaryTemplate := none }

/-- The constructor call `Grid g( 1, 2, 3 )`, matched on the parameter `x`: the
node `call` is not bound, the node `constructorCall` is. -/
def gridCall : MatchResult :=
  { XParam := some (intParam "x")
    XArg := some (writtenArg 1105 "1")
    Call := none
    ConstructorCall := some
      { beginLoc := 1100,
        args := [writtenArg 1105 "1", writtenArg 1108 "2", writtenArg 1111 "3"] }
    Callee := some gridCtor
    ContainingFunction := none
    Lookup := [NamedDecl.function gridCtor] }

/-- The declaration `void note( int count, ... )`, a variadic function. -/
def noteCount : FunctionDecl :=
  { addr := 27, name := "note", location := 210, params := [intParam "count"],
    overloadedOperator := OverloadedOperatorKind.OO_None, primaryTemplate := none }

/-- The call `note( 1, 2 )` handed over with the parameter `count` as X
parameter, a name that gives no naming convention. -/
def noteCall : MatchResult :=
  { XParam := some (intParam "count")
    XArg := some (writtenArg 1205 "1")
    Call := some { beginLoc := 1200, args := [writtenArg 1205 "1", writtenArg 1208 "2"] }
    ConstructorCall := none
    Callee := some noteCount
    ContainingFunction := none
    Lookup := [NamedDecl.function noteCount] }

/-- The call `lift( a, b )` handed over with the parameter `height` as X
parameter, a name that gives no naming convention. -/
def liftCallOnHeight : MatchResult :=
  { liftCall with XParam := some (intParam "height"), XArg := some (writtenArg 208 "b") }

/-- A second declaration `void move( const point &p )`, found later by the
lookup. -/
def movePointAgain : FunctionDecl :=
  { addr := 28, name := "move", location := 25,
    params := [{ name := "p", type := constPointRef }],
    overloadedOperator := OverloadedOperatorKind.OO_None, primaryTemplate := none }

/-- The template `template<int N> void move( const point &p )`. -/
def movePointTemplate : FunctionTemplateDecl :=
  { addr := 29, templatedAddr := 30, templatedName := "move", templatedLocation := 27,
    templatedParams := [{ name := "p", type := constPointRef }],
    templatedOperator := OverloadedOperatorKind.OO_None }

/-- The call `move( a, b )` in a scope where the lookup finds a function
template first, then the callee and two functions that take a point. -/
def moveCallCrowded : MatchResult :=
  { moveCall with
    Lookup := [NamedDecl.functionTemplate movePointTemplate, NamedDecl.function moveXY,
      NamedDecl.function movePoint, NamedDecl.function movePointAgain] }

/-- The member `void Canvas::operator()( int x, int y )`. -/
def canvasCallXY : FunctionDecl :=
  { addr := 31, name := "operator()", location := 220, params := [intParam "x", intParam "y"],
    overloadedOperator := OverloadedOperatorKind.OO_Call, primaryTemplate := none }

/-- The member `void Canvas::operator()( const point &p )`. -/
def canvasCallPoint : FunctionDecl :=
  { addr := 32, name := "operator()", location := 230,
    params := [{ name := "p", type := constPointRef }],
    overloadedOperator := OverloadedOperatorKind.OO_Call, primaryTemplate := none }

/-- The operator call `canvas( a, b )`, matched on the parameter `x`: the first
argument of the call expression is the object `canvas`. -/
def canvasCall : MatchResult :=
  { XParam := some (intParam "x")
    XArg := some (writtenArg 1307 "a")
    Call := some
      { beginLoc := 1300,
        args := [writtenArg 1300 "canvas", writtenArg 1307 "a", writtenArg 1310 "b"] }
    ConstructorCall := none
    Callee := some canvasCallXY
    ContainingFunction := none
    Lookup := [NamedDecl.function canvasCallXY, NamedDecl.function canvasCallPoint] }

/-- The declaration `void warn( const point &p, ... )`, a variadic function. -/
def warnPoint : FunctionDecl :=
  { addr := 33, name := "warn", location := 135,
    params := [{ name := "p", type := constPointRef }],
    overloadedOperator := OverloadedOperatorKind.OO_None, primaryTemplate := none }

/-- The call `warn( a, b, c )` of `void warn( int x, int y, ... )`, matched on
the parameter `x`, in a scope that also declares `void warn( const point &p, ... )`. -/
def warnCallWithOverload : MatchResult :=
  { warnCall with Lookup := [NamedDecl.function warnXY, NamedDecl.function warnPoint] }

/-- The template `template<typename... Args> void plot( Args... a, int x, int y )`. -/
def plotXYTemplate : FunctionTemplateDecl :=
  { addr := 34, templatedAddr := 35, templatedName := "plot", templatedLocation := 240,
    templatedParams := [{ name := "a", type := packType }, intParam "x", intParam "y"],
    templatedOperator := OverloadedOperatorKind.OO_None }

/-- The template `template<typename... Args> void plot( Args... a, int q )`. -/
def plotQTemplate : FunctionTemplateDecl :=
  { addr := 36, templatedAddr := 37, templatedName := "plot", templatedLocation := 250,
    templatedParams := [{ name := "a", type := packType }, intParam "q"],
    templatedOperator := OverloadedOperatorKind.OO_None }

/-- The specialization `plot<int, int>( int a, int a, int x, int y )` of the
first template: the pack holds two types, so it has four parameters. -/
def plotXYInstance : FunctionDecl :=
  { addr := 38, name := "plot", location := 240,
    params := [intParam "a", intParam "a", intParam "x", intParam "y"],
    overloadedOperator := OverloadedOperatorKind.OO_None, primaryTemplate := some plotXYTemplate }

/-- The declaration `void plot( int a, int b, const point &p )`. -/
def plotPoint : FunctionDecl :=
  { addr := 39, name := "plot", location := 260,
    params := [intParam "a", intParam "b", { name := "p", type := constPointRef }],
    overloadedOperator := OverloadedOperatorKind.OO_None, primaryTemplate := none }

/-- The call `plot<int, int>( 1, 2, 3, 4 )`, matched on the parameter `x`; the
lookup finds the two templates and the function. -/
def plotCall : MatchResult :=
  { XParam := some (intParam "x")
    XArg := some (writtenArg 1411 "3")
    Call := some
      { beginLoc := 1400,
        args := [writtenArg 1405 "1", writtenArg 1408 "2", writtenArg 1411 "3",
          writtenArg 1414 "4"] }
    ConstructorCall := none
    Callee := some plotXYInstance
    ContainingFunction := none
    Lookup := [NamedDecl.functionTemplate plotXYTemplate, NamedDecl.functionTemplate plotQTemplate,
      NamedDecl.function plotPoint] }

/-- The declaration `void hurl( int x, int y, int z, ... )`, a variadic function. -/
def hurlXYZ : FunctionDecl :=
  { addr := 40, name := "hurl", location := 270,
    params := [intParam "x", intParam "y", intParam "z"],
    overloadedOperator := OverloadedOperatorKind.OO_None, primaryTemplate := none }

/-- The declaration `void hurl( const tripoint &p, ... )`, a variadic function. -/
def hurlTripoint : FunctionDecl :=
  { addr := 41, name := "hurl", location := 280,
    params := [{ name := "p", type := constTripointRef }],
    overloadedOperator := OverloadedOperatorKind.OO_None, primaryTemplate := none }

/-- The call `hurl( a, b, c, d )`, matched on the parameter `x`. -/
def hurlCall : MatchResult :=
  { XParam := some (intParam "x")
    XArg := some (writtenArg 1505 "a")
    Call := some
      { beginLoc := 1500,
        args := [writtenArg 1505 "a", writtenArg 1508 "b", writtenArg 1511 "c",
          writtenArg 1514 "d"] }
    ConstructorCall := none
    Callee := some hurlXYZ
    ContainingFunction := none
    Lookup := [NamedDecl.function hurlXYZ, NamedDecl.function hurlTripoint] }

/-- The template
`template<typename... Args> void cast( Args... a, int x, int y, int z )`. -/
def castXYZTemplate : FunctionTemplateDecl :=
  { addr := 42, templatedAddr := 43, templatedName := "cast", templatedLocation := 290,
    templatedParams :=
      [{ name := "a", type := packType }, intParam "x", intParam "y", intParam "z"],
    templatedOperator := OverloadedOperatorKind.OO_None }

/-- The template `template<typename... Args> void cast( Args... a, int q )`. -/
def castQTemplate : FunctionTemplateDecl :=
  { addr := 44, templatedAddr := 45, templatedName := "cast", templatedLocation := 300,
    templatedParams := [{ name := "a", type := packType }, intParam "q"],
    templatedOperator := OverloadedOperatorKind.OO_None }

/-- The specialization `cast<int, int>( int a, int a, int x, int y, int z )` of
the first template. -/
def castXYZInstance : FunctionDecl :=
  { addr := 46, name := "cast", location := 290,
    params := [intParam "a", intParam "a", intParam "x", intParam "y", intParam "z"],
    overloadedOperator := OverloadedOperatorKind.OO_None,
    primaryTemplate := some castXYZTemplate }

/-- The declaration `void cast( int a, int b, const tripoint &p )`. -/
def castTripoint : FunctionDecl :=
  { addr := 47, name := "cast", location := 310,
    params := [intParam "a", intParam "b", { name := "p", type := constTripointRef }],
    overloadedOperator := OverloadedOperatorKind.OO_None, primaryTemplate := none }

/-- The call `cast<int, int>( 1, 2, 3, 4, 5 )`, matched on the parameter `x`;
the lookup finds the two templates and the function. -/
def castCall : MatchResult :=
  { XParam := some (intParam "x")
    XArg := some (writtenArg 1611 "3")
    Call := some
      { beginLoc := 1600,
        args := [writtenArg 1605 "1", writtenArg 1608 "2", writtenArg 1611 "3",
          writtenArg 1614 "4", writtenArg 1617 "5"] }
    ConstructorCall := none
    Callee := some castXYZInstance
    ContainingFunction := none
    Lookup := [NamedDecl.functionTemplate castXYZTemplate, NamedDecl.functionTemplate castQTemplate,
      NamedDecl.function castTripoint] }

/-! # Properties -/

/-! ## Unsigned arithmetic without wrap-around -/

theorem usub_of_le {a b : Nat} (h : b ≤ a) (ha : a < 4294967296) : usub a b = a - b := by
  unfold usub; omega

theorem uadd_of_lt {a b : Nat} (h : a + b < 4294967296) : uadd a b = a + b := by
  unfold uadd; omega

theorem ExpectedTypeName_eq (T : Bool) :
    ExpectedTypeName T = (if T then "const struct tripoint &" else "const struct point &") := by
  cases T <;> rfl

theorem getParamDecl_isSome {F : FunctionDecl} {i : Nat} (h : i < F.getNumParams) :
    ∃ P, F.getParamDecl i = some P := by
  unfold FunctionDecl.getNumParams at h
  exact ⟨F.params[i], by simp [FunctionDecl.getParamDecl, List.getElem?_eq_getElem h]⟩

theorem doFunctionsMatchLoop_tail (Callee Other : FunctionDecl) (N Skip Min d : Nat) (T : Bool)
    (hlen : Callee.getNumParams < 4294967296)
    (hother : Other.getNumParams + d = Callee.getNumParams) :
    ∀ (fuel ci oi : Nat), usub Min Skip < ci → ci ≤ Callee.getNumParams → oi + d = ci →
      Other.getNumParams + 1 ≤ fuel + oi →
      ∃ b, doFunctionsMatchLoop Callee Other N Skip Min T fuel ci oi = some b ∧
        (b = true ↔ ∀ i, ci ≤ i → i < Callee.getNumParams →
          unqualAt Callee i = unqualAt Other (i - d)) := by
  intro fuel
  induction fuel with
  | zero => intro ci oi _ h2 h3 h4; omega
  | succ fuel ih =>
    intro ci oi h1 h2 h3 h4
    unfold doFunctionsMatchLoop
    by_cases hc : ci < Callee.getNumParams
    · obtain ⟨a, ha⟩ := getParamDecl_isSome hc
      have ho : oi < Other.getNumParams := by omega
      obtain ⟨b, hb⟩ := getParamDecl_isSome ho
      have hne : ci ≠ usub Min Skip := by omega
      simp only [hc, if_true, ha, hb, hne, if_false]
      by_cases hty : a.type.localUnqualified = b.type.localUnqualified
      · have e1 : uadd ci 1 = ci + 1 := uadd_of_lt (by omega)
        have e2 : uadd oi 1 = oi + 1 := uadd_of_lt (by omega)
        obtain ⟨r, hr, hiff⟩ := ih (ci + 1) (oi + 1) (by omega) (by omega) (by omega) (by omega)
        refine ⟨r, ?_, ?_⟩
        · simp [hty, e1, e2, hr]
        · rw [hiff]
          constructor
          · intro h i hi1 hi2
            by_cases hi : i = ci
            · subst hi
              have : i - d = oi := by omega
              simp [unqualAt, this, ha, hb, hty]
            · exact h i (by omega) hi2
          · intro h i hi1 hi2
            exact h i (by omega) hi2
      · refine ⟨false, by simp [hty], ?_⟩
        constructor
        · intro h; cases h
        · intro h
          have := h ci (le_refl _) hc
          have e : ci - d = oi := by omega
          simp [unqualAt, e, ha, hb] at this
          exact absurd this hty
    · refine ⟨true, by simp [hc], ?_⟩
      constructor
      · intro _ i hi1 hi2; omega
      · intro _; rfl

theorem doFunctionsMatchLoop_head (Callee Other : FunctionDecl) (N Skip Min : Nat) (T : Bool)
    (hN : N = 2 ∨ N = 3)
    (hlen : Callee.getNumParams < 4294967296)
    (hm : usub Min Skip + N ≤ Callee.getNumParams)
    (hother : Other.getNumParams + (N - 1) = Callee.getNumParams) :
    ∀ (fuel i : Nat), i ≤ usub Min Skip → Other.getNumParams + 1 ≤ fuel + i →
      ∃ b, doFunctionsMatchLoop Callee Other N Skip Min T fuel i i = some b ∧
        (b = true ↔
          (∀ j, i ≤ j → j < usub Min Skip → unqualAt Callee j = unqualAt Other j) ∧
          renderedAt Other (usub Min Skip) = some (ExpectedTypeName T) ∧
          (∀ j, usub Min Skip + N ≤ j → j < Callee.getNumParams →
            unqualAt Callee j = unqualAt Other (j - (N - 1)))) := by
  intro fuel
  induction fuel with
  | zero => intro i h1 h2; omega
  | succ fuel ih =>
    intro i h1 h2
    unfold doFunctionsMatchLoop
    have hc : i < Callee.getNumParams := by omega
    have ho : i < Other.getNumParams := by omega
    obtain ⟨a, ha⟩ := getParamDecl_isSome hc
    obtain ⟨b, hb⟩ := getParamDecl_isSome ho
    simp only [hc, if_true, ha, hb]
    by_cases him : i = usub Min Skip
    · simp only [him.symm, if_true]
      by_cases hty : b.type.asString = ExpectedTypeName T
      · have e0 : usub N 1 = N - 1 := usub_of_le (by omega) (by omega)
        have e1 : uadd (uadd i (usub N 1)) 1 = i + N := by
          have e3 : uadd i (N - 1) = i + (N - 1) := uadd_of_lt (by omega)
          rw [e0, e3, uadd_of_lt (by omega)]; omega
        have e2 : uadd i 1 = i + 1 := uadd_of_lt (by omega)
        obtain ⟨r, hr, hiff⟩ := doFunctionsMatchLoop_tail Callee Other N Skip Min (N - 1) T hlen
          hother fuel (i + N) (i + 1) (by omega) (by omega) (by omega) (by omega)
        refine ⟨r, ?_, ?_⟩
        · simp [hty, e1, e2, hr]
        · rw [hiff]
          constructor
          · intro h
            refine ⟨fun j hj1 hj2 => by omega, by simp [renderedAt, hb, hty], ?_⟩
            intro j hj1 hj2
            exact h j (by omega) hj2
          · intro h j hj1 hj2
            exact h.2.2 j (by omega) hj2
      · refine ⟨false, by simp [hty], ?_⟩
        constructor
        · intro h; cases h
        · intro h
          have := h.2.1
          simp [renderedAt, hb] at this
          exact absurd this hty
    · simp only [him, if_false]
      by_cases hty : a.type.localUnqualified = b.type.localUnqualified
      · have e1 : uadd i 1 = i + 1 := uadd_of_lt (by omega)
        obtain ⟨r, hr, hiff⟩ := ih (i + 1) (by omega) (by omega)
        refine ⟨r, ?_, ?_⟩
        · simp [hty, e1, hr]
        · rw [hiff]
          constructor
          · intro h
            refine ⟨?_, h.2⟩
            intro j hj1 hj2
            by_cases hj : j = i
            · subst hj; simp [unqualAt, ha, hb, hty]
            · exact h.1 j (by omega) hj2
          · intro h
            exact ⟨fun j hj1 hj2 => h.1 j (by omega) hj2, h.2⟩
      · refine ⟨false, by simp [hty], ?_⟩
        constructor
        · intro h; cases h
        · intro h
          have := h.1 i (le_refl _) (by omega)
          simp [unqualAt, ha, hb] at this
          exact absurd this hty

theorem doFunctionsMatch_spec (Callee Other : FunctionDecl) (N Skip Min : Nat) (T : Bool)
    (hN : N = 2 ∨ N = 3)
    (hlen : Callee.getNumParams < 4294967296)
    (hm : usub Min Skip + N ≤ Callee.getNumParams) :
    ∃ b, doFunctionsMatch Callee Other N Skip Min T = some b ∧
      (b = true ↔ MatchConditions Callee Other N (usub Min Skip) T) := by
  unfold doFunctionsMatch
  have e0 : usub N 1 = N - 1 := usub_of_le (by omega) (by omega)
  have e1 : usub Callee.getNumParams (N - 1) = Callee.getNumParams - (N - 1) :=
    usub_of_le (by omega) hlen
  simp only [e0, e1]
  by_cases hcount : Other.getNumParams = Callee.getNumParams - (N - 1)
  · have hother : Other.getNumParams + (N - 1) = Callee.getNumParams := by omega
    obtain ⟨r, hr, hiff⟩ := doFunctionsMatchLoop_head Callee Other N Skip Min T hN hlen hm hother
      (Other.getNumParams + 1) 0 (Nat.zero_le _) (by omega)
    refine ⟨r, ?_, ?_⟩
    · simp only [ne_eq, hcount, not_true_eq_false, if_false]
      rw [← hcount]; exact hr
    · rw [hiff]
      unfold MatchConditions
      constructor
      · intro h
        exact ⟨hcount, h.2.1, fun i hi => h.1 i (Nat.zero_le _) hi, h.2.2⟩
      · intro h
        exact ⟨fun j _ hj => h.2.2.1 j hj, h.2.1, h.2.2.2⟩
  · refine ⟨false, by simp [hcount], ?_⟩
    constructor
    · intro h; cases h
    · intro h; exact absurd h.1 hcount

/-! ## The scan over the arguments -/

theorem GetCallArg_isSome {r : MatchResult} {j : Nat} (h : j < NumCallArgs r) :
    ∃ e, GetCallArg r j = some e := by
  unfold NumCallArgs at h
  unfold GetCallArg
  cases hc : r.Call with
  | some c =>
    simp only [hc] at h
    exact ⟨c.args[j], by simp [List.getElem?_eq_getElem h]⟩
  | none =>
    cases hk : r.ConstructorCall with
    | some k =>
      simp only [hc, hk] at h
      exact ⟨k.args[j], by simp [List.getElem?_eq_getElem h]⟩
    | none => simp [hc, hk] at h

theorem GetCallArg_lt {r : MatchResult} {j : Nat} {e : Expr} (h : GetCallArg r j = some e) :
    j < NumCallArgs r := by
  unfold GetCallArg at h
  unfold NumCallArgs
  cases hc : r.Call with
  | some c =>
    simp only [hc] at h ⊢
    by_contra hlt
    rw [List.getElem?_eq_none (by omega)] at h
    cases h
  | none =>
    cases hk : r.ConstructorCall with
    | some k =>
      simp only [hc, hk] at h ⊢
      by_contra hlt
      rw [List.getElem?_eq_none (by omega)] at h
      cases h
    | none => simp [hc, hk] at h

theorem scanStep_spec {NM : NameConvention} {C : FunctionDecl} {r : MatchResult}
    {Skip i : Nat} {s s1 : ScanState} (h : scanStep NM C r Skip i s = some s1) :
    ∃ m, roleAt NM C Skip i = some m ∧
      (m = NameMatch.None → s1 = s) ∧
      (m ≠ NameMatch.None → s1.MinArg = min s.MinArg i ∧ s1.MaxArg = max s.MaxArg i) ∧
      (m = NameMatch.YName → s1.YArg = GetCallArg r i ∧ ∃ e, GetCallArg r i = some e) ∧
      (m ≠ NameMatch.YName → s1.YArg = s.YArg) ∧
      (m = NameMatch.ZName → s1.ZArg = GetCallArg r i ∧ ∃ e, GetCallArg r i = some e) ∧
      (m ≠ NameMatch.ZName → s1.ZArg = s.ZArg) := by
  unfold scanStep at h
  unfold roleAt
  cases hp : C.getParamDecl (usub i Skip) with
  | none => simp [hp] at h
  | some P =>
    simp only [hp] at h
    refine ⟨NM.Match P.name, rfl, ?_⟩
    cases hm : NM.Match P.name with
    | XName =>
      simp only [hm] at h
      cases h
      simp
    | YName =>
      simp only [hm] at h
      cases ha : GetCallArg r i with
      | none => simp [ha] at h
      | some e =>
        simp only [ha] at h
        cases h
        simp
    | ZName =>
      simp only [hm] at h
      cases ha : GetCallArg r i with
      | none => simp [ha] at h
      | some e =>
        simp only [ha] at h
        cases h
        simp
    | None =>
      simp only [hm] at h
      cases h
      simp

theorem scanLoop_bounds (NM : NameConvention) (C : FunctionDecl) (r : MatchResult) (Skip : Nat) :
    ∀ (n i : Nat) (s s' : ScanState), scanLoop NM C r Skip n i s = some s' →
      s'.MinArg ≤ s.MinArg ∧ s.MaxArg ≤ s'.MaxArg ∧
      (∀ j, i ≤ j → j < i + n → isCoord NM C Skip j → s'.MinArg ≤ j ∧ j ≤ s'.MaxArg) := by
  intro n
  induction n with
  | zero =>
    intro i s s' h
    simp only [scanLoop] at h
    cases h
    exact ⟨le_refl _, le_refl _, fun j h1 h2 => by omega⟩
  | succ n ih =>
    intro i s s' h
    simp only [scanLoop] at h
    cases hs : scanStep NM C r Skip i s with
    | none => simp [hs] at h
    | some s1 =>
      simp only [hs] at h
      obtain ⟨m, hm, hnone, hcoord, -⟩ := scanStep_spec hs
      obtain ⟨h1, h2, h3⟩ := ih (i + 1) s1 s' h
      have hmin : s1.MinArg ≤ s.MinArg := by
        by_cases hmn : m = NameMatch.None
        · rw [hnone hmn]
        · rw [(hcoord hmn).1]; exact min_le_left _ _
      have hmax : s.MaxArg ≤ s1.MaxArg := by
        by_cases hmn : m = NameMatch.None
        · rw [hnone hmn]
        · rw [(hcoord hmn).2]; exact le_max_left _ _
      refine ⟨le_trans h1 hmin, le_trans hmax h2, ?_⟩
      intro j hj1 hj2 hj
      by_cases hji : j = i
      · subst hji
        obtain ⟨m', hm', hne⟩ := hj
        rw [hm] at hm'
        cases hm'
        have := hcoord hne
        constructor
        · calc s'.MinArg ≤ s1.MinArg := h1
            _ ≤ j := by rw [this.1]; exact min_le_right _ _
        · calc j ≤ s1.MaxArg := by rw [this.2]; exact le_max_right _ _
            _ ≤ s'.MaxArg := h2
      · exact h3 j (by omega) (by omega) hj

theorem scanLoop_attained (NM : NameConvention) (C : FunctionDecl) (r : MatchResult) (Skip : Nat) :
    ∀ (n i : Nat) (s s' : ScanState), scanLoop NM C r Skip n i s = some s' →
      (s'.MinArg = s.MinArg ∨ ∃ j, i ≤ j ∧ j < i + n ∧ isCoord NM C Skip j ∧ s'.MinArg = j) ∧
      (s'.MaxArg = s.MaxArg ∨ ∃ j, i ≤ j ∧ j < i + n ∧ isCoord NM C Skip j ∧ s'.MaxArg = j) := by
  intro n
  induction n with
  | zero =>
    intro i s s' h
    simp only [scanLoop] at h
    cases h
    exact ⟨Or.inl rfl, Or.inl rfl⟩
  | succ n ih =>
    intro i s s' h
    simp only [scanLoop] at h
    cases hs : scanStep NM C r Skip i s with
    | none => simp [hs] at h
    | some s1 =>
      simp only [hs] at h
      obtain ⟨m, hm, hnone, hcoord, -⟩ := scanStep_spec hs
      obtain ⟨h1, h2⟩ := ih (i + 1) s1 s' h
      by_cases hmn : m = NameMatch.None
      · rw [hnone hmn] at h1 h2
        constructor
        · rcases h1 with h1 | ⟨j, a, b, c, d⟩
          · exact Or.inl h1
          · exact Or.inr ⟨j, by omega, by omega, c, d⟩
        · rcases h2 with h2 | ⟨j, a, b, c, d⟩
          · exact Or.inl h2
          · exact Or.inr ⟨j, by omega, by omega, c, d⟩
      · have hi : isCoord NM C Skip i := ⟨m, hm, hmn⟩
        obtain ⟨e1, e2⟩ := hcoord hmn
        constructor
        · rcases h1 with h1 | ⟨j, a, b, c, d⟩
          · rw [e1] at h1
            rcases Nat.le_total s.MinArg i with hle | hle
            · left; rw [h1]; exact min_eq_left hle
            · right; exact ⟨i, le_refl _, by omega, hi, by rw [h1]; exact min_eq_right hle⟩
          · exact Or.inr ⟨j, by omega, by omega, c, d⟩
        · rcases h2 with h2 | ⟨j, a, b, c, d⟩
          · rw [e2] at h2
            rcases Nat.le_total s.MaxArg i with hle | hle
            · right; exact ⟨i, le_refl _, by omega, hi, by rw [h2]; exact max_eq_right hle⟩
            · left; rw [h2]; exact max_eq_left hle
          · exact Or.inr ⟨j, by omega, by omega, c, d⟩

theorem scanLoop_YArg (NM : NameConvention) (C : FunctionDecl) (r : MatchResult) (Skip : Nat) :
    ∀ (n i : Nat) (s s' : ScanState), scanLoop NM C r Skip n i s = some s' →
      (s'.YArg = s.YArg ∧
        ∀ j, i ≤ j → j < i + n → roleAt NM C Skip j ≠ some NameMatch.YName) ∨
      (∃ j e, i ≤ j ∧ j < i + n ∧ roleAt NM C Skip j = some NameMatch.YName ∧
        (∀ k, j < k → k < i + n → roleAt NM C Skip k ≠ some NameMatch.YName) ∧
        GetCallArg r j = some e ∧ s'.YArg = some e) := by
  intro n
  induction n with
  | zero =>
    intro i s s' h
    simp only [scanLoop] at h
    cases h
    exact Or.inl ⟨rfl, fun j h1 h2 => by omega⟩
  | succ n ih =>
    intro i s s' h
    simp only [scanLoop] at h
    cases hs : scanStep NM C r Skip i s with
    | none => simp [hs] at h
    | some s1 =>
      simp only [hs] at h
      obtain ⟨m, hm, -, -, hy, hny, -, -⟩ := scanStep_spec hs
      rcases ih (i + 1) s1 s' h with ⟨h1, h2⟩ | ⟨j, e, a, b, c, d, f, g⟩
      · by_cases hmy : m = NameMatch.YName
        · obtain ⟨e1, e, he⟩ := hy hmy
          right
          refine ⟨i, e, le_refl _, by omega, by rw [hm, hmy], ?_, he, ?_⟩
          · intro k hk1 hk2; exact h2 k (by omega) (by omega)
          · rw [h1, e1, he]
        · left
          refine ⟨by rw [h1, hny hmy], ?_⟩
          intro j hj1 hj2
          by_cases hji : j = i
          · subst hji; rw [hm]; intro hc; cases hc; exact hmy rfl
          · exact h2 j (by omega) (by omega)
      · right
        exact ⟨j, e, by omega, by omega, c, fun k hk1 hk2 => d k hk1 (by omega), f, g⟩

theorem scanLoop_ZArg (NM : NameConvention) (C : FunctionDecl) (r : MatchResult) (Skip : Nat) :
    ∀ (n i : Nat) (s s' : ScanState), scanLoop NM C r Skip n i s = some s' →
      (s'.ZArg = s.ZArg ∧
        ∀ j, i ≤ j → j < i + n → roleAt NM C Skip j ≠ some NameMatch.ZName) ∨
      (∃ j e, i ≤ j ∧ j < i + n ∧ roleAt NM C Skip j = some NameMatch.ZName ∧
        (∀ k, j < k → k < i + n → roleAt NM C Skip k ≠ some NameMatch.ZName) ∧
        GetCallArg r j = some e ∧ s'.ZArg = some e) := by
  intro n
  induction n with
  | zero =>
    intro i s s' h
    simp only [scanLoop] at h
    cases h
    exact Or.inl ⟨rfl, fun j h1 h2 => by omega⟩
  | succ n ih =>
    intro i s s' h
    simp only [scanLoop] at h
    cases hs : scanStep NM C r Skip i s with
    | none => simp [hs] at h
    | some s1 =>
      simp only [hs] at h
      obtain ⟨m, hm, -, -, -, -, hz, hnz⟩ := scanStep_spec hs
      rcases ih (i + 1) s1 s' h with ⟨h1, h2⟩ | ⟨j, e, a, b, c, d, f, g⟩
      · by_cases hmz : m = NameMatch.ZName
        · obtain ⟨e1, e, he⟩ := hz hmz
          right
          refine ⟨i, e, le_refl _, by omega, by rw [hm, hmz], ?_, he, ?_⟩
          · intro k hk1 hk2; exact h2 k (by omega) (by omega)
          · rw [h1, e1, he]
        · left
          refine ⟨by rw [h1, hnz hmz], ?_⟩
          intro j hj1 hj2
          by_cases hji : j = i
          · subst hji; rw [hm]; intro hc; cases hc; exact hmz rfl
          · exact h2 j (by omega) (by omega)
      · right
        exact ⟨j, e, by omega, by omega, c, fun k hk1 hk2 => d k hk1 (by omega), f, g⟩

theorem scanLoop_defined (NM : NameConvention) (C : FunctionDecl) (r : MatchResult) (Skip : Nat) :
    ∀ (n i : Nat) (s : ScanState),
      (∀ j, i ≤ j → j < i + n → usub j Skip < C.getNumParams ∧ j < NumCallArgs r) →
      ∃ s', scanLoop NM C r Skip n i s = some s' := by
  intro n
  induction n with
  | zero => intro i s _; exact ⟨s, rfl⟩
  | succ n ih =>
    intro i s h
    obtain ⟨hp, ha⟩ := h i (le_refl _) (by omega)
    have hP : ∃ P, C.getParamDecl (usub i Skip) = some P := by
      unfold FunctionDecl.getNumParams at hp
      exact ⟨C.params[usub i Skip], by simp [FunctionDecl.getParamDecl, List.getElem?_eq_getElem hp]⟩
    obtain ⟨P, hP⟩ := hP
    obtain ⟨e, he⟩ := GetCallArg_isSome ha
    have hstep : ∃ s1, scanStep NM C r Skip i s = some s1 := by
      unfold scanStep
      simp only [hP, he]
      cases NM.Match P.name <;> exact ⟨_, rfl⟩
    obtain ⟨s1, hs1⟩ := hstep
    obtain ⟨s', hs'⟩ := ih (i + 1) s1 (fun j h1 h2 => h j (by omega) (by omega))
    exact ⟨s', by simp only [scanLoop, hs1, hs']⟩

/-! ## The search for an overload -/

theorem findNewCallee_sound (C : FunctionDecl) (CF : Option FunctionDecl) (N Skip Min : Nat)
    (T : Bool) : ∀ (L : List NamedDecl) (F : FunctionDecl),
      findNewCallee C CF N Skip Min T L = some (some F) →
      ∃ D, D ∈ L ∧ MatchedBy C CF N Skip Min T D F := by
  intro L
  induction L with
  | nil => intro F h; simp [findNewCallee] at h
  | cons D rest ih =>
    intro F h
    have hrest : findNewCallee C CF N Skip Min T rest = some (some F) →
        ∃ D', D' ∈ D :: rest ∧ MatchedBy C CF N Skip Min T D' F := by
      intro h'
      obtain ⟨D', hD', hm⟩ := ih F h'
      exact ⟨D', List.mem_cons_of_mem _ hD', hm⟩
    cases D with
    | function O =>
      simp only [findNewCallee] at h
      by_cases hex : O.addr = C.addr ∨ CF.map FunctionDecl.addr = some O.addr
      · simp only [hex, if_true] at h
        exact hrest h
      · simp only [hex, if_false] at h
        cases hd : doFunctionsMatch C O N Skip Min T with
        | none => simp [hd] at h
        | some b =>
          cases b with
          | true =>
            simp only [hd, Option.some.injEq] at h
            subst h
            refine ⟨_, List.mem_cons_self _ _, Or.inl ⟨O, rfl, ?_, ?_, hd, rfl⟩⟩
            · intro hc; exact hex (Or.inl hc)
            · intro hc; exact hex (Or.inr hc)
          | false =>
            simp only [hd] at h
            exact hrest h
    | functionTemplate OT =>
      simp only [findNewCallee] at h
      cases ht : C.primaryTemplate with
      | none =>
        simp only [ht] at h
        exact hrest h
      | some Tmpl =>
        simp only [ht] at h
        by_cases hex : Tmpl.addr = OT.addr
        · simp only [hex, if_true] at h
          exact hrest h
        · simp only [hex, if_false] at h
          cases hd : doFunctionsMatch Tmpl.getTemplatedDecl OT.getTemplatedDecl N Skip Min T with
          | none => simp [hd] at h
          | some b =>
            cases b with
            | true =>
              simp only [hd, Option.some.injEq] at h
              subst h
              exact ⟨_, List.mem_cons_self _ _, Or.inr ⟨Tmpl, OT, rfl, ht, hex, hd, rfl⟩⟩
            | false =>
              simp only [hd] at h
              exact hrest h
    | other =>
      simp only [findNewCallee] at h
      exact hrest h

theorem findNewCallee_finds (C : FunctionDecl) (CF : Option FunctionDecl) (N Skip Min : Nat)
    (T : Bool) : ∀ (L : List NamedDecl),
      (∀ D, D ∈ L → ComparisonDefined C N Skip Min T D) →
      (∃ D F, D ∈ L ∧ MatchedBy C CF N Skip Min T D F) →
      ∃ F, findNewCallee C CF N Skip Min T L = some (some F) := by
  intro L
  induction L with
  | nil => intro _ h; obtain ⟨D, F, hD, _⟩ := h; cases hD
  | cons D rest ih =>
    intro hdef hex
    have hrest : (¬ ∃ F, MatchedBy C CF N Skip Min T D F) →
        ∃ F, findNewCallee C CF N Skip Min T rest = some (some F) := by
      intro hno
      apply ih (fun D' hD' => hdef D' (List.mem_cons_of_mem _ hD'))
      obtain ⟨D', F, hD', hm⟩ := hex
      rcases List.mem_cons.mp hD' with heq | hmem
      · subst heq; exact absurd ⟨F, hm⟩ hno
      · exact ⟨D', F, hmem, hm⟩
    have hD := hdef D (List.mem_cons_self _ _)
    cases D with
    | function O =>
      simp only [findNewCallee]
      by_cases hx : O.addr = C.addr ∨ CF.map FunctionDecl.addr = some O.addr
      · simp only [hx, if_true]
        apply hrest
        rintro ⟨F, ⟨O', hO', h1, h2, -, -⟩ | ⟨Tmpl, OT, hOT, -⟩⟩
        · cases hO'
          rcases hx with hx | hx
          · exact h1 hx
          · exact h2 hx
        · cases hOT
      · simp only [hx, if_false]
        cases hd : doFunctionsMatch C O N Skip Min T with
        | none => exact absurd hd (hD.1 O rfl)
        | some b =>
          cases b with
          | true => exact ⟨O, rfl⟩
          | false =>
            simp only []
            apply hrest
            rintro ⟨F, ⟨O', hO', -, -, h3, -⟩ | ⟨Tmpl, OT, hOT, -⟩⟩
            · cases hO'
              rw [hd] at h3
              cases h3
            · cases hOT
    | functionTemplate OT =>
      simp only [findNewCallee]
      cases ht : C.primaryTemplate with
      | none =>
        simp only []
        apply hrest
        rintro ⟨F, ⟨O', hO', -⟩ | ⟨Tmpl, OT', hOT, h1, -⟩⟩
        · cases hO'
        · rw [ht] at h1; cases h1
      | some Tmpl =>
        simp only []
        by_cases hx : Tmpl.addr = OT.addr
        · simp only [hx, if_true]
          apply hrest
          rintro ⟨F, ⟨O', hO', -⟩ | ⟨Tmpl', OT', hOT, h1, h2, -⟩⟩
          · cases hO'
          · cases hOT
            rw [ht] at h1
            cases h1
            exact h2 hx
        · simp only [hx, if_false]
          cases hd : doFunctionsMatch Tmpl.getTemplatedDecl OT.getTemplatedDecl N Skip Min T with
          | none => exact absurd hd (hD.2 Tmpl OT rfl ht)
          | some b =>
            cases b with
            | true => exact ⟨_, rfl⟩
            | false =>
              simp only []
              apply hrest
              rintro ⟨F, ⟨O', hO', -⟩ | ⟨Tmpl', OT', hOT, h1, -, h3, -⟩⟩
              · cases hO'
              · cases hOT
                rw [ht] at h1
                cases h1
                rw [hd] at h3
                cases h3
    | other =>
      simp only [findNewCallee]
      apply hrest
      rintro ⟨F, ⟨O', hO', -⟩ | ⟨Tmpl', OT', hOT, -⟩⟩
      · cases hO'
      · cases hOT

/-! ## The trimming of defaulted arguments -/

theorem trimLoop_spec (r : MatchResult) :
    ∀ (fuel M : Nat), M < NumCallArgs r → NumCallArgs r < 4294967296 → M + 1 ≤ fuel →
      (∃ j e, j ≤ M ∧ GetCallArg r j = some e ∧ e.isDefaultArg = false ∧
        (∀ k, j < k → k ≤ M → ∃ a, GetCallArg r k = some a ∧ a.isDefaultArg = true) ∧
        trimLoop r fuel M = some (some j)) ∨
      ((∀ k, k ≤ M → ∃ a, GetCallArg r k = some a ∧ a.isDefaultArg = true) ∧
        trimLoop r fuel M = some none) := by
  intro fuel
  induction fuel with
  | zero => intro M _ _ h; omega
  | succ fuel ih =>
    intro M hM hlen hfuel
    obtain ⟨a, ha⟩ := GetCallArg_isSome hM
    unfold trimLoop
    simp only [ha]
    by_cases hd : a.isDefaultArg = true
    · simp only [hd, if_true]
      by_cases hz : M = 0
      · subst hz
        right
        refine ⟨?_, by simp [usub, UINT_MAX]⟩
        intro k hk
        have : k = 0 := by omega
        subst this
        exact ⟨a, ha, hd⟩
      · have e1 : usub M 1 = M - 1 := usub_of_le (by omega) (by omega)
        have e2 : ¬ (M - 1 = UINT_MAX) := by unfold UINT_MAX; omega
        simp only [e1, e2, if_false]
        rcases ih (M - 1) (by omega) hlen (by omega) with
          ⟨j, e, h1, h2, h3, h4, h5⟩ | ⟨h1, h2⟩
        · left
          refine ⟨j, e, by omega, h2, h3, ?_, h5⟩
          intro k hk1 hk2
          by_cases hkM : k = M
          · subst hkM; exact ⟨a, ha, hd⟩
          · exact h4 k hk1 (by omega)
        · right
          refine ⟨?_, h2⟩
          intro k hk
          by_cases hkM : k = M
          · subst hkM; exact ⟨a, ha, hd⟩
          · exact h1 k (by omega)
    · left
      have hd' : a.isDefaultArg = false := by simpa using hd
      refine ⟨M, a, le_refl _, ha, hd', fun k h1 h2 => by omega, ?_⟩
      simp [hd']

/-! ## The stages of CheckCall -/

theorem not_hasFixIt_nil : ¬ HasFixIt [] := by
  rintro ⟨d, hd, -⟩; cases hd

theorem not_hasFixIt_internalError (r : MatchResult) (Call : CallExpr) (Callee : FunctionDecl) :
    ¬ HasFixIt (internalErrorDiags r Call Callee) := by
  rintro ⟨d, hd, hf⟩
  simp only [internalErrorDiags, List.mem_cons, List.mem_singleton, List.not_mem_nil,
    or_false] at hd
  rcases hd with hd | hd <;> (subst hd; exact hf rfl)

theorem hasFixIt_suggestion (r : MatchResult) (Callee NewCallee : FunctionDecl)
    (ZArg : Option Expr) (b e : SourceLocation) (t : String) :
    HasFixIt (suggestionDiags r Callee NewCallee ZArg b e t) :=
  ⟨_, List.mem_cons_self _ _, by simp⟩

theorem CheckCall_of_reachesOverload {conv : String → NameConvention} {r : MatchResult}
    {XParam : ParmVarDecl} {XArg : Expr} {Callee : FunctionDecl} {s : ScanState}
    {YArg : Expr} {NewCallee : FunctionDecl}
    (h : ReachesOverload conv r XParam XArg Callee s YArg NewCallee) :
    CheckCall conv r =
      match trimLoop r (s.MaxArg + 1) s.MaxArg with
      | none => none
      | some none => some []
      | some (some MaxArg) =>
        match GetCallArg r s.MinArg, GetCallArg r MaxArg with
        | some First, some Last =>
          some (suggestionDiags r Callee NewCallee s.ZArg First.beginLoc Last.endLoc
            (ReplacementText XArg YArg s.ZArg))
        | _, _ => none := by
  obtain ⟨h1, h2, h3, h4, h5, h6, h7, h8, h9, h10⟩ := h
  unfold NumCoordParamsOf at h9 h10
  unfold CheckCall
  simp only [h1, h2, h3, h4, h5, h6, h7, h8, h9, h10, if_false, ne_eq, not_true_eq_false]
  rfl

theorem CheckCall_shape {conv : String → NameConvention} {r : MatchResult}
    {out : List Diagnostic} (h : CheckCall conv r = some out) :
    out = [] ∨
    (∃ Call Callee, r.Call = some Call ∧ r.Callee = some Callee ∧
      usub (NumCallArgs r) (SkipArgsOf Callee) > Callee.getNumParams ∧
      out = internalErrorDiags r Call Callee) ∨
    (∃ XParam XArg Callee s YArg NewCallee MaxArg First Last,
      ReachesOverload conv r XParam XArg Callee s YArg NewCallee ∧
      trimLoop r (s.MaxArg + 1) s.MaxArg = some (some MaxArg) ∧
      GetCallArg r s.MinArg = some First ∧ GetCallArg r MaxArg = some Last ∧
      out = suggestionDiags r Callee NewCallee s.ZArg First.beginLoc Last.endLoc
        (ReplacementText XArg YArg s.ZArg)) := by
  unfold CheckCall at h
  cases h1 : r.XParam with
  | none => simp [h1] at h; subst h; exact Or.inl rfl
  | some XParam =>
  cases h2 : r.XArg with
  | none => simp [h1, h2] at h; subst h; exact Or.inl rfl
  | some XArg =>
  cases h3 : r.Callee with
  | none => simp [h1, h2, h3] at h; subst h; exact Or.inl rfl
  | some Callee =>
  simp only [h1, h2, h3] at h
  by_cases h4 : r.Call.isNone ∧ r.ConstructorCall.isNone
  · simp only [h4, and_self, if_true] at h
    simp at h; subst h; exact Or.inl rfl
  · rw [if_neg h4] at h
    by_cases h5 : usub (NumCallArgs r) (SkipArgsOf Callee) > Callee.getNumParams
    · rw [if_pos h5] at h
      cases hc : r.Call with
      | none => simp [hc] at h
      | some Call =>
        simp only [hc, Option.some.injEq] at h
        subst h
        exact Or.inr (Or.inl ⟨Call, Callee, rfl, rfl, h5, rfl⟩)
    · rw [if_neg h5] at h
      by_cases h6 : (conv XParam.name).valid = false
      · rw [if_pos h6] at h
        simp at h; subst h; exact Or.inl rfl
      · rw [if_neg h6] at h
        cases h7 : scanLoop (conv XParam.name) Callee r (SkipArgsOf Callee)
            (NumCallArgs r - SkipArgsOf Callee) (SkipArgsOf Callee) ScanState.init with
        | none => simp [h7] at h
        | some s =>
        simp only [h7] at h
        cases h8 : s.YArg with
        | none => simp [h8] at h; subst h; exact Or.inl rfl
        | some YArg =>
        simp only [h8] at h
        by_cases h9 : usub s.MaxArg s.MinArg = usub (if s.ZArg.isSome then 3 else 2) 1
        · simp only [h9, ne_eq, not_true_eq_false, if_false] at h
          cases h10 : findNewCallee Callee r.ContainingFunction (if s.ZArg.isSome then 3 else 2)
              (SkipArgsOf Callee) s.MinArg s.ZArg.isSome r.Lookup with
          | none => simp [h10] at h
          | some o =>
          cases o with
          | none => simp [h10] at h; subst h; exact Or.inl rfl
          | some NewCallee =>
          simp only [h10] at h
          cases h11 : trimLoop r (s.MaxArg + 1) s.MaxArg with
          | none => simp [h11] at h
          | some o =>
          cases o with
          | none => simp [h11] at h; subst h; exact Or.inl rfl
          | some MaxArg =>
          simp only [h11] at h
          cases h12 : GetCallArg r s.MinArg with
          | none => simp [h12] at h
          | some First =>
          cases h13 : GetCallArg r MaxArg with
          | none => simp [h12, h13] at h
          | some Last =>
          simp only [h12, h13, Option.some.injEq] at h
          refine Or.inr (Or.inr ⟨XParam, XArg, Callee, s, YArg, NewCallee, MaxArg, First, Last,
            ⟨h1, h2, h3, h4, h5, by simpa using h6, h7, h8, h9, h10⟩, h11, h12, h13, h.symm⟩)
        · simp only [ne_eq, h9, not_false_eq_true, if_true] at h
          simp at h; subst h; exact Or.inl rfl

theorem CheckCall_suggestion_inv {conv : String → NameConvention} {r : MatchResult}
    {out : List Diagnostic} (h : CheckCall conv r = some out) (hf : HasFixIt out) :
    ∃ XParam XArg Callee s YArg NewCallee MaxArg First Last,
      ReachesOverload conv r XParam XArg Callee s YArg NewCallee ∧
      trimLoop r (s.MaxArg + 1) s.MaxArg = some (some MaxArg) ∧
      GetCallArg r s.MinArg = some First ∧ GetCallArg r MaxArg = some Last ∧
      out = suggestionDiags r Callee NewCallee s.ZArg First.beginLoc Last.endLoc
        (ReplacementText XArg YArg s.ZArg) := by
  rcases CheckCall_shape h with h0 | ⟨Call, Callee, -, -, -, h1⟩ | h2
  · subst h0; exact absurd hf not_hasFixIt_nil
  · subst h1; exact absurd hf (not_hasFixIt_internalError r Call Callee)
  · exact h2

/-! ## The span found by the scan -/

theorem isCoord_lt {NM : NameConvention} {C : FunctionDecl} {Skip j : Nat}
    (h : isCoord NM C Skip j) : usub j Skip < C.getNumParams := by
  obtain ⟨m, hm, -⟩ := h
  unfold roleAt at hm
  unfold FunctionDecl.getNumParams
  by_contra hlt
  unfold FunctionDecl.getParamDecl at hm
  rw [List.getElem?_eq_none (by omega)] at hm
  cases hm

theorem SkipArgsOf_le_one (C : FunctionDecl) : SkipArgsOf C ≤ 1 := by
  unfold SkipArgsOf; split <;> omega

theorem NumCoordParamsOf_cases (s : ScanState) :
    (s.ZArg = none ∧ NumCoordParamsOf s = 2) ∨ (∃ z, s.ZArg = some z ∧ NumCoordParamsOf s = 3) := by
  unfold NumCoordParamsOf
  cases s.ZArg with
  | none => left; simp
  | some z => right; exact ⟨z, rfl, by simp⟩

/-- What the scan from the initial state tells about its result, for a call
with fewer than `2 ^ 32` arguments in which a Y argument was found. -/
theorem scan_facts {NM : NameConvention} {C : FunctionDecl} {r : MatchResult} {s : ScanState}
    {YArg : Expr}
    (hlen : NumCallArgs r < 4294967296)
    (hscan : scanLoop NM C r (SkipArgsOf C) (NumCallArgs r - SkipArgsOf C) (SkipArgsOf C)
      ScanState.init = some s)
    (hY : s.YArg = some YArg) :
    (∃ jy, SkipArgsOf C ≤ jy ∧ jy < NumCallArgs r ∧
      roleAt NM C (SkipArgsOf C) jy = some NameMatch.YName ∧
      (∀ k, jy < k → k < NumCallArgs r → roleAt NM C (SkipArgsOf C) k ≠ some NameMatch.YName) ∧
      GetCallArg r jy = some YArg) ∧
    (SkipArgsOf C ≤ s.MinArg ∧ s.MinArg ≤ s.MaxArg ∧ s.MaxArg < NumCallArgs r ∧
      isCoord NM C (SkipArgsOf C) s.MinArg ∧ isCoord NM C (SkipArgsOf C) s.MaxArg) ∧
    (∀ j, SkipArgsOf C ≤ j → j < NumCallArgs r → isCoord NM C (SkipArgsOf C) j →
      s.MinArg ≤ j ∧ j ≤ s.MaxArg) ∧
    ((s.ZArg = none ∧ ∀ j, SkipArgsOf C ≤ j → j < NumCallArgs r →
        roleAt NM C (SkipArgsOf C) j ≠ some NameMatch.ZName) ∨
      (∃ jz z, SkipArgsOf C ≤ jz ∧ jz < NumCallArgs r ∧
        roleAt NM C (SkipArgsOf C) jz = some NameMatch.ZName ∧
        (∀ k, jz < k → k < NumCallArgs r →
          roleAt NM C (SkipArgsOf C) k ≠ some NameMatch.ZName) ∧
        GetCallArg r jz = some z ∧ s.ZArg = some z)) := by
  have hb := scanLoop_bounds NM C r (SkipArgsOf C) _ _ _ _ hscan
  have ha := scanLoop_attained NM C r (SkipArgsOf C) _ _ _ _ hscan
  have hy := scanLoop_YArg NM C r (SkipArgsOf C) _ _ _ _ hscan
  have hz := scanLoop_ZArg NM C r (SkipArgsOf C) _ _ _ _ hscan
  simp only [ScanState.init] at hb ha hy hz
  obtain ⟨-, -, hb3⟩ := hb
  obtain ⟨ha1, ha2⟩ := ha
  have hjy : ∃ jy, SkipArgsOf C ≤ jy ∧ jy < NumCallArgs r ∧
      roleAt NM C (SkipArgsOf C) jy = some NameMatch.YName ∧
      (∀ k, jy < k → k < NumCallArgs r → roleAt NM C (SkipArgsOf C) k ≠ some NameMatch.YName) ∧
      GetCallArg r jy = some YArg := by
    rcases hy with ⟨h1, -⟩ | ⟨j, e, h1, h2, h3, h4, h5, h6⟩
    · rw [hY] at h1; cases h1
    · rw [hY] at h6
      cases h6
      exact ⟨j, h1, by omega, h3, fun k hk1 hk2 => h4 k hk1 (by omega), h5⟩
  obtain ⟨jy, hjy1, hjy2, hjy3, hjy4, hjy5⟩ := hjy
  have hcy : isCoord NM C (SkipArgsOf C) jy := ⟨_, hjy3, by decide⟩
  have hby := hb3 jy hjy1 (by omega) hcy
  refine ⟨⟨jy, hjy1, hjy2, hjy3, hjy4, hjy5⟩, ?_, ?_, ?_⟩
  · have hmin : SkipArgsOf C ≤ s.MinArg ∧ isCoord NM C (SkipArgsOf C) s.MinArg := by
      rcases ha1 with h | ⟨j, h1, h2, h3, h4⟩
      · unfold UINT_MAX at h; omega
      · rw [h4]; exact ⟨h1, h3⟩
    have hmax : s.MaxArg < NumCallArgs r ∧ isCoord NM C (SkipArgsOf C) s.MaxArg := by
      rcases ha2 with h | ⟨j, h1, h2, h3, h4⟩
      · have : jy = s.MaxArg := by omega
        rw [← this]; exact ⟨hjy2, hcy⟩
      · rw [h4]; exact ⟨by omega, h3⟩
    exact ⟨hmin.1, by omega, hmax.1, hmin.2, hmax.2⟩
  · intro j h1 h2 h3
    exact hb3 j h1 (by omega) h3
  · rcases hz with ⟨h1, h2⟩ | ⟨j, e, h1, h2, h3, h4, h5, h6⟩
    · left
      exact ⟨h1, fun j hj1 hj2 => h2 j hj1 (by omega)⟩
    · right
      exact ⟨j, e, h1, by omega, h3, fun k hk1 hk2 => h4 k hk1 (by omega), h5, h6⟩

/-- The span found by a scan that passes the contiguity check lies inside the
callee's parameters. -/
theorem span_in_range {NM : NameConvention} {C : FunctionDecl} {r : MatchResult} {s : ScanState}
    {YArg : Expr}
    (hlen : NumCallArgs r < 4294967296)
    (hscan : scanLoop NM C r (SkipArgsOf C) (NumCallArgs r - SkipArgsOf C) (SkipArgsOf C)
      ScanState.init = some s)
    (hY : s.YArg = some YArg)
    (hcontig : usub s.MaxArg s.MinArg = usub (NumCoordParamsOf s) 1) :
    s.MaxArg = s.MinArg + (NumCoordParamsOf s - 1) ∧
    usub s.MinArg (SkipArgsOf C) = s.MinArg - SkipArgsOf C ∧
    usub s.MinArg (SkipArgsOf C) + NumCoordParamsOf s ≤ C.getNumParams := by
  obtain ⟨-, ⟨h1, h2, h3, h4, h5⟩, -, -⟩ := scan_facts hlen hscan hY
  have hN : NumCoordParamsOf s = 2 ∨ NumCoordParamsOf s = 3 := by
    rcases NumCoordParamsOf_cases s with ⟨-, h⟩ | ⟨z, -, h⟩
    · exact Or.inl h
    · exact Or.inr h
  have e1 : usub s.MaxArg s.MinArg = s.MaxArg - s.MinArg := usub_of_le h2 (by omega)
  have e2 : usub (NumCoordParamsOf s) 1 = NumCoordParamsOf s - 1 :=
    usub_of_le (by omega) (by omega)
  have e3 : usub s.MinArg (SkipArgsOf C) = s.MinArg - SkipArgsOf C := usub_of_le h1 (by omega)
  have e4 : usub s.MaxArg (SkipArgsOf C) = s.MaxArg - SkipArgsOf C :=
    usub_of_le (by omega) (by omega)
  have h6 := isCoord_lt h5
  rw [e1, e2] at hcontig
  rw [e4] at h6
  refine ⟨by omega, e3, ?_⟩
  rw [e3]
  omega

/-- The invariant of a coordinate group, for a scan that ended in `s`. -/
theorem coordinate_group {NM : NameConvention} {C : FunctionDecl} {r : MatchResult}
    {s : ScanState} {YArg : Expr}
    (hlen : NumCallArgs r < 4294967296)
    (hscan : scanLoop NM C r (SkipArgsOf C) (NumCallArgs r - SkipArgsOf C) (SkipArgsOf C)
      ScanState.init = some s)
    (hY : s.YArg = some YArg)
    (hcontig : usub s.MaxArg s.MinArg = usub (NumCoordParamsOf s) 1)
    (hx : ∃ j, SkipArgsOf C ≤ j ∧ j < NumCallArgs r ∧
      roleAt NM C (SkipArgsOf C) j = some NameMatch.XName) :
    (∃! j, SkipArgsOf C ≤ j ∧ j < NumCallArgs r ∧
      roleAt NM C (SkipArgsOf C) j = some NameMatch.XName) ∧
    (∃! j, SkipArgsOf C ≤ j ∧ j < NumCallArgs r ∧
      roleAt NM C (SkipArgsOf C) j = some NameMatch.YName) ∧
    (∀ j k, SkipArgsOf C ≤ j → j < NumCallArgs r → SkipArgsOf C ≤ k → k < NumCallArgs r →
      roleAt NM C (SkipArgsOf C) j = some NameMatch.ZName →
      roleAt NM C (SkipArgsOf C) k = some NameMatch.ZName → j = k) ∧
    (∀ j, s.MinArg ≤ j → j ≤ s.MaxArg →
      SkipArgsOf C ≤ j ∧ j < NumCallArgs r ∧ isCoord NM C (SkipArgsOf C) j) := by
  obtain ⟨⟨jy, hy1, hy2, hy3, -, -⟩, ⟨hs1, hs2, hs3, -, -⟩, hb, hz⟩ := scan_facts hlen hscan hY
  obtain ⟨hmax, -, -⟩ := span_in_range hlen hscan hY hcontig
  obtain ⟨jx, hx1, hx2, hx3⟩ := hx
  have hcx : isCoord NM C (SkipArgsOf C) jx := ⟨_, hx3, by decide⟩
  have hcy : isCoord NM C (SkipArgsOf C) jy := ⟨_, hy3, by decide⟩
  have hbx := hb jx hx1 hx2 hcx
  have hby := hb jy hy1 hy2 hcy
  have hxy : jx ≠ jy := by
    intro h; rw [h, hy3] at hx3; cases hx3
  have inX : ∀ j, SkipArgsOf C ≤ j → j < NumCallArgs r →
      roleAt NM C (SkipArgsOf C) j = some NameMatch.XName → s.MinArg ≤ j ∧ j ≤ s.MaxArg ∧ j ≠ jy :=
    fun j h1 h2 h3 => ⟨(hb j h1 h2 ⟨_, h3, by decide⟩).1, (hb j h1 h2 ⟨_, h3, by decide⟩).2,
      by intro h; rw [h, hy3] at h3; cases h3⟩
  have inY : ∀ j, SkipArgsOf C ≤ j → j < NumCallArgs r →
      roleAt NM C (SkipArgsOf C) j = some NameMatch.YName → s.MinArg ≤ j ∧ j ≤ s.MaxArg ∧ j ≠ jx :=
    fun j h1 h2 h3 => ⟨(hb j h1 h2 ⟨_, h3, by decide⟩).1, (hb j h1 h2 ⟨_, h3, by decide⟩).2,
      by intro h; rw [h, hx3] at h3; cases h3⟩
  rcases hz with ⟨hz0, hnoz⟩ | ⟨jz, z, hz1, hz2, hz3, -, -, hz5⟩
  · have hN : NumCoordParamsOf s = 2 := by unfold NumCoordParamsOf; rw [hz0]; rfl
    rw [hN] at hmax
    refine ⟨⟨jx, ⟨hx1, hx2, hx3⟩, ?_⟩, ⟨jy, ⟨hy1, hy2, hy3⟩, ?_⟩, ?_, ?_⟩
    · rintro j ⟨h1, h2, h3⟩
      have := inX j h1 h2 h3
      omega
    · rintro j ⟨h1, h2, h3⟩
      have := inY j h1 h2 h3
      omega
    · intro j k h1 h2 _ _ h3 _
      exact absurd h3 (hnoz j h1 h2)
    · intro j h1 h2
      have hj : j = jx ∨ j = jy := by omega
      rcases hj with hj | hj
      · rw [hj]; exact ⟨hx1, hx2, hcx⟩
      · rw [hj]; exact ⟨hy1, hy2, hcy⟩
  · have hN : NumCoordParamsOf s = 3 := by unfold NumCoordParamsOf; rw [hz5]; rfl
    rw [hN] at hmax
    have hcz : isCoord NM C (SkipArgsOf C) jz := ⟨_, hz3, by decide⟩
    have hbz := hb jz hz1 hz2 hcz
    have hxz : jx ≠ jz := by
      intro h; rw [h, hz3] at hx3; cases hx3
    have hyz : jy ≠ jz := by
      intro h; rw [h, hz3] at hy3; cases hy3
    refine ⟨⟨jx, ⟨hx1, hx2, hx3⟩, ?_⟩, ⟨jy, ⟨hy1, hy2, hy3⟩, ?_⟩, ?_, ?_⟩
    · rintro j ⟨h1, h2, h3⟩
      have := inX j h1 h2 h3
      have hjz : j ≠ jz := by intro h; rw [h, hz3] at h3; cases h3
      omega
    · rintro j ⟨h1, h2, h3⟩
      have := inY j h1 h2 h3
      have hjz : j ≠ jz := by intro h; rw [h, hz3] at h3; cases h3
      omega
    · intro j k h1 h2 h1' h2' h3 h3'
      have hj := hb j h1 h2 ⟨_, h3, by decide⟩
      have hk := hb k h1' h2' ⟨_, h3', by decide⟩
      have hjx : j ≠ jx := by intro h; rw [h, hx3] at h3; cases h3
      have hjy : j ≠ jy := by intro h; rw [h, hy3] at h3; cases h3
      have hkx : k ≠ jx := by intro h; rw [h, hx3] at h3'; cases h3'
      have hky : k ≠ jy := by intro h; rw [h, hy3] at h3'; cases h3'
      omega
    · intro j h1 h2
      have hj : j = jx ∨ j = jy ∨ j = jz := by omega
      rcases hj with hj | hj | hj
      · rw [hj]; exact ⟨hx1, hx2, hcx⟩
      · rw [hj]; exact ⟨hy1, hy2, hcy⟩
      · rw [hj]; exact ⟨hz1, hz2, hcz⟩

/-! ## The fix-it -/

theorem ReplacementText_point (XArg YArg : Expr) :
    ReplacementText XArg YArg none = "point( " ++ XArg.text ++ ", " ++ YArg.text ++ " )" := rfl

theorem ReplacementText_tripoint (XArg YArg ZArg : Expr) :
    ReplacementText XArg YArg (some ZArg) =
      "tripoint( " ++ XArg.text ++ ", " ++ YArg.text ++ ", " ++ ZArg.text ++ " )" := by
  unfold ReplacementText
  simp only [String.append_assoc]
  rfl

theorem fixit_of_suggestion {r : MatchResult} {Callee NewCallee : FunctionDecl}
    {ZArg : Option Expr} {b e : SourceLocation} {t : String} {d : Diagnostic} {f : FixItHint}
    (hd : d ∈ suggestionDiags r Callee NewCallee ZArg b e t) (hf : d.fixit = some f) :
    f = { rangeBegin := b, rangeEnd := e, text := t } := by
  simp only [suggestionDiags, List.mem_cons, List.mem_singleton, List.not_mem_nil,
    or_false] at hd
  rcases hd with hd | hd | hd
  · subst hd
    simp only [Option.some.injEq] at hf
    exact hf.symm
  · subst hd; cases hf
  · subst hd; cases hf

/-! ## What an accepted candidate looks like -/

theorem doFunctionsMatch_count {C O : FunctionDecl} {N Skip Min : Nat} {T : Bool}
    (h : doFunctionsMatch C O N Skip Min T = some true) :
    O.getNumParams = usub C.getNumParams (usub N 1) := by
  unfold doFunctionsMatch at h
  by_contra hne
  simp [hne] at h

theorem doFunctionsMatchLoop_reaches (C O : FunctionDecl) (N Skip Min : Nat) (T : Bool)
    (hm : usub Min Skip < C.getNumParams) :
    ∀ (fuel i : Nat), i ≤ usub Min Skip →
      doFunctionsMatchLoop C O N Skip Min T fuel i i = some true →
      renderedAt O (usub Min Skip) = some (ExpectedTypeName T) := by
  intro fuel
  induction fuel with
  | zero => intro i _ h; simp [doFunctionsMatchLoop] at h
  | succ fuel ih =>
    intro i hi h
    unfold doFunctionsMatchLoop at h
    have hc : i < C.getNumParams := by omega
    simp only [hc, if_true] at h
    cases ha : C.getParamDecl i with
    | none => simp [ha] at h
    | some a =>
      cases hb : O.getParamDecl i with
      | none => simp [ha, hb] at h
      | some b =>
        simp only [ha, hb] at h
        by_cases him : i = usub Min Skip
        · simp only [him.symm, if_true] at h
          by_cases hty : b.type.asString = ExpectedTypeName T
          · rw [← him]; simp [renderedAt, hb, hty]
          · simp [hty] at h
        · simp only [him, if_false] at h
          by_cases hty : a.type.localUnqualified = b.type.localUnqualified
          · have hlt : usub Min Skip < 4294967296 := by unfold usub; omega
            have e1 : uadd i 1 = i + 1 := uadd_of_lt (by omega)
            simp only [hty, ne_eq, not_true_eq_false, if_false, e1] at h
            exact ih (i + 1) (by omega) h
          · simp [hty] at h

theorem doFunctionsMatch_rendered {C O : FunctionDecl} {N Skip Min : Nat} {T : Bool}
    (h : doFunctionsMatch C O N Skip Min T = some true)
    (hm : usub Min Skip < C.getNumParams) :
    renderedAt O (usub Min Skip) = some (ExpectedTypeName T) := by
  unfold doFunctionsMatch at h
  by_cases hne : O.getNumParams = usub C.getNumParams (usub N 1)
  · simp only [ne_eq, hne, not_true_eq_false, if_false] at h
    exact doFunctionsMatchLoop_reaches C O N Skip Min T hm _ 0 (Nat.zero_le _) h
  · simp [hne] at h

/-! ## Call sites with one block of coordinate parameters -/

theorem unqualAt_eq (F : FunctionDecl) (i : Nat) :
    unqualAt F i = ((paramTypes F)[i]?).map QualType.localUnqualified := by
  simp [unqualAt, paramTypes, FunctionDecl.getParamDecl, List.getElem?_map, Option.map_map,
    Function.comp_def]

theorem renderedAt_eq (F : FunctionDecl) (i : Nat) :
    renderedAt F i = ((paramTypes F)[i]?).map QualType.asString := by
  simp [renderedAt, paramTypes, FunctionDecl.getParamDecl, List.getElem?_map, Option.map_map,
    Function.comp_def]

theorem paramTypes_length (F : FunctionDecl) : (paramTypes F).length = F.getNumParams := by
  simp [paramTypes, FunctionDecl.getNumParams]

theorem matchConditions_of_collapsed {Callee Other : FunctionDecl} {p N : Nat} {q : QualType}
    {T : Bool} (hN : 1 ≤ N) (hp : p + N ≤ Callee.getNumParams)
    (hcol : CollapsedAt Callee Other p N q) (hq : q.asString = ExpectedTypeName T) :
    MatchConditions Callee Other N p T := by
  unfold CollapsedAt at hcol
  have hlen := paramTypes_length Callee
  have htake : ((paramTypes Callee).take p).length = p := by
    rw [List.length_take]; omega
  refine ⟨?_, ?_, ?_, ?_⟩
  · rw [← paramTypes_length Other, hcol]
    simp only [List.length_append, List.length_cons, List.length_take, List.length_drop]
    omega
  · rw [renderedAt_eq, hcol, List.getElem?_append_right (by omega), htake]
    simp [hq]
  · intro i hi
    rw [unqualAt_eq, unqualAt_eq, hcol, List.getElem?_append_left (by omega),
      List.getElem?_take_of_lt hi]
  · intro i hi1 hi2
    rw [unqualAt_eq, unqualAt_eq, hcol, List.getElem?_append_right (by omega), htake]
    have e : i - (N - 1) - p = (i - p - N) + 1 := by omega
    rw [e, List.getElem?_cons_succ, List.getElem?_drop]
    congr 2
    omega

theorem roleAt_eq_paramRole (NM : NameConvention) (C : FunctionDecl) (Skip j : Nat) :
    roleAt NM C Skip j = paramRole NM C (usub j Skip) := rfl

/-- The result of the scan of a call that has one argument for each parameter
of the callee, when the parameters classified X, Y or Z are exactly those at
the `N` positions from `p` on, `py` is the one Y parameter and `pz`, if any, is
the one Z parameter. -/
theorem scan_of_block {NM : NameConvention} {C : FunctionDecl} {r : MatchResult}
    {p N py : Nat} {pz : Option Nat}
    (hN : 1 ≤ N)
    (hargs : NumCallArgs r = SkipArgsOf C + C.getNumParams)
    (hlen : NumCallArgs r < 4294967296)
    (hp : p + N ≤ C.getNumParams)
    (hblock : ∀ i, i < C.getNumParams →
      ((∃ m, paramRole NM C i = some m ∧ m ≠ NameMatch.None) ↔ (p ≤ i ∧ i < p + N)))
    (hy : paramRole NM C py = some NameMatch.YName)
    (hyu : ∀ i, paramRole NM C i = some NameMatch.YName → i = py)
    (hz : ∀ k, pz = some k → paramRole NM C k = some NameMatch.ZName)
    (hzu : ∀ i, paramRole NM C i = some NameMatch.ZName → pz = some i) :
    ∃ s YArg, scanLoop NM C r (SkipArgsOf C) (NumCallArgs r - SkipArgsOf C) (SkipArgsOf C)
        ScanState.init = some s ∧
      s.MinArg = SkipArgsOf C + p ∧ s.MaxArg = SkipArgsOf C + p + (N - 1) ∧
      GetCallArg r (SkipArgsOf C + py) = some YArg ∧ s.YArg = some YArg ∧
      (pz = none → s.ZArg = none) ∧
      (∀ k, pz = some k → ∃ ZArg, GetCallArg r (SkipArgsOf C + k) = some ZArg ∧
        s.ZArg = some ZArg) := by
  have hidx : ∀ j, SkipArgsOf C ≤ j → j < NumCallArgs r → usub j (SkipArgsOf C) = j - SkipArgsOf C :=
    fun j h1 h2 => usub_of_le h1 (by omega)
  have hpr_lt : ∀ i m, paramRole NM C i = some m → i < C.getNumParams := by
    intro i m h
    unfold paramRole FunctionDecl.getParamDecl at h
    unfold FunctionDecl.getNumParams
    by_contra hlt
    rw [List.getElem?_eq_none (by omega)] at h
    cases h
  obtain ⟨s, hs⟩ := scanLoop_defined NM C r (SkipArgsOf C) (NumCallArgs r - SkipArgsOf C)
    (SkipArgsOf C) ScanState.init (by
      intro j h1 h2
      have : j < NumCallArgs r := by omega
      rw [hidx j h1 this]
      omega)
  have hpy := hpr_lt py _ hy
  have hroley : roleAt NM C (SkipArgsOf C) (SkipArgsOf C + py) = some NameMatch.YName := by
    rw [roleAt_eq_paramRole, hidx _ (by omega) (by omega)]
    have : SkipArgsOf C + py - SkipArgsOf C = py := by omega
    rw [this]; exact hy
  have hY : ∃ YArg, GetCallArg r (SkipArgsOf C + py) = some YArg ∧ s.YArg = some YArg := by
    rcases scanLoop_YArg NM C r (SkipArgsOf C) _ _ _ _ hs with ⟨-, h2⟩ | ⟨j, e, h1, h2, h3, -, h5, h6⟩
    · exact absurd hroley (h2 _ (by omega) (by omega))
    · rw [roleAt_eq_paramRole, hidx j h1 (by omega)] at h3
      have := hyu _ h3
      have hj : j = SkipArgsOf C + py := by omega
      subst hj
      exact ⟨e, h5, h6⟩
  obtain ⟨YArg, hY1, hY2⟩ := hY
  obtain ⟨-, ⟨hs1, hs2, hs3, hs4, hs5⟩, hb, hzf⟩ := scan_facts hlen hs hY2
  have hcoord_iff : ∀ j, SkipArgsOf C ≤ j → j < NumCallArgs r →
      (isCoord NM C (SkipArgsOf C) j ↔ (SkipArgsOf C + p ≤ j ∧ j < SkipArgsOf C + p + N)) := by
    intro j h1 h2
    unfold isCoord
    rw [roleAt_eq_paramRole, hidx j h1 h2, hblock (j - SkipArgsOf C) (by omega)]
    omega
  have hmin : s.MinArg = SkipArgsOf C + p := by
    have h1 := (hcoord_iff s.MinArg hs1 (by omega)).mp hs4
    have h2 := hb (SkipArgsOf C + p) (by omega) (by omega)
      ((hcoord_iff _ (by omega) (by omega)).mpr ⟨le_refl _, by omega⟩)
    omega
  have hmax : s.MaxArg = SkipArgsOf C + p + (N - 1) := by
    have h1 := (hcoord_iff s.MaxArg (by omega) hs3).mp hs5
    have h2 := hb (SkipArgsOf C + p + (N - 1)) (by omega) (by omega)
      ((hcoord_iff _ (by omega) (by omega)).mpr ⟨by omega, by omega⟩)
    omega
  refine ⟨s, YArg, hs, hmin, hmax, hY1, hY2, ?_, ?_⟩
  · intro hpz
    rcases hzf with ⟨h, -⟩ | ⟨jz, z, h1, h2, h3, -⟩
    · exact h
    · rw [roleAt_eq_paramRole, hidx jz h1 h2] at h3
      have := hzu _ h3
      rw [hpz] at this
      cases this
  · intro k hk
    have hrk := hz k hk
    have hklt := hpr_lt k _ hrk
    rcases hzf with ⟨-, h⟩ | ⟨jz, z, h1, h2, h3, -, h5, h6⟩
    · exfalso
      apply h (SkipArgsOf C + k) (by omega) (by omega)
      rw [roleAt_eq_paramRole, hidx _ (by omega) (by omega)]
      have : SkipArgsOf C + k - SkipArgsOf C = k := by omega
      rw [this]; exact hrk
    · rw [roleAt_eq_paramRole, hidx jz h1 h2] at h3
      have := hzu _ h3
      rw [hk] at this
      cases this
      have hj : jz = SkipArgsOf C + (jz - SkipArgsOf C) := by omega
      rw [← hj]
      exact ⟨z, h5, h6⟩

theorem trimLoop_explicit {r : MatchResult} {M fuel : Nat} {e : Expr}
    (h : GetCallArg r M = some e) (he : e.isDefaultArg = false) :
    trimLoop r (fuel + 1) M = some (some M) := by
  unfold trimLoop
  simp [h, he]

/-- A call site with one block of `N` coordinate parameters from position `p`
on, one argument for each parameter, the last argument of the block written
explicitly, and a function in the lookup result whose parameter list is the
callee's with the block collapsed into the aggregate type: `CheckCall` emits a
suggestion for the block. -/
theorem CheckCall_of_block {conv : String → NameConvention} {r : MatchResult}
    {XParam : ParmVarDecl} {XArg : Expr} {Callee O : FunctionDecl}
    {p N py : Nat} {pz : Option Nat} {q : QualType}
    (hX : r.XParam = some XParam) (hA : r.XArg = some XArg) (hC : r.Callee = some Callee)
    (hcall : ¬ (r.Call.isNone ∧ r.ConstructorCall.isNone))
    (hvalid : (conv XParam.name).valid = true)
    (hN : (N = 2 ∧ pz = none) ∨ (N = 3 ∧ ∃ k, pz = some k))
    (hargs : NumCallArgs r = SkipArgsOf Callee + Callee.getNumParams)
    (hlen : NumCallArgs r < 4294967296)
    (hp : p + N ≤ Callee.getNumParams)
    (hblock : ∀ i, i < Callee.getNumParams →
      ((∃ m, paramRole (conv XParam.name) Callee i = some m ∧ m ≠ NameMatch.None) ↔
        (p ≤ i ∧ i < p + N)))
    (hy : paramRole (conv XParam.name) Callee py = some NameMatch.YName)
    (hyu : ∀ i, paramRole (conv XParam.name) Callee i = some NameMatch.YName → i = py)
    (hz : ∀ k, pz = some k → paramRole (conv XParam.name) Callee k = some NameMatch.ZName)
    (hzu : ∀ i, paramRole (conv XParam.name) Callee i = some NameMatch.ZName → pz = some i)
    (hexplicit : ∀ e, GetCallArg r (SkipArgsOf Callee + p + (N - 1)) = some e →
      e.isDefaultArg = false)
    (hO : NamedDecl.function O ∈ r.Lookup) (hOc : O.addr ≠ Callee.addr)
    (hOf : r.ContainingFunction.map FunctionDecl.addr ≠ some O.addr)
    (hcol : CollapsedAt Callee O p N q)
    (hq : q.asString = ExpectedTypeName (decide (N = 3)))
    (hT : ∀ T, Callee.primaryTemplate = some T →
      T.templatedParams.length = Callee.params.length) :
    ∃ NewCallee First Last YArg ZArg,
      GetCallArg r (SkipArgsOf Callee + p) = some First ∧
      GetCallArg r (SkipArgsOf Callee + p + (N - 1)) = some Last ∧
      GetCallArg r (SkipArgsOf Callee + py) = some YArg ∧
      (pz = none → ZArg = none) ∧
      (∀ k, pz = some k → ∃ Z, GetCallArg r (SkipArgsOf Callee + k) = some Z ∧ ZArg = some Z) ∧
      CheckCall conv r = some (suggestionDiags r Callee NewCallee ZArg
        First.beginLoc Last.endLoc (ReplacementText XArg YArg ZArg)) := by
  have hN1 : 1 ≤ N := by rcases hN with ⟨h, -⟩ | ⟨h, -⟩ <;> omega
  have hN23 : N = 2 ∨ N = 3 := by rcases hN with ⟨h, -⟩ | ⟨h, -⟩ <;> simp [h]
  obtain ⟨s, YArg, hs, hmin, hmax, hY1, hY2, hZn, hZs⟩ :=
    scan_of_block hN1 hargs hlen hp hblock hy hyu hz hzu
  have hNs : NumCoordParamsOf s = N ∧ s.ZArg.isSome = decide (N = 3) := by
    unfold NumCoordParamsOf
    rcases hN with ⟨h1, h2⟩ | ⟨h1, k, h2⟩
    · rw [hZn h2, h1]; simp
    · obtain ⟨Z, -, hZ⟩ := hZs k h2
      rw [hZ, h1]; simp
  obtain ⟨hNs1, hNs2⟩ := hNs
  have hcount : Callee.getNumParams < 4294967296 := by omega
  have em : usub s.MinArg (SkipArgsOf Callee) = p := by
    rw [hmin, usub_of_le (by omega) (by omega)]; omega
  have hdo : doFunctionsMatch Callee O N (SkipArgsOf Callee) s.MinArg (decide (N = 3)) =
      some true := by
    obtain ⟨b, hb, hiff⟩ := doFunctionsMatch_spec Callee O N (SkipArgsOf Callee) s.MinArg
      (decide (N = 3)) hN23 hcount (by rw [em]; exact hp)
    rw [em] at hiff
    have := hiff.mpr (matchConditions_of_collapsed hN1 hp hcol hq)
    rw [hb, this]
  have hdef : ∀ D, D ∈ r.Lookup →
      ComparisonDefined Callee N (SkipArgsOf Callee) s.MinArg (decide (N = 3)) D := by
    intro D _
    constructor
    · intro O' _
      obtain ⟨b, hb, -⟩ := doFunctionsMatch_spec Callee O' N (SkipArgsOf Callee) s.MinArg
        (decide (N = 3)) hN23 hcount (by rw [em]; exact hp)
      rw [hb]; simp
    · intro Tmpl OT _ hTm
      have hTl : Tmpl.getTemplatedDecl.getNumParams = Callee.getNumParams := hT Tmpl hTm
      obtain ⟨b, hb, -⟩ := doFunctionsMatch_spec Tmpl.getTemplatedDecl OT.getTemplatedDecl N
        (SkipArgsOf Callee) s.MinArg (decide (N = 3)) hN23 (by rw [hTl]; exact hcount)
        (by rw [em, hTl]; exact hp)
      rw [hb]; simp
  obtain ⟨NewCallee, hfind⟩ := findNewCallee_finds Callee r.ContainingFunction N
    (SkipArgsOf Callee) s.MinArg (decide (N = 3)) r.Lookup hdef
    ⟨_, O, hO, Or.inl ⟨O, rfl, hOc, hOf, hdo, rfl⟩⟩
  have hreach : ReachesOverload conv r XParam XArg Callee s YArg NewCallee := by
    refine ⟨hX, hA, hC, hcall, ?_, hvalid, hs, hY2, ?_, ?_⟩
    · rw [hargs, usub_of_le (by omega) (by omega)]; omega
    · rw [hNs1, hmax, hmin, usub_of_le (by omega) (by omega), usub_of_le hN1 (by omega)]
      omega
    · rw [hNs1, hNs2]; exact hfind
  obtain ⟨First, hFirst⟩ := GetCallArg_isSome (r := r) (j := SkipArgsOf Callee + p) (by omega)
  obtain ⟨Last, hLast⟩ :=
    GetCallArg_isSome (r := r) (j := SkipArgsOf Callee + p + (N - 1)) (by omega)
  refine ⟨NewCallee, First, Last, YArg, s.ZArg, hFirst, hLast, hY1, hZn, hZs, ?_⟩
  rw [CheckCall_of_reachesOverload hreach]
  rw [hmax, trimLoop_explicit hLast (hexplicit Last hLast)]
  simp only [hmin, hFirst, hLast]

theorem paramRole_lt {NM : NameConvention} {C : FunctionDecl} {i : Nat} {m : NameMatch}
    (h : paramRole NM C i = some m) : i < C.getNumParams := by
  unfold paramRole FunctionDecl.getParamDecl at h
  unfold FunctionDecl.getNumParams
  by_contra hlt
  rw [List.getElem?_eq_none (by omega)] at h
  cases h

theorem NumCallArgs_of_call {r : MatchResult} {call : CallExpr} (h : r.Call = some call) :
    NumCallArgs r = call.args.length := by
  simp [NumCallArgs, h]

theorem GetCallArg_of_call {r : MatchResult} {call : CallExpr} (h : r.Call = some call)
    (j : Nat) : GetCallArg r j = call.args[j]? := by
  simp [GetCallArg, h]

/-! ## Dependence on the lookup result and on the arguments -/

theorem scanStep_congr {NM : NameConvention} {C : FunctionDecl} {r r' : MatchResult}
    {Skip i : Nat} (s : ScanState) (h : GetCallArg r' i = GetCallArg r i) :
    scanStep NM C r' Skip i s = scanStep NM C r Skip i s := by
  unfold scanStep
  rw [h]

theorem scanLoop_congr {NM : NameConvention} {C : FunctionDecl} {r r' : MatchResult}
    {Skip : Nat} : ∀ (n i : Nat) (s : ScanState),
      (∀ j, i ≤ j → GetCallArg r' j = GetCallArg r j) →
      scanLoop NM C r' Skip n i s = scanLoop NM C r Skip n i s := by
  intro n
  induction n with
  | zero => intro i s _; rfl
  | succ n ih =>
    intro i s h
    simp only [scanLoop]
    rw [scanStep_congr s (h i (le_refl _))]
    cases scanStep NM C r Skip i s with
    | none => rfl
    | some s1 => exact ih (i + 1) s1 (fun j hj => h j (by omega))

theorem trimLoop_congr {r r' : MatchResult} (h : ∀ j, GetCallArg r' j = GetCallArg r j) :
    ∀ (fuel M : Nat), trimLoop r' fuel M = trimLoop r fuel M := by
  intro fuel
  induction fuel with
  | zero => intro M; rfl
  | succ fuel ih =>
    intro M
    simp only [trimLoop]
    rw [h M]
    cases GetCallArg r M with
    | none => rfl
    | some a =>
      simp only []
      split
      · split
        · rfl
        · exact ih _
      · rfl

theorem findNewCallee_first (C : FunctionDecl) (CF : Option FunctionDecl) (N Skip Min : Nat)
    (T : Bool) : ∀ (L : List NamedDecl) (F : FunctionDecl),
      findNewCallee C CF N Skip Min T L = some (some F) →
      ∃ pre D post, L = pre ++ D :: post ∧ MatchedBy C CF N Skip Min T D F ∧
        (∀ D', D' ∈ pre → ∀ F', ¬ MatchedBy C CF N Skip Min T D' F') ∧
        (∀ post', findNewCallee C CF N Skip Min T (pre ++ D :: post') = some (some F)) := by
  intro L
  induction L with
  | nil => intro F h; simp [findNewCallee] at h
  | cons D rest ih =>
    intro F h
    have hskip : (∀ F', ¬ MatchedBy C CF N Skip Min T D F') →
        (∀ L', findNewCallee C CF N Skip Min T (D :: L') = findNewCallee C CF N Skip Min T L') →
        ∃ pre D0 post, D :: rest = pre ++ D0 :: post ∧ MatchedBy C CF N Skip Min T D0 F ∧
          (∀ D', D' ∈ pre → ∀ F', ¬ MatchedBy C CF N Skip Min T D' F') ∧
          (∀ post', findNewCallee C CF N Skip Min T (pre ++ D0 :: post') = some (some F)) := by
      intro hno hstep
      rw [hstep rest] at h
      obtain ⟨pre, D0, post, h1, h2, h3, h4⟩ := ih F h
      refine ⟨D :: pre, D0, post, by rw [h1]; rfl, h2, ?_, ?_⟩
      · intro D' hD' F'
        rcases List.mem_cons.mp hD' with heq | hmem
        · rw [heq]; exact hno F'
        · exact h3 D' hmem F'
      · intro post'
        rw [List.cons_append, hstep]
        exact h4 post'
    cases D with
    | function O =>
      by_cases hex : O.addr = C.addr ∨ CF.map FunctionDecl.addr = some O.addr
      · apply hskip
        · rintro F' (⟨O', hO', h1, h2, -, -⟩ | ⟨Tmpl, OT, hOT, -⟩)
          · cases hO'
            rcases hex with hx | hx
            · exact h1 hx
            · exact h2 hx
          · cases hOT
        · intro L'; simp only [findNewCallee, hex, if_true]
      · cases hd : doFunctionsMatch C O N Skip Min T with
        | none =>
          simp only [findNewCallee, hex, if_false, hd] at h
          cases h
        | some b =>
          cases b with
          | true =>
            simp only [findNewCallee, hex, if_false, hd, Option.some.injEq] at h
            subst h
            refine ⟨[], _, rest, rfl, Or.inl ⟨O, rfl, ?_, ?_, hd, rfl⟩, ?_, ?_⟩
            · intro hc; exact hex (Or.inl hc)
            · intro hc; exact hex (Or.inr hc)
            · intro D' hD'; cases hD'
            · intro post'; simp only [List.nil_append, findNewCallee, hex, if_false, hd]
          | false =>
            apply hskip
            · rintro F' (⟨O', hO', -, -, h3, -⟩ | ⟨Tmpl, OT, hOT, -⟩)
              · cases hO'
                rw [hd] at h3
                cases h3
              · cases hOT
            · intro L'; simp only [findNewCallee, hex, if_false, hd]
    | functionTemplate OT =>
      cases ht : C.primaryTemplate with
      | none =>
        apply hskip
        · rintro F' (⟨O', hO', -⟩ | ⟨Tmpl, OT', hOT, h1, -⟩)
          · cases hO'
          · rw [ht] at h1; cases h1
        · intro L'; simp only [findNewCallee, ht]
      | some Tmpl =>
        by_cases hex : Tmpl.addr = OT.addr
        · apply hskip
          · rintro F' (⟨O', hO', -⟩ | ⟨Tmpl', OT', hOT, h1, h2, -⟩)
            · cases hO'
            · cases hOT
              rw [ht] at h1
              cases h1
              exact h2 hex
          · intro L'; simp only [findNewCallee, ht, hex, if_true]
        · cases hd : doFunctionsMatch Tmpl.getTemplatedDecl OT.getTemplatedDecl N Skip Min T with
          | none =>
            simp only [findNewCallee, ht, hex, if_false, hd] at h
            cases h
          | some b =>
            cases b with
            | true =>
              simp only [findNewCallee, ht, hex, if_false, hd, Option.some.injEq] at h
              subst h
              refine ⟨[], _, rest, rfl, Or.inr ⟨Tmpl, OT, rfl, ht, hex, hd, rfl⟩, ?_, ?_⟩
              · intro D' hD'; cases hD'
              · intro post'
                simp only [List.nil_append, findNewCallee, ht, hex, if_false, hd]
            | false =>
              apply hskip
              · rintro F' (⟨O', hO', -⟩ | ⟨Tmpl', OT', hOT, h1, -, h3, -⟩)
                · cases hO'
                · cases hOT
                  rw [ht] at h1
                  cases h1
                  rw [hd] at h3
                  cases h3
              · intro L'; simp only [findNewCallee, ht, hex, if_false, hd]
    | other =>
      apply hskip
      · rintro F' (⟨O', hO', -⟩ | ⟨Tmpl', OT', hOT, -⟩)
        · cases hO'
        · cases hOT
      · intro L'; simp only [findNewCallee]

/-! ## The receiver slot -/

theorem SkipArgsOf_operator {C : FunctionDecl}
    (h : C.overloadedOperator = OverloadedOperatorKind.OO_Call ∨
      C.overloadedOperator = OverloadedOperatorKind.OO_Subscript ∨
      C.overloadedOperator = OverloadedOperatorKind.OO_Equal) : SkipArgsOf C = 1 := by
  unfold SkipArgsOf; rw [if_pos h]

theorem SkipArgsOf_other {C : FunctionDecl}
    (h : ¬ (C.overloadedOperator = OverloadedOperatorKind.OO_Call ∨
      C.overloadedOperator = OverloadedOperatorKind.OO_Subscript ∨
      C.overloadedOperator = OverloadedOperatorKind.OO_Equal)) : SkipArgsOf C = 0 := by
  unfold SkipArgsOf; rw [if_neg h]

/-- What the scan from the initial state records, whatever it finds: `MinArg`
is at least `SkipArgs` and at most `UINT_MAX`, and a Y or Z argument is the
argument at a scanned index whose parameter has that role. -/
theorem scan_records {NM : NameConvention} {C : FunctionDecl} {r : MatchResult} {s : ScanState}
    (hscan : scanLoop NM C r (SkipArgsOf C) (NumCallArgs r - SkipArgsOf C) (SkipArgsOf C)
      ScanState.init = some s) :
    SkipArgsOf C ≤ s.MinArg ∧ s.MinArg ≤ UINT_MAX ∧
    (∀ e, s.YArg = some e → ∃ j, SkipArgsOf C ≤ j ∧ j < NumCallArgs r ∧
      roleAt NM C (SkipArgsOf C) j = some NameMatch.YName ∧ GetCallArg r j = some e) ∧
    (∀ e, s.ZArg = some e → ∃ j, SkipArgsOf C ≤ j ∧ j < NumCallArgs r ∧
      roleAt NM C (SkipArgsOf C) j = some NameMatch.ZName ∧ GetCallArg r j = some e) := by
  have hb := scanLoop_bounds NM C r (SkipArgsOf C) _ _ _ _ hscan
  have ha := scanLoop_attained NM C r (SkipArgsOf C) _ _ _ _ hscan
  have hy := scanLoop_YArg NM C r (SkipArgsOf C) _ _ _ _ hscan
  have hz := scanLoop_ZArg NM C r (SkipArgsOf C) _ _ _ _ hscan
  simp only [ScanState.init] at hb ha hy hz
  have hS := SkipArgsOf_le_one C
  refine ⟨?_, hb.1, ?_, ?_⟩
  · rcases ha.1 with h | ⟨j, h1, -, -, h4⟩
    · rw [h]; unfold UINT_MAX; omega
    · omega
  · intro e he
    rcases hy with ⟨h1, -⟩ | ⟨j, e', h1, h2, h3, -, h5, h6⟩
    · rw [he] at h1; cases h1
    · rw [he] at h6
      cases h6
      exact ⟨j, h1, by omega, h3, h5⟩
  · intro e he
    rcases hz with ⟨h1, -⟩ | ⟨j, e', h1, h2, h3, -, h5, h6⟩
    · rw [he] at h1; cases h1
    · rw [he] at h6
      cases h6
      exact ⟨j, h1, by omega, h3, h5⟩

/-! # The claims -/

/-- C1, as the code has it: take an ordinary call that supplies exactly one
written argument for each parameter of the callee (none defaulted and none
beyond the declared parameters, after the receiver slot of an operator call),
whose callee has, under a valid naming convention, a parameter classified X and
a parameter classified Y at the adjacent positions `p` and `p + 1` (in either
order) and no other parameter classified X, Y or Z, whose callee, if it is
instantiated from a template, has as many parameters as the template's pattern,
and whose lookup scope holds another function, neither the callee nor the
function containing the call, with the callee's parameter types except that the
pair is replaced by one parameter rendered `const struct point &`.  Then
`CheckCall` emits a suggestion whose fix-it replaces the range from the begin of
the argument at `p` to the end of the argument at `p + 1` by
`point( ` x `, ` y ` )`, the texts of the bound X argument and of the argument
of the Y parameter. -/
theorem C1_point_suggestion (conv : String → NameConvention) (r : MatchResult)
    (XParam : ParmVarDecl) (XArg : Expr) (Callee O : FunctionDecl) (call : CallExpr)
    (q : QualType) (p px py : Nat)
    (hX : r.XParam = some XParam) (hA : r.XArg = some XArg) (hC : r.Callee = some Callee)
    (hCall : r.Call = some call)
    (hvalid : (conv XParam.name).valid = true)
    (hargs : call.args.length = SkipArgsOf Callee + Callee.getNumParams)
    (hlen : call.args.length < 4294967296)
    (hwritten : ∀ e, e ∈ call.args → e.isDefaultArg = false)
    (hadj : (px = p ∧ py = p + 1) ∨ (py = p ∧ px = p + 1))
    (hx : paramRole (conv XParam.name) Callee px = some NameMatch.XName)
    (hy : paramRole (conv XParam.name) Callee py = some NameMatch.YName)
    (hothers : ∀ i m, paramRole (conv XParam.name) Callee i = some m → i ≠ px → i ≠ py →
      m = NameMatch.None)
    (hO : NamedDecl.function O ∈ r.Lookup) (hOc : O.addr ≠ Callee.addr)
    (hOf : r.ContainingFunction.map FunctionDecl.addr ≠ some O.addr)
    (hcol : CollapsedAt Callee O p 2 q)
    (hq : q.asString = "const struct point &")
    (hT : ∀ T, Callee.primaryTemplate = some T →
      T.templatedParams.length = Callee.params.length) :
    ∃ NewCallee First Last YArg,
      call.args[SkipArgsOf Callee + p]? = some First ∧
      call.args[SkipArgsOf Callee + p + 1]? = some Last ∧
      call.args[SkipArgsOf Callee + py]? = some YArg ∧
      CheckCall conv r = some (suggestionDiags r Callee NewCallee none
        First.beginLoc Last.endLoc ("point( " ++ XArg.text ++ ", " ++ YArg.text ++ " )")) := by
  have hpx := paramRole_lt hx
  have hpy := paramRole_lt hy
  have hnum := NumCallArgs_of_call hCall
  obtain ⟨NewCallee, First, Last, YArg, ZArg, h1, h2, h3, h4, -, h6⟩ :=
    @CheckCall_of_block conv r XParam XArg Callee O p 2 py none q hX hA hC (by simp [hCall]) hvalid (Or.inl ⟨rfl, rfl⟩)
      (by rw [hnum]; exact hargs) (by rw [hnum]; exact hlen) (by omega)
      (by
        intro i hi
        constructor
        · rintro ⟨m, hm, hne⟩
          by_cases h1 : i = px
          · omega
          · by_cases h2 : i = py
            · omega
            · exact absurd (hothers i m hm h1 h2) hne
        · intro hi2
          have : i = px ∨ i = py := by omega
          rcases this with h | h
          · exact ⟨_, by rw [h]; exact hx, by decide⟩
          · exact ⟨_, by rw [h]; exact hy, by decide⟩)
      hy
      (by
        intro i hi
        by_contra hne
        by_cases h1 : i = px
        · rw [h1, hx] at hi; cases hi
        · have := hothers i _ hi h1 hne
          cases this)
      (by intro k hk; cases hk)
      (by
        intro i hi
        exfalso
        by_cases h1 : i = px
        · rw [h1, hx] at hi; cases hi
        · by_cases h2 : i = py
          · rw [h2, hy] at hi; cases hi
          · have := hothers i _ hi h1 h2
            cases this)
      (by
        intro e he
        rw [GetCallArg_of_call hCall] at he
        exact hwritten e (List.getElem?_mem he))
      hO hOc hOf hcol (by rw [hq]; rfl) hT
  have hz : ZArg = none := h4 rfl
  subst hz
  rw [GetCallArg_of_call hCall] at h1 h2 h3
  exact ⟨NewCallee, First, Last, YArg, h1, h2, h3, h6⟩

/-- C1 as stated fails at two call sites that meet every condition it states.
At `warn( a, b, c )` of the variadic `void warn( int x, int y, ... )`, with
`void warn( const point &p, ... )` in scope, the three written arguments exceed
the two parameters and `CheckCall` emits the internal-error report, which holds
no fix-it.  At `plot<int, int>( 1, 2, 3, 4 )`, with
`void plot( int a, int b, const point &p )` in scope, the callee has four
parameters and its template's pattern three, and the comparison with the
pattern of `template<typename... Args> void plot( Args... a, int q )` reads a
parameter out of range before the function is looked at. -/
theorem C1_counterexample :
    ((NameConvention.ofXName "x").valid = true ∧
      warnXY.params.map (fun P => (NameConvention.ofXName "x").Match P.name) =
        [NameMatch.XName, NameMatch.YName] ∧
      (∀ e, e ∈ [writtenArg 705 "a", writtenArg 708 "b", writtenArg 711 "c"] →
        e.isDefaultArg = false) ∧
      NamedDecl.function warnPoint ∈ warnCallWithOverload.Lookup ∧
      warnPoint.addr ≠ warnXY.addr ∧ warnCallWithOverload.ContainingFunction = none ∧
      paramTypes warnPoint = (paramTypes warnXY).take 0 ++ constPointRef ::
        (paramTypes warnXY).drop (0 + 2) ∧
      CheckCall NameConvention.ofXName warnCallWithOverload =
        some (internalErrorDiags warnCallWithOverload
          { beginLoc := 700, args := [writtenArg 705 "a", writtenArg 708 "b", writtenArg 711 "c"] }
          warnXY) ∧
      (internalErrorDiags warnCallWithOverload
          { beginLoc := 700, args := [writtenArg 705 "a", writtenArg 708 "b", writtenArg 711 "c"] }
          warnXY).all (fun d => d.fixit.isNone) = true) ∧
    (plotXYInstance.params.map (fun P => (NameConvention.ofXName "x").Match P.name) =
        [NameMatch.None, NameMatch.None, NameMatch.XName, NameMatch.YName] ∧
      (∀ e, e ∈ [writtenArg 1405 "1", writtenArg 1408 "2", writtenArg 1411 "3",
        writtenArg 1414 "4"] → e.isDefaultArg = false) ∧
      NamedDecl.function plotPoint ∈ plotCall.Lookup ∧
      plotPoint.addr ≠ plotXYInstance.addr ∧ plotCall.ContainingFunction = none ∧
      paramTypes plotPoint = (paramTypes plotXYInstance).take 2 ++ constPointRef ::
        (paramTypes plotXYInstance).drop (2 + 2) ∧
      doFunctionsMatch plotXYTemplate.getTemplatedDecl plotQTemplate.getTemplatedDecl 2 0 2 false =
        none ∧
      CheckCall NameConvention.ofXName plotCall = none) := by
  decide

/-- C1 as amended, at the call `move( a, b )` with the declarations
`void move( int x, int y )` and `void move( const point &p )`: the text `a, b`
is replaced by `point( a, b )`. -/
theorem C1_point_suggestion_witness :
    ∃ NewCallee,
      CheckCall NameConvention.ofXName moveCall = some (suggestionDiags moveCall moveXY NewCallee
        none (writtenArg 105 "a").beginLoc (writtenArg 108 "b").endLoc
        ("point( " ++ "a" ++ ", " ++ "b" ++ " )")) := by
  obtain ⟨NewCallee, First, Last, YArg, h1, h2, h3, h4⟩ :=
    C1_point_suggestion NameConvention.ofXName moveCall (intParam "x") (writtenArg 105 "a")
      moveXY movePoint { beginLoc := 100, args := [writtenArg 105 "a", writtenArg 108 "b"] }
      constPointRef 0 0 1 rfl rfl rfl rfl (by decide) (by decide) (by decide) (by decide)
      (Or.inl ⟨rfl, rfl⟩) (by decide) (by decide)
      (by
        intro i m h h0 h1
        have hlt : i < 2 := paramRole_lt h
        omega)
      (by decide) (by decide) (by decide) (by unfold CollapsedAt; decide) rfl
      (by intro T hT; cases hT)
  have e1 : First = writtenArg 105 "a" := by
    have : (some (writtenArg 105 "a") : Option Expr) = some First := h1
    cases this; rfl
  have e2 : Last = writtenArg 108 "b" := by
    have : (some (writtenArg 108 "b") : Option Expr) = some Last := h2
    cases this; rfl
  have e3 : YArg = writtenArg 108 "b" := by
    have : (some (writtenArg 108 "b") : Option Expr) = some YArg := h3
    cases this; rfl
  subst e1 e2 e3
  exact ⟨NewCallee, h4⟩

/-- C2, as the code has it: take a call (an ordinary call or a constructor
call) that supplies exactly one written argument for each parameter of the
callee (none defaulted and none beyond the declared parameters, after the
receiver slot of an operator call), whose callee has exactly one parameter
classified X, one classified Y and one classified Z, at the three consecutive
positions `p`, `p + 1`, `p + 2` (in any order), whose callee, if it is
instantiated from a template, has as many parameters as the template's pattern,
and whose lookup scope holds another function, neither the callee nor the
function containing the call, with the callee's parameter types except that the
triple is replaced by one parameter rendered `const struct tripoint &`.  Then
`CheckCall` emits a suggestion whose fix-it replaces the range from the begin
of the argument at `p` to the end of the argument at `p + 2` by
`tripoint( ` x `, ` y `, ` z ` )`. -/
theorem C2_tripoint_suggestion (conv : String → NameConvention) (r : MatchResult)
    (XParam : ParmVarDecl) (XArg : Expr) (Callee O : FunctionDecl)
    (q : QualType) (p px py pz : Nat)
    (hX : r.XParam = some XParam) (hA : r.XArg = some XArg) (hC : r.Callee = some Callee)
    (hCall : r.Call.isSome ∨ r.ConstructorCall.isSome)
    (hvalid : (conv XParam.name).valid = true)
    (hargs : NumCallArgs r = SkipArgsOf Callee + Callee.getNumParams)
    (hlen : NumCallArgs r < 4294967296)
    (hwritten : ∀ j e, GetCallArg r j = some e → e.isDefaultArg = false)
    (hpx : p ≤ px ∧ px < p + 3) (hpy : p ≤ py ∧ py < p + 3) (hpz : p ≤ pz ∧ pz < p + 3)
    (hx : paramRole (conv XParam.name) Callee px = some NameMatch.XName)
    (hy : paramRole (conv XParam.name) Callee py = some NameMatch.YName)
    (hz : paramRole (conv XParam.name) Callee pz = some NameMatch.ZName)
    (hothers : ∀ i m, paramRole (conv XParam.name) Callee i = some m →
      i ≠ px → i ≠ py → i ≠ pz → m = NameMatch.None)
    (hO : NamedDecl.function O ∈ r.Lookup) (hOc : O.addr ≠ Callee.addr)
    (hOf : r.ContainingFunction.map FunctionDecl.addr ≠ some O.addr)
    (hcol : CollapsedAt Callee O p 3 q)
    (hq : q.asString = "const struct tripoint &")
    (hT : ∀ T, Callee.primaryTemplate = some T →
      T.templatedParams.length = Callee.params.length) :
    ∃ NewCallee First Last YArg ZArg,
      GetCallArg r (SkipArgsOf Callee + p) = some First ∧
      GetCallArg r (SkipArgsOf Callee + p + 2) = some Last ∧
      GetCallArg r (SkipArgsOf Callee + py) = some YArg ∧
      GetCallArg r (SkipArgsOf Callee + pz) = some ZArg ∧
      CheckCall conv r = some (suggestionDiags r Callee NewCallee (some ZArg)
        First.beginLoc Last.endLoc
        ("tripoint( " ++ XArg.text ++ ", " ++ YArg.text ++ ", " ++ ZArg.text ++ " )")) := by
  have hlx := paramRole_lt hx
  have hly := paramRole_lt hy
  have hlz := paramRole_lt hz
  have hxy : px ≠ py := by intro h; rw [h, hy] at hx; cases hx
  have hxz : px ≠ pz := by intro h; rw [h, hz] at hx; cases hx
  have hyz : py ≠ pz := by intro h; rw [h, hz] at hy; cases hy
  have hcall' : ¬ (r.Call.isNone ∧ r.ConstructorCall.isNone) := by
    rintro ⟨h1, h2⟩
    rcases hCall with h | h
    · cases hc : r.Call <;> simp [hc] at h h1
    · cases hc : r.ConstructorCall <;> simp [hc] at h h2
  obtain ⟨NewCallee, First, Last, YArg, ZArg, h1, h2, h3, -, h5, h6⟩ :=
    @CheckCall_of_block conv r XParam XArg Callee O p 3 py (some pz) q hX hA hC hcall' hvalid (Or.inr ⟨rfl, pz, rfl⟩)
      hargs hlen (by omega)
      (by
        intro i hi
        constructor
        · rintro ⟨m, hm, hne⟩
          by_cases h1 : i = px
          · omega
          · by_cases h2 : i = py
            · omega
            · by_cases h3 : i = pz
              · omega
              · exact absurd (hothers i m hm h1 h2 h3) hne
        · intro hi2
          have : i = px ∨ i = py ∨ i = pz := by omega
          rcases this with h | h | h
          · exact ⟨_, by rw [h]; exact hx, by decide⟩
          · exact ⟨_, by rw [h]; exact hy, by decide⟩
          · exact ⟨_, by rw [h]; exact hz, by decide⟩)
      hy
      (by
        intro i hi
        by_contra hne
        by_cases h1 : i = px
        · rw [h1, hx] at hi; cases hi
        · by_cases h3 : i = pz
          · rw [h3, hz] at hi; cases hi
          · have := hothers i _ hi h1 hne h3
            cases this)
      (by intro k hk; cases hk; exact hz)
      (by
        intro i hi
        by_contra hne
        have hne' : i ≠ pz := by intro h; exact hne (by rw [h])
        by_cases h1 : i = px
        · rw [h1, hx] at hi; cases hi
        · by_cases h2 : i = py
          · rw [h2, hy] at hi; cases hi
          · have := hothers i _ hi h1 h2 hne'
            cases this)
      (by intro e he; exact hwritten _ e he)
      hO hOc hOf hcol (by rw [hq]; rfl) hT
  obtain ⟨Z, hZ1, hZ2⟩ := h5 pz rfl
  subst hZ2
  rw [ReplacementText_tripoint] at h6
  exact ⟨NewCallee, First, Last, YArg, Z, h1, h2, h3, hZ1, h6⟩

/-- C2 as stated fails at two call sites that meet every condition it states.
At `hurl( a, b, c, d )` of the variadic `void hurl( int x, int y, int z, ... )`,
with `void hurl( const tripoint &p, ... )` in scope, the four written arguments
exceed the three parameters and `CheckCall` emits the internal-error report,
which holds no fix-it.  At `cast<int, int>( 1, 2, 3, 4, 5 )`, with
`void cast( int a, int b, const tripoint &p )` in scope, the callee has five
parameters and its template's pattern four, and the comparison with the
pattern of `template<typename... Args> void cast( Args... a, int q )` reads a
parameter out of range before the function is looked at. -/
theorem C2_counterexample :
    ((NameConvention.ofXName "x").valid = true ∧
      hurlXYZ.params.map (fun P => (NameConvention.ofXName "x").Match P.name) =
        [NameMatch.XName, NameMatch.YName, NameMatch.ZName] ∧
      (∀ e, e ∈ [writtenArg 1505 "a", writtenArg 1508 "b", writtenArg 1511 "c",
        writtenArg 1514 "d"] → e.isDefaultArg = false) ∧
      NamedDecl.function hurlTripoint ∈ hurlCall.Lookup ∧
      hurlTripoint.addr ≠ hurlXYZ.addr ∧ hurlCall.ContainingFunction = none ∧
      paramTypes hurlTripoint = (paramTypes hurlXYZ).take 0 ++ constTripointRef ::
        (paramTypes hurlXYZ).drop (0 + 3) ∧
      CheckCall NameConvention.ofXName hurlCall =
        some (internalErrorDiags hurlCall
          { beginLoc := 1500,
            args := [writtenArg 1505 "a", writtenArg 1508 "b", writtenArg 1511 "c",
              writtenArg 1514 "d"] }
          hurlXYZ) ∧
      (internalErrorDiags hurlCall
          { beginLoc := 1500,
            args := [writtenArg 1505 "a", writtenArg 1508 "b", writtenArg 1511 "c",
              writtenArg 1514 "d"] }
          hurlXYZ).all (fun d => d.fixit.isNone) = true) ∧
    (castXYZInstance.params.map (fun P => (NameConvention.ofXName "x").Match P.name) =
        [NameMatch.None, NameMatch.None, NameMatch.XName, NameMatch.YName, NameMatch.ZName] ∧
      (∀ e, e ∈ [writtenArg 1605 "1", writtenArg 1608 "2", writtenArg 1611 "3",
        writtenArg 1614 "4", writtenArg 1617 "5"] → e.isDefaultArg = false) ∧
      NamedDecl.function castTripoint ∈ castCall.Lookup ∧
      castTripoint.addr ≠ castXYZInstance.addr ∧ castCall.ContainingFunction = none ∧
      paramTypes castTripoint = (paramTypes castXYZInstance).take 2 ++ constTripointRef ::
        (paramTypes castXYZInstance).drop (2 + 3) ∧
      doFunctionsMatch castXYZTemplate.getTemplatedDecl castQTemplate.getTemplatedDecl 3 0 2 true =
        none ∧
      CheckCall NameConvention.ofXName castCall = none) := by
  decide

/-- C2 as amended, at the call `teleport( a, b, c )` with the declarations
`void teleport( int x, int y, int z )` and `void teleport( const tripoint &p )`:
the text `a, b, c` is replaced by `tripoint( a, b, c )`. -/
theorem C2_tripoint_suggestion_witness :
    ∃ NewCallee,
      CheckCall NameConvention.ofXName teleportCall =
        some (suggestionDiags teleportCall teleportXYZ NewCallee (some (writtenArg 811 "c"))
          (writtenArg 805 "a").beginLoc (writtenArg 811 "c").endLoc
          ("tripoint( " ++ "a" ++ ", " ++ "b" ++ ", " ++ "c" ++ " )")) := by
  obtain ⟨NewCallee, First, Last, YArg, ZArg, h1, h2, h3, h4, h5⟩ :=
    C2_tripoint_suggestion NameConvention.ofXName teleportCall (intParam "x") (writtenArg 805 "a")
      teleportXYZ teleportTripoint
      constTripointRef 0 0 1 2 rfl rfl rfl (Or.inl rfl) (by decide) (by decide) (by decide)
      (by
        intro j e h
        have hlt : j < 3 := GetCallArg_lt h
        interval_cases j <;> (cases h; rfl))
      (by decide) (by decide) (by decide) (by decide) (by decide) (by decide)
      (by
        intro i m h h0 h1 h2
        have hlt : i < 3 := paramRole_lt h
        omega)
      (by decide) (by decide) (by decide) (by unfold CollapsedAt; decide) rfl
      (by intro T hT; cases hT)
  have e1 : First = writtenArg 805 "a" := by
    have : (some (writtenArg 805 "a") : Option Expr) = some First := h1
    cases this; rfl
  have e2 : Last = writtenArg 811 "c" := by
    have : (some (writtenArg 811 "c") : Option Expr) = some Last := h2
    cases this; rfl
  have e3 : YArg = writtenArg 808 "b" := by
    have : (some (writtenArg 808 "b") : Option Expr) = some YArg := h3
    cases this; rfl
  have e4 : ZArg = writtenArg 811 "c" := by
    have : (some (writtenArg 811 "c") : Option Expr) = some ZArg := h4
    cases this; rfl
  subst e1 e2 e3 e4
  exact ⟨NewCallee, h5⟩

/-- C3, as the code has it: whenever `CheckCall` emits a suggestion, the lookup
result holds a declaration that `doFunctionsMatch` accepts with `IsTripoint`
equal to "a Z role was found": a function other than the callee and the
containing function, compared with the callee, or, for a callee instantiated
from a template, another function template whose pattern is compared with the
pattern of the callee's template.  For a function the alternate overload has
the callee's parameter count minus `NumCoordParams - 1` parameters and its
parameter at position `MinArg - SkipArgs` renders as `const struct point &`
(two roles) or `const struct tripoint &` (three roles); for a template the
same holds with the pattern of the callee's template in place of the callee,
the count in unsigned arithmetic and the rendering when that pattern has a
parameter at that position.  Consequently, when no declaration of the lookup
result is accepted, no suggestion is emitted, and no diagnostic at all unless
the argument count exceeds the parameter count. -/
theorem C3_suggestion_soundness (conv : String → NameConvention) (r : MatchResult)
    (hlen : NumCallArgs r < 4294967296)
    (hparams : ∀ C, r.Callee = some C → C.getNumParams < 4294967296) :
    (∀ out, CheckCall conv r = some out → HasFixIt out →
      ∃ XParam XArg Callee s YArg NewCallee D,
        ReachesOverload conv r XParam XArg Callee s YArg NewCallee ∧
        (∃ b e t, out = suggestionDiags r Callee NewCallee s.ZArg b e t) ∧
        D ∈ r.Lookup ∧
        MatchedBy Callee r.ContainingFunction (NumCoordParamsOf s) (SkipArgsOf Callee)
          s.MinArg s.ZArg.isSome D NewCallee ∧
        (∀ O, D = NamedDecl.function O →
          NewCallee.getNumParams = Callee.getNumParams - (NumCoordParamsOf s - 1) ∧
          renderedAt NewCallee (s.MinArg - SkipArgsOf Callee) =
            some (if s.ZArg.isSome then "const struct tripoint &" else "const struct point &")) ∧
        (∀ OT, D = NamedDecl.functionTemplate OT →
          ∃ Tmpl, Callee.primaryTemplate = some Tmpl ∧
            NewCallee.getNumParams =
              usub Tmpl.getTemplatedDecl.getNumParams (usub (NumCoordParamsOf s) 1) ∧
            (s.MinArg - SkipArgsOf Callee < Tmpl.getTemplatedDecl.getNumParams →
              renderedAt NewCallee (s.MinArg - SkipArgsOf Callee) =
                some (if s.ZArg.isSome then "const struct tripoint &"
                  else "const struct point &")))) ∧
    ((∀ XParam Callee s D F, r.XParam = some XParam → r.Callee = some Callee →
        scanLoop (conv XParam.name) Callee r (SkipArgsOf Callee)
          (NumCallArgs r - SkipArgsOf Callee) (SkipArgsOf Callee) ScanState.init = some s →
        D ∈ r.Lookup →
        ¬ MatchedBy Callee r.ContainingFunction (NumCoordParamsOf s) (SkipArgsOf Callee)
          s.MinArg s.ZArg.isSome D F) →
      ¬ Suggests conv r ∧
      (∀ out Callee, CheckCall conv r = some out → r.Callee = some Callee →
        ¬ usub (NumCallArgs r) (SkipArgsOf Callee) > Callee.getNumParams → out = [])) := by
  have key : ∀ out, CheckCall conv r = some out → HasFixIt out →
      ∃ XParam XArg Callee s YArg NewCallee D,
        ReachesOverload conv r XParam XArg Callee s YArg NewCallee ∧
        (∃ b e t, out = suggestionDiags r Callee NewCallee s.ZArg b e t) ∧
        D ∈ r.Lookup ∧
        MatchedBy Callee r.ContainingFunction (NumCoordParamsOf s) (SkipArgsOf Callee)
          s.MinArg s.ZArg.isSome D NewCallee := by
    intro out hout hfix
    obtain ⟨XParam, XArg, Callee, s, YArg, NewCallee, MaxArg, First, Last, hreach, -, -, -, heq⟩ :=
      CheckCall_suggestion_inv hout hfix
    obtain ⟨D, hD, hM⟩ := findNewCallee_sound _ _ _ _ _ _ _ _ hreach.2.2.2.2.2.2.2.2.2
    exact ⟨XParam, XArg, Callee, s, YArg, NewCallee, D, hreach, ⟨_, _, _, heq⟩, hD, hM⟩
  constructor
  · intro out hout hfix
    obtain ⟨XParam, XArg, Callee, s, YArg, NewCallee, D, hreach, hshape, hD, hM⟩ :=
      key out hout hfix
    refine ⟨XParam, XArg, Callee, s, YArg, NewCallee, D, hreach, hshape, hD, hM, ?_, ?_⟩
    · intro O hO
      obtain ⟨-, -, h3, -, -, -, h7, h8, h9, -⟩ := hreach
      obtain ⟨-, e3, hspan⟩ := span_in_range hlen h7 h8 h9
      have hN : NumCoordParamsOf s = 2 ∨ NumCoordParamsOf s = 3 := by
        rcases NumCoordParamsOf_cases s with ⟨-, h⟩ | ⟨z, -, h⟩
        · exact Or.inl h
        · exact Or.inr h
      rcases hM with ⟨O', hO', -, -, hdo, hF⟩ | ⟨Tmpl, OT, hOT, -⟩
      · obtain ⟨b, hb, hiff⟩ := doFunctionsMatch_spec Callee O' (NumCoordParamsOf s)
          (SkipArgsOf Callee) s.MinArg s.ZArg.isSome hN (hparams Callee h3) hspan
        rw [hdo] at hb
        cases hb
        obtain ⟨c1, c2, -, -⟩ := hiff.mp rfl
        rw [hF, ← e3, ← ExpectedTypeName_eq]
        exact ⟨c1, c2⟩
      · rw [hO] at hOT; cases hOT
    · intro OT hOT
      rcases hM with ⟨O', hO', -⟩ | ⟨Tmpl, OT', hOT', hT, -, hdo, hF⟩
      · rw [hOT] at hO'; cases hO'
      · obtain ⟨-, -, -, -, -, -, h7, h8, h9, -⟩ := hreach
        obtain ⟨-, e3, -⟩ := span_in_range hlen h7 h8 h9
        refine ⟨Tmpl, hT, ?_, ?_⟩
        · rw [hF]; exact doFunctionsMatch_count hdo
        · intro hlt
          rw [hF, ← e3, ← ExpectedTypeName_eq]
          exact doFunctionsMatch_rendered hdo (by rw [e3]; exact hlt)
  · intro hno
    have hns : ¬ Suggests conv r := by
      rintro ⟨out, hout, hfix⟩
      obtain ⟨XParam, XArg, Callee, s, YArg, NewCallee, D, hreach, -, hD, hM⟩ := key out hout hfix
      exact hno XParam Callee s D NewCallee hreach.1 hreach.2.2.1 hreach.2.2.2.2.2.2.1 hD hM
    refine ⟨hns, ?_⟩
    intro out Callee hout hC hcount
    rcases CheckCall_shape hout with h0 | ⟨Call, Callee', -, hC', hgt, -⟩ | ⟨_, _, Callee', s, _, NewCallee, _, _, _, -, -, -, -, heq⟩
    · exact h0
    · rw [hC] at hC'
      cases hC'
      exact absurd hgt hcount
    · exact absurd ⟨out, hout, by rw [heq]; exact hasFixIt_suggestion _ _ _ _ _ _ _⟩ hns

/-- C3 as stated fails at two call sites.  At `mark( a, b )` a suggestion is
emitted whose alternate overload, the pattern of
`template<typename... Args> void mark( const point &p, Args... rest )`, has two
parameters, while the callee `mark<>( int x, int y )` has two parameters and
two roles were found.  At `warn( a, b, c )` only the callee is in the lookup
result and yet diagnostics are emitted. -/
theorem C3_counterexample :
    (CheckCall NameConvention.ofXName markCall =
        some (suggestionDiags markCall markXYInstance markPointTemplate.getTemplatedDecl none
          605 608 "point( a, b )") ∧
      markPointTemplate.getTemplatedDecl.getNumParams ≠ markXYInstance.getNumParams - (2 - 1)) ∧
    (warnCall.Lookup = [NamedDecl.function warnXY] ∧ warnCall.Callee = some warnXY ∧
      CheckCall NameConvention.ofXName warnCall =
        some (internalErrorDiags warnCall
          { beginLoc := 700, args := [writtenArg 705 "a", writtenArg 708 "b", writtenArg 711 "c"] }
          warnXY) ∧
      internalErrorDiags warnCall
          { beginLoc := 700, args := [writtenArg 705 "a", writtenArg 708 "b", writtenArg 711 "c"] }
          warnXY ≠ []) := by
  decide

/-- C3 as amended, at the call `move( a, b )`: the alternate overload
`void move( const point &p )` has one parameter, rendered `const struct point &`. -/
theorem C3_suggestion_soundness_witness :
    ∃ NewCallee D, D ∈ moveCall.Lookup ∧ D = NamedDecl.function NewCallee ∧
      NewCallee.getNumParams = moveXY.getNumParams - (2 - 1) ∧
      renderedAt NewCallee 0 = some "const struct point &" := by
  have hc : CheckCall NameConvention.ofXName moveCall =
      some (suggestionDiags moveCall moveXY movePoint none 105 108 "point( a, b )") := by decide
  obtain ⟨XParam, XArg, Callee, s, YArg, NewCallee, D, hreach, -, hD, hM, hplain, -⟩ :=
    (C3_suggestion_soundness NameConvention.ofXName moveCall (by decide)
      (by intro C hC; cases hC; decide)).1 _ hc (hasFixIt_suggestion _ _ _ _ _ _ _)
  obtain ⟨h1, -, h3, -, -, -, h7, -⟩ := hreach
  have hC : Callee = moveXY := by
    have : moveCall.Callee = some moveXY := rfl
    rw [this] at h3; cases h3; rfl
  have hX : XParam = intParam "x" := by
    have : moveCall.XParam = some (intParam "x") := rfl
    rw [this] at h1; cases h1; rfl
  subst hC hX
  have hs : s = { YArg := some (writtenArg 108 "b"), ZArg := none, MinArg := 0, MaxArg := 1 } := by
    have : scanLoop (NameConvention.ofXName (intParam "x").name) moveXY moveCall (SkipArgsOf moveXY)
        (NumCallArgs moveCall - SkipArgsOf moveXY) (SkipArgsOf moveXY) ScanState.init =
        some { YArg := some (writtenArg 108 "b"), ZArg := none, MinArg := 0, MaxArg := 1 } := by
      decide
    rw [this] at h7; cases h7; rfl
  subst hs
  rcases hM with ⟨O, hO, -, -, -, hF⟩ | ⟨Tmpl, OT, -, hT, -⟩
  · subst hF
    obtain ⟨c1, c2⟩ := hplain NewCallee hO
    exact ⟨NewCallee, D, hD, hO, c1, c2⟩
  · cases hT

/-- C4: for a callee and a candidate, `N` in {2, 3} and the position
`m = MinArg - SkipArgs` with `m + N` at most the callee's parameter count,
`doFunctionsMatch` returns a result, and the result is `true` exactly when
(1) the candidate has the callee's parameter count minus `N - 1` parameters,
(2) the candidate's parameter `m` renders as `const struct tripoint &` if
`IsTripoint` and as `const struct point &` otherwise, (3) before `m` the two
parameter lists have equal unqualified renderings, and (4) from `m + N` on the
callee's parameter `i` and the candidate's parameter `i - (N - 1)` have equal
unqualified renderings.  The callee's `N` coordinate parameters are not
examined: changing them does not change the result. -/
theorem C4_doFunctionsMatch_characterisation (Callee Other : FunctionDecl)
    (N SkipArgs MinArg : Nat) (IsTripoint : Bool)
    (hN : N = 2 ∨ N = 3)
    (hlen : Callee.getNumParams < 4294967296)
    (hm : usub MinArg SkipArgs + N ≤ Callee.getNumParams) :
    (∃ b, doFunctionsMatch Callee Other N SkipArgs MinArg IsTripoint = some b) ∧
    (doFunctionsMatch Callee Other N SkipArgs MinArg IsTripoint = some true ↔
      Other.getNumParams = Callee.getNumParams - (N - 1) ∧
      renderedAt Other (usub MinArg SkipArgs) =
        some (if IsTripoint then "const struct tripoint &" else "const struct point &") ∧
      (∀ i, i < usub MinArg SkipArgs → unqualAt Callee i = unqualAt Other i) ∧
      (∀ i, usub MinArg SkipArgs + N ≤ i → i < Callee.getNumParams →
        unqualAt Callee i = unqualAt Other (i - (N - 1)))) ∧
    (∀ Callee' : FunctionDecl, Callee'.getNumParams = Callee.getNumParams →
      (∀ i, i < usub MinArg SkipArgs ∨ usub MinArg SkipArgs + N ≤ i →
        Callee'.getParamDecl i = Callee.getParamDecl i) →
      doFunctionsMatch Callee' Other N SkipArgs MinArg IsTripoint =
        doFunctionsMatch Callee Other N SkipArgs MinArg IsTripoint) := by
  obtain ⟨b, hb, hiff⟩ := doFunctionsMatch_spec Callee Other N SkipArgs MinArg IsTripoint hN hlen hm
  refine ⟨⟨b, hb⟩, ?_, ?_⟩
  · rw [hb, ← ExpectedTypeName_eq]
    constructor
    · intro h
      exact hiff.mp (by simpa using h)
    · intro h
      rw [hiff.mpr h]
  · intro Callee' hcount hsame
    obtain ⟨b', hb', hiff'⟩ := doFunctionsMatch_spec Callee' Other N SkipArgs MinArg IsTripoint hN
      (by rw [hcount]; exact hlen) (by rw [hcount]; exact hm)
    rw [hb, hb']
    have hcond : MatchConditions Callee' Other N (usub MinArg SkipArgs) IsTripoint ↔
        MatchConditions Callee Other N (usub MinArg SkipArgs) IsTripoint := by
      unfold MatchConditions
      rw [hcount]
      constructor
      · rintro ⟨h1, h2, h3, h4⟩
        refine ⟨h1, h2, ?_, ?_⟩
        · intro i hi
          rw [← h3 i hi]; unfold unqualAt; rw [hsame i (Or.inl hi)]
        · intro i hi1 hi2
          rw [← h4 i hi1 hi2]; unfold unqualAt; rw [hsame i (Or.inr hi1)]
      · rintro ⟨h1, h2, h3, h4⟩
        refine ⟨h1, h2, ?_, ?_⟩
        · intro i hi
          rw [← h3 i hi]; unfold unqualAt; rw [hsame i (Or.inl hi)]
        · intro i hi1 hi2
          rw [← h4 i hi1 hi2]; unfold unqualAt; rw [hsame i (Or.inr hi1)]
    have hbb : b' = true ↔ b = true := by rw [hiff', hiff, hcond]
    cases b <;> cases b' <;> simp_all

/-- C4, at `void move( int x, int y )` against `void move( const point &p )`
with two coordinate parameters at position 0. -/
theorem C4_doFunctionsMatch_characterisation_witness :
    doFunctionsMatch moveXY movePoint 2 0 0 false = some true ∧
    movePoint.getNumParams = moveXY.getNumParams - (2 - 1) ∧
    renderedAt movePoint (usub 0 0) = some "const struct point &" :=
  have h := C4_doFunctionsMatch_characterisation moveXY movePoint 2 0 0 false
    (Or.inl rfl) (by decide) (by decide)
  have ht : doFunctionsMatch moveXY movePoint 2 0 0 false = some true := by decide
  ⟨ht, (h.2.1.mp ht).1, (h.2.1.mp ht).2.1⟩

/-- C5, the code at the call `fill( 1 )` of
`void fill( int a, int x = 0, int y = 0 )` with `void fill( int a, const point &p )`
in scope: both arguments of the span `[1, 2]` are defaulted, the trimming loop
stops at argument 0, before the span, and a suggestion is emitted whose range
runs from the begin of argument 1 to the end of argument 0. -/
theorem C5_defaulted_span_still_suggested :
    GetCallArg fillCall 1 = some defaultArg ∧ GetCallArg fillCall 2 = some defaultArg ∧
    scanLoop (NameConvention.ofXName "x") fillAXY fillCall 0 3 0 ScanState.init =
      some { YArg := some defaultArg, ZArg := none, MinArg := 1, MaxArg := 2 } ∧
    trimLoop fillCall 3 2 = some (some 0) ∧
    CheckCall NameConvention.ofXName fillCall =
      some (suggestionDiags fillCall fillAXY fillAPoint none
        defaultArg.beginLoc (writtenArg 905 "1").endLoc "point( ,  )") := by
  decide

/-- C6: for a call site that reaches the construction of the range with the
span `[MinArg, MaxArg]`, in which at least one argument of the span is written
explicitly, the trimming loop ends with `MaxArg = j`, where `j` is the largest
index of the span whose argument is not defaulted, and the suggestion replaces
the range from the begin of the argument at `MinArg` to the end of the argument
at `j`.  So `j` is at most the original `MaxArg` and equals it when the last
argument of the span is explicit; and in the two-role case with the argument at
`MinArg` explicit and the argument at `MaxArg` defaulted, the range is that of
the argument at `MinArg` alone. -/
theorem C6_default_argument_trimming (conv : String → NameConvention) (r : MatchResult)
    (XParam : ParmVarDecl) (XArg : Expr) (Callee : FunctionDecl) (s : ScanState)
    (YArg : Expr) (NewCallee : FunctionDecl)
    (hreach : ReachesOverload conv r XParam XArg Callee s YArg NewCallee)
    (hlen : NumCallArgs r < 4294967296)
    (hexplicit : ∃ j e, s.MinArg ≤ j ∧ j ≤ s.MaxArg ∧ GetCallArg r j = some e ∧
      e.isDefaultArg = false) :
    ∃ j First Last,
      s.MinArg ≤ j ∧ j ≤ s.MaxArg ∧
      GetCallArg r s.MinArg = some First ∧ GetCallArg r j = some Last ∧
      Last.isDefaultArg = false ∧
      (∀ k, j < k → k ≤ s.MaxArg → ∃ a, GetCallArg r k = some a ∧ a.isDefaultArg = true) ∧
      trimLoop r (s.MaxArg + 1) s.MaxArg = some (some j) ∧
      CheckCall conv r = some (suggestionDiags r Callee NewCallee s.ZArg
        First.beginLoc Last.endLoc (ReplacementText XArg YArg s.ZArg)) ∧
      (∀ e, GetCallArg r s.MaxArg = some e → e.isDefaultArg = false → j = s.MaxArg) ∧
      (s.ZArg = none → First.isDefaultArg = false →
        (∀ e, GetCallArg r s.MaxArg = some e → e.isDefaultArg = true) →
        j = s.MinArg ∧ Last = First) := by
  have hreach' := hreach
  obtain ⟨-, -, -, -, -, -, h7, h8, h9, -⟩ := hreach
  obtain ⟨-, ⟨hs1, hs2, hs3, -, -⟩, -, -⟩ := scan_facts hlen h7 h8
  obtain ⟨hmax, -, -⟩ := span_in_range hlen h7 h8 h9
  obtain ⟨j0, e0, hj1, hj2, hj3, hj4⟩ := hexplicit
  rcases trimLoop_spec r (s.MaxArg + 1) s.MaxArg hs3 hlen (le_refl _) with
    ⟨j, e, h1, h2, h3, h4, h5⟩ | ⟨h1, -⟩
  · have hge : j0 ≤ j := by
      by_contra hlt
      obtain ⟨a, ha1, ha2⟩ := h4 j0 (by omega) hj2
      rw [hj3] at ha1
      cases ha1
      rw [hj4] at ha2
      cases ha2
    obtain ⟨First, hFirst⟩ := GetCallArg_isSome (r := r) (j := s.MinArg) (by omega)
    refine ⟨j, First, e, by omega, h1, hFirst, h2, h3, h4, h5, ?_, ?_, ?_⟩
    · rw [CheckCall_of_reachesOverload hreach']
      simp only [h5, hFirst, h2]
    · intro e' he1 he2
      by_contra hne
      obtain ⟨a, ha1, ha2⟩ := h4 s.MaxArg (by omega) (le_refl _)
      rw [he1] at ha1
      cases ha1
      rw [he2] at ha2
      cases ha2
    · intro hz hF hlast
      have hN : NumCoordParamsOf s = 2 := by unfold NumCoordParamsOf; rw [hz]; rfl
      rw [hN] at hmax
      have hjm : j ≠ s.MaxArg := by
        intro hc
        rw [hc] at h2
        have := hlast e h2
        rw [h3] at this
        cases this
      have hj : j = s.MinArg := by omega
      refine ⟨hj, ?_⟩
      rw [hj, hFirst] at h2
      cases h2
      rfl
  · obtain ⟨a, ha1, ha2⟩ := h1 j0 hj2
    rw [hj3] at ha1
    cases ha1
    rw [hj4] at ha2
    cases ha2

/-- C6, at the call `put( a )` of `void put( int x, int y = 0 )`: the range
replaced is that of `a`. -/
theorem C6_default_argument_trimming_witness :
    ∃ j First Last,
      putCall.Call = some { beginLoc := 400, args := [writtenArg 405 "a", defaultArg] } ∧
      j = 0 ∧ First = writtenArg 405 "a" ∧ Last = writtenArg 405 "a" ∧
      CheckCall NameConvention.ofXName putCall =
        some (suggestionDiags putCall putXY putPoint none First.beginLoc Last.endLoc
          (ReplacementText (writtenArg 405 "a") defaultArg none)) := by
  obtain ⟨j, First, Last, h1, h2, h3, h4, h5, h6, h7, h8, h9, h10⟩ :=
    C6_default_argument_trimming NameConvention.ofXName putCall (intParam "x")
      (writtenArg 405 "a") putXY
      { YArg := some defaultArg, ZArg := none, MinArg := 0, MaxArg := 1 } defaultArg putPoint
      ⟨rfl, rfl, rfl, by decide, by decide, by decide, by decide, rfl, by decide, by decide⟩
      (by decide)
      ⟨0, writtenArg 405 "a", by decide, by decide, by decide, by decide⟩
  have hj : j = 0 := by
    have h2' : j ≤ 1 := h2
    interval_cases j
    · rfl
    · have : GetCallArg putCall 1 = some defaultArg := by decide
      rw [this] at h4
      cases h4
      cases h5
  subst hj
  have hF : GetCallArg putCall 0 = some (writtenArg 405 "a") := by decide
  have e1 : First = writtenArg 405 "a" := by
    have h3' : GetCallArg putCall 0 = some First := h3
    rw [hF] at h3'
    cases h3'
    rfl
  have e2 : Last = writtenArg 405 "a" := by
    rw [hF] at h4
    cases h4
    rfl
  exact ⟨0, First, Last, rfl, rfl, e1, e2, h8⟩

/-- C7: the text of the fix-it of every suggestion is
`point( ` x `, ` y ` )` when the scan found no Z role and
`tripoint( ` x `, ` y `, ` z ` )` when it found one, where x is the text of the
bound X argument and y, z are the texts of the arguments at the (last) scanned
positions whose parameters classify as Y and Z.  The components come in the
order x, y, z whatever the order of the parameters, and neither the defaulted
arguments nor the trimming of the range enter the text. -/
theorem C7_replacement_text (conv : String → NameConvention) (r : MatchResult)
    (out : List Diagnostic) (d : Diagnostic) (f : FixItHint)
    (hlen : NumCallArgs r < 4294967296)
    (hout : CheckCall conv r = some out) (hd : d ∈ out) (hf : d.fixit = some f) :
    ∃ XParam XArg Callee jy YArg,
      r.XParam = some XParam ∧ r.XArg = some XArg ∧ r.Callee = some Callee ∧
      SkipArgsOf Callee ≤ jy ∧ jy < NumCallArgs r ∧
      roleAt (conv XParam.name) Callee (SkipArgsOf Callee) jy = some NameMatch.YName ∧
      (∀ k, jy < k → k < NumCallArgs r →
        roleAt (conv XParam.name) Callee (SkipArgsOf Callee) k ≠ some NameMatch.YName) ∧
      GetCallArg r jy = some YArg ∧
      (((∀ j, SkipArgsOf Callee ≤ j → j < NumCallArgs r →
            roleAt (conv XParam.name) Callee (SkipArgsOf Callee) j ≠ some NameMatch.ZName) ∧
          f.text = "point( " ++ XArg.text ++ ", " ++ YArg.text ++ " )") ∨
        (∃ jz ZArg, SkipArgsOf Callee ≤ jz ∧ jz < NumCallArgs r ∧
          roleAt (conv XParam.name) Callee (SkipArgsOf Callee) jz = some NameMatch.ZName ∧
          (∀ k, jz < k → k < NumCallArgs r →
            roleAt (conv XParam.name) Callee (SkipArgsOf Callee) k ≠ some NameMatch.ZName) ∧
          GetCallArg r jz = some ZArg ∧
          f.text = "tripoint( " ++ XArg.text ++ ", " ++ YArg.text ++ ", " ++ ZArg.text ++ " )")) := by
  have hfix : HasFixIt out := ⟨d, hd, by rw [hf]; simp⟩
  obtain ⟨XParam, XArg, Callee, s, YArg, NewCallee, MaxArg, First, Last, hreach, -, -, -, heq⟩ :=
    CheckCall_suggestion_inv hout hfix
  subst heq
  have hftext := fixit_of_suggestion hd hf
  obtain ⟨h1, h2, h3, -, -, -, h7, h8, -, -⟩ := hreach
  obtain ⟨⟨jy, hy1, hy2, hy3, hy4, hy5⟩, -, -, hz⟩ := scan_facts hlen h7 h8
  refine ⟨XParam, XArg, Callee, jy, YArg, h1, h2, h3, hy1, hy2, hy3, hy4, hy5, ?_⟩
  rcases hz with ⟨hz0, hnoz⟩ | ⟨jz, z, hz1, hz2, hz3, hz4, hz5, hz6⟩
  · left
    refine ⟨hnoz, ?_⟩
    rw [hftext, hz0]
    rfl
  · right
    refine ⟨jz, z, hz1, hz2, hz3, hz4, hz5, ?_⟩
    rw [hftext, hz6]
    exact ReplacementText_tripoint XArg YArg z

/-- C7, at the call `place( b, c, a )` of `void place( int y, int z, int x )`:
the text is `tripoint( a, b, c )`. -/
theorem C7_replacement_text_witness :
    CheckCall NameConvention.ofXName placeCall =
      some (suggestionDiags placeCall placeYZX placeTripoint (some (writtenArg 508 "c")) 505 511
        "tripoint( a, b, c )") ∧
    ∃ XParam XArg Callee jy YArg,
      placeCall.XParam = some XParam ∧ placeCall.XArg = some XArg ∧
      placeCall.Callee = some Callee ∧ GetCallArg placeCall jy = some YArg ∧
      roleAt (NameConvention.ofXName XParam.name) Callee (SkipArgsOf Callee) jy =
        some NameMatch.YName :=
  have hc : CheckCall NameConvention.ofXName placeCall =
      some (suggestionDiags placeCall placeYZX placeTripoint (some (writtenArg 508 "c")) 505 511
        "tripoint( a, b, c )") := by decide
  ⟨hc,
    match C7_replacement_text NameConvention.ofXName placeCall _ _
      { rangeBegin := 505, rangeEnd := 511, text := "tripoint( a, b, c )" }
      (by decide) hc (List.mem_cons_self _ _) rfl with
    | ⟨XParam, XArg, Callee, jy, YArg, h1, h2, h3, _, _, h6, _, h8, _⟩ =>
      ⟨XParam, XArg, Callee, jy, YArg, h1, h2, h3, h8, h6⟩⟩

/-- C8: take a call site in which the scan pairs some argument with a parameter
classified X.  If the scan finds a Y argument and the span passes the
contiguity check (`MaxArg - MinArg = NumCoordParams - 1`), then exactly one
scanned parameter classifies as X, exactly one as Y, at most one as Z, and
every argument index from `MinArg` to `MaxArg` is scanned and paired with a
parameter classified X, Y or Z.  In particular, when an unrelated parameter
lies between an X and a Y parameter, no suggestion is emitted. -/
theorem C8_coordinate_group_invariant (conv : String → NameConvention) (r : MatchResult)
    (XParam : ParmVarDecl) (Callee : FunctionDecl)
    (hX : r.XParam = some XParam) (hC : r.Callee = some Callee)
    (hlen : NumCallArgs r < 4294967296)
    (hx : ∃ j, SkipArgsOf Callee ≤ j ∧ j < NumCallArgs r ∧
      roleAt (conv XParam.name) Callee (SkipArgsOf Callee) j = some NameMatch.XName) :
    (∀ s : ScanState,
      scanLoop (conv XParam.name) Callee r (SkipArgsOf Callee)
        (NumCallArgs r - SkipArgsOf Callee) (SkipArgsOf Callee) ScanState.init = some s →
      s.YArg ≠ none →
      usub s.MaxArg s.MinArg = usub (NumCoordParamsOf s) 1 →
      (∃! j, SkipArgsOf Callee ≤ j ∧ j < NumCallArgs r ∧
        roleAt (conv XParam.name) Callee (SkipArgsOf Callee) j = some NameMatch.XName) ∧
      (∃! j, SkipArgsOf Callee ≤ j ∧ j < NumCallArgs r ∧
        roleAt (conv XParam.name) Callee (SkipArgsOf Callee) j = some NameMatch.YName) ∧
      (∀ j k, SkipArgsOf Callee ≤ j → j < NumCallArgs r →
        SkipArgsOf Callee ≤ k → k < NumCallArgs r →
        roleAt (conv XParam.name) Callee (SkipArgsOf Callee) j = some NameMatch.ZName →
        roleAt (conv XParam.name) Callee (SkipArgsOf Callee) k = some NameMatch.ZName → j = k) ∧
      (∀ j, s.MinArg ≤ j → j ≤ s.MaxArg →
        SkipArgsOf Callee ≤ j ∧ j < NumCallArgs r ∧
        isCoord (conv XParam.name) Callee (SkipArgsOf Callee) j)) ∧
    (∀ jx ju jy,
      SkipArgsOf Callee ≤ jx → jx < NumCallArgs r → SkipArgsOf Callee ≤ jy → jy < NumCallArgs r →
      roleAt (conv XParam.name) Callee (SkipArgsOf Callee) jx = some NameMatch.XName →
      roleAt (conv XParam.name) Callee (SkipArgsOf Callee) jy = some NameMatch.YName →
      (jx < ju ∧ ju < jy) ∨ (jy < ju ∧ ju < jx) →
      roleAt (conv XParam.name) Callee (SkipArgsOf Callee) ju = some NameMatch.None →
      ¬ Suggests conv r) := by
  constructor
  · intro s hscan hY hcontig
    cases hYs : s.YArg with
    | none => exact absurd hYs hY
    | some YArg => exact coordinate_group hlen hscan hYs hcontig hx
  · intro jx ju jy hx1 hx2 hy1 hy2 hrx hry hbetween hru
    rintro ⟨out, hout, hfix⟩
    obtain ⟨XParam', XArg, Callee', s, YArg, NewCallee, MaxArg, First, Last, hreach, -⟩ :=
      CheckCall_suggestion_inv hout hfix
    obtain ⟨h1, -, h3, -, -, -, h7, h8, h9, -⟩ := hreach
    rw [hX] at h1
    rw [hC] at h3
    cases h1
    cases h3
    obtain ⟨-, -, -, hall⟩ := coordinate_group hlen h7 h8 h9 hx
    obtain ⟨-, -, hb, -⟩ := scan_facts hlen h7 h8
    have hbx := hb jx hx1 hx2 ⟨_, hrx, by decide⟩
    have hby := hb jy hy1 hy2 ⟨_, hry, by decide⟩
    obtain ⟨-, -, m, hm, hne⟩ := hall ju (by omega) (by omega)
    rw [hru] at hm
    cases hm
    exact hne rfl

/-- C8, at the call `move( a, b )` and at the call `shift( a, n, b )`. -/
theorem C8_coordinate_group_invariant_witness :
    (∀ j, (0 ≤ j ∧ j ≤ 1) →
      isCoord (NameConvention.ofXName "x") moveXY (SkipArgsOf moveXY) j) ∧
    ¬ Suggests NameConvention.ofXName shiftCall :=
  ⟨fun j hj =>
    ((C8_coordinate_group_invariant NameConvention.ofXName moveCall (intParam "x") moveXY rfl rfl
      (by decide) ⟨0, by decide, by decide, by decide⟩).1
      { YArg := some (writtenArg 108 "b"), ZArg := none, MinArg := 0, MaxArg := 1 }
      (by decide) (by decide) (by decide)).2.2.2 j hj.1 hj.2 |>.2.2,
   (C8_coordinate_group_invariant NameConvention.ofXName shiftCall (intParam "x") shiftXSY rfl rfl
      (by decide) ⟨0, by decide, by decide, by decide⟩).2 0 1 2
      (by decide) (by decide) (by decide) (by decide) (by decide) (by decide)
      (Or.inl ⟨by decide, by decide⟩) (by decide)⟩

/-- C9: when no parameter paired with an argument by the scan classifies as
Y (whether or not one classifies as X or Z), `CheckCall` emits no suggestion,
whatever the lookup result holds. -/
theorem C9_no_Y_no_suggestion (conv : String → NameConvention) (r : MatchResult)
    (hnoY : ∀ XParam Callee, r.XParam = some XParam → r.Callee = some Callee →
      ∀ j, SkipArgsOf Callee ≤ j → j < NumCallArgs r →
        roleAt (conv XParam.name) Callee (SkipArgsOf Callee) j ≠ some NameMatch.YName) :
    ¬ Suggests conv r := by
  rintro ⟨out, hout, hfix⟩
  obtain ⟨XParam, XArg, Callee, s, YArg, NewCallee, MaxArg, First, Last, hreach, -⟩ :=
    CheckCall_suggestion_inv hout hfix
  obtain ⟨h1, -, h3, -, -, -, h7, h8, -⟩ := hreach
  rcases scanLoop_YArg _ _ _ _ _ _ _ _ h7 with ⟨h, -⟩ | ⟨j, e, hj1, hj2, hj3, -⟩
  · rw [h8] at h
    cases h
  · exact hnoY XParam Callee h1 h3 j hj1 (by omega) hj3

/-- C9, at the call `lift( a, b )` of `void lift( int x, int height )`, although
`void lift( const point &p )` is in scope. -/
theorem C9_no_Y_no_suggestion_witness : ¬ Suggests NameConvention.ofXName liftCall :=
  C9_no_Y_no_suggestion NameConvention.ofXName liftCall
    (by
      intro XParam Callee hX hC j h1 h2
      cases hX
      cases hC
      have h3 : j < 2 := h2
      interval_cases j <;> decide)

/-- C10, the code at the call `draw<int>( 1, 2, 3 )` written in the body of
`template<typename T> void draw( const point &p, T t )`: the search accepts
that template, so the alternate overload of the suggestion is the function
that contains the call. -/
theorem C10_containing_template_not_excluded :
    drawCall.ContainingFunction = some drawPointTemplate.getTemplatedDecl ∧
    findNewCallee drawXYInstance drawCall.ContainingFunction 2 0 0 false drawCall.Lookup =
      some (some drawPointTemplate.getTemplatedDecl) ∧
    CheckCall NameConvention.ofXName drawCall =
      some (suggestionDiags drawCall drawXYInstance drawPointTemplate.getTemplatedDecl none
        1005 1008 "point( 1, 2 )") := by
  decide

/-- C11: when `CheckCall` emits a suggestion, the lookup result splits as
`pre ++ D :: post`, where `D` is accepted (it is not excluded and
`doFunctionsMatch` holds for it) and yields the alternate overload reported, and
no declaration of `pre` is accepted; whatever declarations follow `D`, accepted
or not, `CheckCall` emits the same diagnostics. -/
theorem C11_first_match_wins (conv : String → NameConvention) (r : MatchResult)
    (out : List Diagnostic) (hout : CheckCall conv r = some out) (hfix : HasFixIt out) :
    ∃ XParam XArg Callee s YArg NewCallee pre D post,
      ReachesOverload conv r XParam XArg Callee s YArg NewCallee ∧
      (∃ b e t, out = suggestionDiags r Callee NewCallee s.ZArg b e t) ∧
      r.Lookup = pre ++ D :: post ∧
      MatchedBy Callee r.ContainingFunction (NumCoordParamsOf s) (SkipArgsOf Callee)
        s.MinArg s.ZArg.isSome D NewCallee ∧
      (∀ D', D' ∈ pre → ∀ F, ¬ MatchedBy Callee r.ContainingFunction (NumCoordParamsOf s)
        (SkipArgsOf Callee) s.MinArg s.ZArg.isSome D' F) ∧
      (∀ post', CheckCall conv { r with Lookup := pre ++ D :: post' } = some out) := by
  obtain ⟨XParam, XArg, Callee, s, YArg, NewCallee, MaxArg, First, Last, hreach, ht, hF, hL, heq⟩ :=
    CheckCall_suggestion_inv hout hfix
  obtain ⟨pre, D, post, h1, h2, h3, h4⟩ :=
    findNewCallee_first _ _ _ _ _ _ _ _ hreach.2.2.2.2.2.2.2.2.2
  refine ⟨XParam, XArg, Callee, s, YArg, NewCallee, pre, D, post, hreach, ⟨_, _, _, heq⟩, h1, h2,
    h3, ?_⟩
  intro post'
  have hG : ∀ j, GetCallArg { r with Lookup := pre ++ D :: post' } j = GetCallArg r j :=
    fun _ => rfl
  obtain ⟨r1, r2, r3, r4, r5, r6, r7, r8, r9, -⟩ := hreach
  have hreach' : ReachesOverload conv { r with Lookup := pre ++ D :: post' } XParam XArg Callee s
      YArg NewCallee := by
    refine ⟨r1, r2, r3, r4, r5, r6, ?_, r8, r9, h4 post'⟩
    rw [← r7]
    exact scanLoop_congr _ _ _ (fun j _ => hG j)
  rw [CheckCall_of_reachesOverload hreach', trimLoop_congr hG, ht, heq]
  simp only [hG, hF, hL]
  rfl

/-- C11, at the call `move( a, b )` with two functions `move( const point & )`
in the lookup result: the first one is reported, and with the template that
precedes them, which is not compared because the callee is no instantiation. -/
theorem C11_first_match_wins_witness :
    CheckCall NameConvention.ofXName moveCallCrowded =
      some (suggestionDiags moveCallCrowded moveXY movePoint none 105 108 "point( a, b )") ∧
    ∃ pre D post, moveCallCrowded.Lookup = pre ++ D :: post ∧
      ∀ post', CheckCall NameConvention.ofXName { moveCallCrowded with Lookup := pre ++ D :: post' } =
        some (suggestionDiags moveCallCrowded moveXY movePoint none 105 108 "point( a, b )") :=
  have hc : CheckCall NameConvention.ofXName moveCallCrowded =
      some (suggestionDiags moveCallCrowded moveXY movePoint none 105 108 "point( a, b )") := by
    decide
  ⟨hc,
    match C11_first_match_wins NameConvention.ofXName moveCallCrowded _ hc
      (hasFixIt_suggestion _ _ _ _ _ _ _) with
    | ⟨_, _, _, _, _, _, pre, D, post, _, _, h3, _, _, h6⟩ => ⟨pre, D, post, h3, h6⟩⟩

/-- C12: for a callee whose overloaded operator is call, subscript or
assignment, `SkipArgs` is one: the scan step at raw argument `i >= 1` reads the
declared parameter `i - 1` and nothing else of the callee, the scan starts at
raw argument 1 and does not depend on raw argument 0, `MinArg` is at least 1,
a Y or Z argument found is a raw argument of index at least 1, and the position
`MinArg - SkipArgs` that `doFunctionsMatch` compares at is `MinArg - 1`.  For
every other callee `SkipArgs` is zero, the step at raw argument `i` reads
parameter `i`, and the position is `MinArg`. -/
theorem C12_receiver_skip (NM : NameConvention) (Callee : FunctionDecl) (r : MatchResult)
    (hlen : NumCallArgs r < 4294967296) :
    ((Callee.overloadedOperator = OverloadedOperatorKind.OO_Call ∨
        Callee.overloadedOperator = OverloadedOperatorKind.OO_Subscript ∨
        Callee.overloadedOperator = OverloadedOperatorKind.OO_Equal) →
      SkipArgsOf Callee = 1 ∧
      (∀ i, 1 ≤ i → i < NumCallArgs r →
        roleAt NM Callee (SkipArgsOf Callee) i = paramRole NM Callee (i - 1) ∧
        ∀ (C' : FunctionDecl) (s : ScanState),
          C'.getParamDecl (i - 1) = Callee.getParamDecl (i - 1) →
          scanStep NM C' r (SkipArgsOf Callee) i s = scanStep NM Callee r (SkipArgsOf Callee) i s) ∧
      (∀ r' : MatchResult, NumCallArgs r' = NumCallArgs r →
        (∀ j, 1 ≤ j → GetCallArg r' j = GetCallArg r j) →
        scanLoop NM Callee r' (SkipArgsOf Callee) (NumCallArgs r' - SkipArgsOf Callee)
            (SkipArgsOf Callee) ScanState.init =
          scanLoop NM Callee r (SkipArgsOf Callee) (NumCallArgs r - SkipArgsOf Callee)
            (SkipArgsOf Callee) ScanState.init) ∧
      (∀ s, scanLoop NM Callee r (SkipArgsOf Callee) (NumCallArgs r - SkipArgsOf Callee)
            (SkipArgsOf Callee) ScanState.init = some s →
        1 ≤ s.MinArg ∧ usub s.MinArg (SkipArgsOf Callee) = s.MinArg - 1 ∧
        (∀ e, s.YArg = some e → ∃ j, 1 ≤ j ∧ j < NumCallArgs r ∧
          paramRole NM Callee (j - 1) = some NameMatch.YName ∧ GetCallArg r j = some e) ∧
        (∀ e, s.ZArg = some e → ∃ j, 1 ≤ j ∧ j < NumCallArgs r ∧
          paramRole NM Callee (j - 1) = some NameMatch.ZName ∧ GetCallArg r j = some e))) ∧
    (¬ (Callee.overloadedOperator = OverloadedOperatorKind.OO_Call ∨
        Callee.overloadedOperator = OverloadedOperatorKind.OO_Subscript ∨
        Callee.overloadedOperator = OverloadedOperatorKind.OO_Equal) →
      SkipArgsOf Callee = 0 ∧
      (∀ i, i < NumCallArgs r →
        roleAt NM Callee (SkipArgsOf Callee) i = paramRole NM Callee i ∧
        ∀ (C' : FunctionDecl) (s : ScanState),
          C'.getParamDecl i = Callee.getParamDecl i →
          scanStep NM C' r (SkipArgsOf Callee) i s = scanStep NM Callee r (SkipArgsOf Callee) i s) ∧
      (∀ s, scanLoop NM Callee r (SkipArgsOf Callee) (NumCallArgs r - SkipArgsOf Callee)
            (SkipArgsOf Callee) ScanState.init = some s →
        usub s.MinArg (SkipArgsOf Callee) = s.MinArg ∧
        (∀ e, s.YArg = some e → ∃ j, j < NumCallArgs r ∧
          paramRole NM Callee j = some NameMatch.YName ∧ GetCallArg r j = some e) ∧
        (∀ e, s.ZArg = some e → ∃ j, j < NumCallArgs r ∧
          paramRole NM Callee j = some NameMatch.ZName ∧ GetCallArg r j = some e))) := by
  constructor
  · intro hop
    have hS := SkipArgsOf_operator hop
    rw [hS]
    refine ⟨rfl, ?_, ?_, ?_⟩
    · intro i h1 h2
      have e : usub i 1 = i - 1 := usub_of_le h1 (by omega)
      refine ⟨by rw [roleAt_eq_paramRole, e], ?_⟩
      intro C' s hC'
      unfold scanStep
      rw [e, hC']
    · intro r' hn hargs
      rw [hn]
      exact scanLoop_congr _ _ _ (fun j hj => hargs j hj)
    · intro s hscan
      rw [← hS] at hscan
      obtain ⟨h1, h2, h3, h4⟩ := scan_records hscan
      rw [hS] at h1 h3 h4
      have hmin : s.MinArg < 4294967296 := by unfold UINT_MAX at h2; omega
      refine ⟨h1, usub_of_le h1 hmin, ?_, ?_⟩
      · intro e he
        obtain ⟨j, a, b, c, d⟩ := h3 e he
        rw [roleAt_eq_paramRole, usub_of_le a (by omega)] at c
        exact ⟨j, a, b, c, d⟩
      · intro e he
        obtain ⟨j, a, b, c, d⟩ := h4 e he
        rw [roleAt_eq_paramRole, usub_of_le a (by omega)] at c
        exact ⟨j, a, b, c, d⟩
  · intro hop
    have hS := SkipArgsOf_other hop
    rw [hS]
    refine ⟨rfl, ?_, ?_⟩
    · intro i h2
      have e : usub i 0 = i := usub_of_le (Nat.zero_le _) (by omega)
      refine ⟨by rw [roleAt_eq_paramRole, e], ?_⟩
      intro C' s hC'
      unfold scanStep
      rw [e, hC']
    · intro s hscan
      rw [← hS] at hscan
      obtain ⟨h1, h2, h3, h4⟩ := scan_records hscan
      rw [hS] at h3 h4
      have hmin : s.MinArg < 4294967296 := by unfold UINT_MAX at h2; omega
      refine ⟨usub_of_le (Nat.zero_le _) hmin, ?_, ?_⟩
      · intro e he
        obtain ⟨j, a, b, c, d⟩ := h3 e he
        rw [roleAt_eq_paramRole, usub_of_le a (by omega)] at c
        exact ⟨j, b, c, d⟩
      · intro e he
        obtain ⟨j, a, b, c, d⟩ := h4 e he
        rw [roleAt_eq_paramRole, usub_of_le a (by omega)] at c
        exact ⟨j, b, c, d⟩

/-- C12, at the operator call `canvas( a, b )`: the scan ends with
`MinArg = 1`, the position compared is 0, and the suggestion wraps `a, b`. -/
theorem C12_receiver_skip_witness :
    SkipArgsOf canvasCallXY = 1 ∧
    usub 1 (SkipArgsOf canvasCallXY) = 1 - 1 ∧
    CheckCall NameConvention.ofXName canvasCall =
      some (suggestionDiags canvasCall canvasCallXY canvasCallPoint none 1307 1310
        "point( a, b )") :=
  have h := (C12_receiver_skip (NameConvention.ofXName "x") canvasCallXY canvasCall
    (by decide)).1 (Or.inl rfl)
  ⟨h.1,
    (h.2.2.2 { YArg := some (writtenArg 1310 "b"), ZArg := none, MinArg := 1, MaxArg := 2 }
      (by decide)).2.1,
    by decide⟩

/-- C13, the code at the constructor call `Grid g( 1, 2, 3 )` of the variadic
constructor `Grid( int x, int y, ... )`: three arguments exceed two parameters,
and the report reads `Call->getNumArgs()` through the null pointer `Call`, so
no diagnostic sequence is defined; the same call as an ordinary call
`warn( a, b, c )` gets the report. -/
theorem C13_constructor_call_report_undefined :
    gridCall.Call = none ∧
    usub (NumCallArgs gridCall) (SkipArgsOf gridCtor) > gridCtor.getNumParams ∧
    CheckCall NameConvention.ofXName gridCall = none ∧
    CheckCall NameConvention.ofXName warnCall =
      some (internalErrorDiags warnCall
        { beginLoc := 700, args := [writtenArg 705 "a", writtenArg 708 "b", writtenArg 711 "c"] }
        warnXY) := by
  decide

/-- C14, as the code has it: for a call site whose X parameter name yields an
invalid naming convention, `CheckCall` emits no suggestion; every diagnostic
sequence it emits is empty or the internal-error report of a call whose
argument count exceeds the parameter count; and when the argument count does
not exceed the parameter count it emits nothing. -/
theorem C14_invalid_convention (conv : String → NameConvention) (r : MatchResult)
    (XParam : ParmVarDecl)
    (hX : r.XParam = some XParam) (hinv : (conv XParam.name).valid = false) :
    ¬ Suggests conv r ∧
    (∀ out, CheckCall conv r = some out →
      out = [] ∨
      ∃ Call Callee, r.Call = some Call ∧ r.Callee = some Callee ∧
        usub (NumCallArgs r) (SkipArgsOf Callee) > Callee.getNumParams ∧
        out = internalErrorDiags r Call Callee) ∧
    ((∀ Callee, r.Callee = some Callee →
        ¬ usub (NumCallArgs r) (SkipArgsOf Callee) > Callee.getNumParams) →
      CheckCall conv r = some []) := by
  have hns : ¬ Suggests conv r := by
    rintro ⟨out, hout, hfix⟩
    obtain ⟨XParam', _, _, _, _, _, _, _, _, hreach, -⟩ := CheckCall_suggestion_inv hout hfix
    obtain ⟨h1, -, -, -, -, h6, -⟩ := hreach
    rw [hX] at h1
    cases h1
    rw [hinv] at h6
    cases h6
  refine ⟨hns, ?_, ?_⟩
  · intro out hout
    rcases CheckCall_shape hout with h0 | ⟨Call, Callee, h1, h2, h3, h4⟩ | ⟨_, _, Callee, s, _, NewCallee, _, _, _, -, -, -, -, heq⟩
    · exact Or.inl h0
    · exact Or.inr ⟨Call, Callee, h1, h2, h3, h4⟩
    · exact absurd ⟨out, hout, by rw [heq]; exact hasFixIt_suggestion _ _ _ _ _ _ _⟩ hns
  · intro hcount
    unfold CheckCall
    simp only [hX]
    cases hA : r.XArg with
    | none => rfl
    | some XArg =>
      cases hC : r.Callee with
      | none => rfl
      | some Callee =>
        simp only []
        by_cases h4 : r.Call.isNone ∧ r.ConstructorCall.isNone
        · rw [if_pos h4]
        · rw [if_neg h4, if_neg (hcount Callee hC), if_pos hinv]

/-- C14 as stated fails at the call `note( 1, 2 )` of `void note( int count, ... )`:
the name `count` yields an invalid naming convention, and the internal-error
report is emitted. -/
theorem C14_counterexample :
    (NameConvention.ofXName "count").valid = false ∧
    noteCall.XParam = some (intParam "count") ∧
    CheckCall NameConvention.ofXName noteCall =
      some (internalErrorDiags noteCall
        { beginLoc := 1200, args := [writtenArg 1205 "1", writtenArg 1208 "2"] } noteCount) ∧
    internalErrorDiags noteCall
        { beginLoc := 1200, args := [writtenArg 1205 "1", writtenArg 1208 "2"] } noteCount ≠ [] := by
  decide

/-- C14 as amended, at the call `lift( a, b )` handed over with the parameter
`height`: nothing is emitted. -/
theorem C14_invalid_convention_witness :
    CheckCall NameConvention.ofXName liftCallOnHeight = some [] :=
  (C14_invalid_convention NameConvention.ofXName liftCallOnHeight (intParam "height") rfl
    (by decide)).2.2 (by intro Callee hC; cases hC; decide)

/-- C15, the code at the constructor call `Grid g( 1, 2, 3 )`: the result is
none of the three diagnostic sequences, because the internal-error report
reads through the null pointer `Call`. -/
theorem C15_constructor_call_no_sequence :
    CheckCall NameConvention.ofXName gridCall ≠ some [] ∧
    (∀ Call, CheckCall NameConvention.ofXName gridCall ≠
      some (internalErrorDiags gridCall Call gridCtor)) ∧
    (∀ NewCallee ZArg b e t, CheckCall NameConvention.ofXName gridCall ≠
      some (suggestionDiags gridCall gridCtor NewCallee ZArg b e t)) := by
  have h : CheckCall NameConvention.ofXName gridCall = none := by decide
  rw [h]
  exact ⟨by simp, fun _ => by simp, fun _ _ _ _ _ => by simp⟩

/-- C16: for a callee that has no primary template, a function template in
the lookup result is passed over, so the alternate overload of any suggestion
is a function of the lookup result; for a callee with the primary template
`Tmpl`, a function template `OT` in the lookup result is passed over when it is
`Tmpl`, and is otherwise decided by `doFunctionsMatch` on the patterns of
`Tmpl` and `OT`, which yields the pattern of `OT` as the alternate overload. -/
theorem C16_template_gating (Callee : FunctionDecl) (ContainingFunction : Option FunctionDecl)
    (N SkipArgs MinArg : Nat) (T : Bool) :
    (Callee.primaryTemplate = none →
      (∀ OT rest, findNewCallee Callee ContainingFunction N SkipArgs MinArg T
          (NamedDecl.functionTemplate OT :: rest) =
        findNewCallee Callee ContainingFunction N SkipArgs MinArg T rest) ∧
      (∀ L F, findNewCallee Callee ContainingFunction N SkipArgs MinArg T L = some (some F) →
        NamedDecl.function F ∈ L) ∧
      (∀ conv r out, r.Callee = some Callee → CheckCall conv r = some out → HasFixIt out →
        ∃ NewCallee ZArg b e t, NamedDecl.function NewCallee ∈ r.Lookup ∧
          out = suggestionDiags r Callee NewCallee ZArg b e t)) ∧
    (∀ Tmpl, Callee.primaryTemplate = some Tmpl →
      ∀ OT rest, findNewCallee Callee ContainingFunction N SkipArgs MinArg T
          (NamedDecl.functionTemplate OT :: rest) =
        if Tmpl.addr = OT.addr then
          findNewCallee Callee ContainingFunction N SkipArgs MinArg T rest
        else
          match doFunctionsMatch Tmpl.getTemplatedDecl OT.getTemplatedDecl N SkipArgs MinArg T with
          | none => none
          | some true => some (some OT.getTemplatedDecl)
          | some false => findNewCallee Callee ContainingFunction N SkipArgs MinArg T rest) := by
  have hplain : ∀ (C : FunctionDecl) (CF : Option FunctionDecl) (N Skip Min : Nat) (T : Bool),
      C.primaryTemplate = none → ∀ L F, findNewCallee C CF N Skip Min T L = some (some F) →
        NamedDecl.function F ∈ L := by
    intro C CF N Skip Min T hnone L F h
    obtain ⟨D, hD, hM⟩ := findNewCallee_sound _ _ _ _ _ _ _ _ h
    rcases hM with ⟨O, hO, -, -, -, hF⟩ | ⟨Tmpl, OT, -, hT, -⟩
    · rw [hF, ← hO]; exact hD
    · rw [hnone] at hT; cases hT
  constructor
  · intro hnone
    refine ⟨?_, hplain Callee ContainingFunction N SkipArgs MinArg T hnone, ?_⟩
    · intro OT rest
      simp only [findNewCallee, hnone]
    · intro conv r out hC hout hfix
      obtain ⟨XParam, XArg, Callee', s, YArg, NewCallee, MaxArg, First, Last, hreach, -, -, -, heq⟩ :=
        CheckCall_suggestion_inv hout hfix
      have hC' := hreach.2.2.1
      rw [hC] at hC'
      cases hC'
      exact ⟨NewCallee, _, _, _, _,
        hplain Callee _ _ _ _ _ hnone _ _ hreach.2.2.2.2.2.2.2.2.2, heq⟩
  · intro Tmpl hT OT rest
    by_cases hex : Tmpl.addr = OT.addr
    · rw [if_pos hex]
      simp only [findNewCallee, hT, hex, if_true]
    · rw [if_neg hex]
      cases hd : doFunctionsMatch Tmpl.getTemplatedDecl OT.getTemplatedDecl N SkipArgs MinArg T with
      | none => simp only [findNewCallee, hT, hex, if_false, hd]
      | some b => cases b <;> simp only [findNewCallee, hT, hex, if_false, hd]

/-- C16, at the call `move( a, b )` whose lookup result begins with a function
template: the callee is no instantiation, and the alternate overload is the
function `void move( const point &p )`; and at the call `mark( a, b )`, whose
callee is an instantiation: its own template is passed over. -/
theorem C16_template_gating_witness :
    (∃ NewCallee ZArg b e t, NamedDecl.function NewCallee ∈ moveCallCrowded.Lookup ∧
      suggestionDiags moveCallCrowded moveXY movePoint none 105 108 "point( a, b )" =
        suggestionDiags moveCallCrowded moveXY NewCallee ZArg b e t) ∧
    findNewCallee markXYInstance none 2 0 0 false
        [NamedDecl.functionTemplate markXYTemplate, NamedDecl.functionTemplate markPointTemplate] =
      findNewCallee markXYInstance none 2 0 0 false
        [NamedDecl.functionTemplate markPointTemplate] :=
  ⟨((C16_template_gating moveXY none 2 0 0 false).1 rfl).2.2 NameConvention.ofXName
      moveCallCrowded _ rfl (by decide) (hasFixIt_suggestion _ _ _ _ _ _ _),
    by
      rw [(C16_template_gating markXYInstance none 2 0 0 false).2 markXYTemplate rfl
        markXYTemplate [NamedDecl.functionTemplate markPointTemplate]]
      rfl⟩

/-- C17: once the argument count is accepted, every parameter index
`i - SkipArgs` the scan reads is below the callee's parameter count, so the
scan ends; and for a scan that found a Y argument and a contiguous span,
`SkipArgs <= MinArg` and `( MinArg - SkipArgs ) + NumCoordParams` is at most the
callee's parameter count, so that neither `MinArg - SkipArgs` nor
`ExpectedNumParams` wraps, the position `MinArg - SkipArgs` is an index of the
callee's parameters, and `doFunctionsMatch` applied to the callee and any
function reads no parameter out of range: it returns a result. -/
theorem C17_index_safety (NM : NameConvention) (Callee : FunctionDecl) (r : MatchResult)
    (hlen : NumCallArgs r < 4294967296)
    (hcount : Callee.getNumParams < 4294967296)
    (hpast : ¬ usub (NumCallArgs r) (SkipArgsOf Callee) > Callee.getNumParams) :
    (∀ i, SkipArgsOf Callee ≤ i → i < NumCallArgs r →
      usub i (SkipArgsOf Callee) = i - SkipArgsOf Callee ∧
      usub i (SkipArgsOf Callee) < Callee.getNumParams ∧
      ∃ P, Callee.getParamDecl (usub i (SkipArgsOf Callee)) = some P) ∧
    (∃ s, scanLoop NM Callee r (SkipArgsOf Callee) (NumCallArgs r - SkipArgsOf Callee)
      (SkipArgsOf Callee) ScanState.init = some s) ∧
    (∀ s YArg,
      scanLoop NM Callee r (SkipArgsOf Callee) (NumCallArgs r - SkipArgsOf Callee)
        (SkipArgsOf Callee) ScanState.init = some s →
      s.YArg = some YArg →
      usub s.MaxArg s.MinArg = usub (NumCoordParamsOf s) 1 →
      SkipArgsOf Callee ≤ s.MinArg ∧
      usub s.MinArg (SkipArgsOf Callee) = s.MinArg - SkipArgsOf Callee ∧
      (s.MinArg - SkipArgsOf Callee) + NumCoordParamsOf s ≤ Callee.getNumParams ∧
      usub Callee.getNumParams (usub (NumCoordParamsOf s) 1) =
        Callee.getNumParams - (NumCoordParamsOf s - 1) ∧
      NumCoordParamsOf s - 1 ≤ Callee.getNumParams ∧
      usub s.MinArg (SkipArgsOf Callee) < Callee.getNumParams ∧
      (∀ O : FunctionDecl, ∃ b, doFunctionsMatch Callee O (NumCoordParamsOf s)
        (SkipArgsOf Callee) s.MinArg s.ZArg.isSome = some b)) := by
  have hS := SkipArgsOf_le_one Callee
  have hidx : ∀ i, SkipArgsOf Callee ≤ i → i < NumCallArgs r →
      usub i (SkipArgsOf Callee) = i - SkipArgsOf Callee ∧
      usub i (SkipArgsOf Callee) < Callee.getNumParams := by
    intro i h1 h2
    have e1 : usub i (SkipArgsOf Callee) = i - SkipArgsOf Callee := usub_of_le h1 (by omega)
    have e2 : usub (NumCallArgs r) (SkipArgsOf Callee) = NumCallArgs r - SkipArgsOf Callee :=
      usub_of_le (by omega) hlen
    rw [e2] at hpast
    rw [e1]
    exact ⟨rfl, by omega⟩
  refine ⟨?_, ?_, ?_⟩
  · intro i h1 h2
    obtain ⟨e1, e2⟩ := hidx i h1 h2
    exact ⟨e1, e2, getParamDecl_isSome e2⟩
  · exact scanLoop_defined NM Callee r (SkipArgsOf Callee) _ _ _
      (fun j h1 h2 => ⟨(hidx j h1 (by omega)).2, by omega⟩)
  · intro s YArg hscan hY hcontig
    obtain ⟨-, ⟨h1, -, -, h4, -⟩, -, -⟩ := scan_facts hlen hscan hY
    obtain ⟨-, e3, hspan⟩ := span_in_range hlen hscan hY hcontig
    have hN : NumCoordParamsOf s = 2 ∨ NumCoordParamsOf s = 3 := by
      rcases NumCoordParamsOf_cases s with ⟨-, h⟩ | ⟨z, -, h⟩
      · exact Or.inl h
      · exact Or.inr h
    have e0 : usub (NumCoordParamsOf s) 1 = NumCoordParamsOf s - 1 :=
      usub_of_le (by omega) (by omega)
    rw [e3] at hspan
    refine ⟨h1, e3, hspan, ?_, by omega, isCoord_lt h4, ?_⟩
    · rw [e0]; exact usub_of_le (by omega) hcount
    · intro O
      obtain ⟨b, hb, -⟩ := doFunctionsMatch_spec Callee O (NumCoordParamsOf s) (SkipArgsOf Callee)
        s.MinArg s.ZArg.isSome hN hcount (by rw [e3]; exact hspan)
      exact ⟨b, hb⟩

/-- C17, at the call `move( a, b )`: the comparison of `move( int x, int y )`
with `move( const point &p )` returns a result. -/
theorem C17_index_safety_witness :
    (∃ s, scanLoop (NameConvention.ofXName "x") moveXY moveCall (SkipArgsOf moveXY)
      (NumCallArgs moveCall - SkipArgsOf moveXY) (SkipArgsOf moveXY) ScanState.init = some s) ∧
    ∃ b, doFunctionsMatch moveXY movePoint 2 (SkipArgsOf moveXY) 0 false = some b :=
  have h := C17_index_safety (NameConvention.ofXName "x") moveXY moveCall
    (by decide) (by decide) (by decide)
  ⟨h.2.1,
    (h.2.2 { YArg := some (writtenArg 108 "b"), ZArg := none, MinArg := 0, MaxArg := 1 }
      (writtenArg 108 "b") (by decide) rfl (by decide)).2.2.2.2.2.2 movePoint⟩

end Cata
